import Mathlib

/-!
Verification of the color subsystem of the `stdl` library (`stdl/color.py`).

The Python module is shallowly embedded as follows:

* Python `int` is modelled as `ℤ`, Python `float` as `ℚ` (all arithmetic in
  the module is exact on the rational values of interest; the module never
  relies on binary rounding, and the documented tolerances of the spec absorb
  it).  The float modulo operator `%` is modelled by `qmod`, Python `round`
  (banker's rounding, round-half-to-even) by `pyRound`, and `int()` applied
  to a float (truncation toward zero) by `pyTrunc`.
* Python strings are modelled as `String`/`List Char`; Python `str.lower`
  agrees with `Char.toLower` on the ASCII range used by the module.
* A constructor or parser that can raise `ColorValueError`/`ValueError` is
  modelled as a function into `Option`: `none` means an exception is raised,
  `some c` means the value `c` is returned.
* The regular expressions of the `parse_*` functions are implemented as
  sequential consumers over `List Char` recognising exactly the same
  language (restricted to ASCII `\s`/`\d`, the only inputs exercised here).
-/

/-- Python `int()` applied to a float: truncation toward zero. -/
def pyTrunc (q : ℚ) : ℤ :=
  if 0 ≤ q then ⌊q⌋ else -⌊-q⌋

/-- Python `round()` on a float with no second argument: round half to even. -/
def pyRound (q : ℚ) : ℤ :=
  if q - (⌊q⌋ : ℚ) < 1/2 then ⌊q⌋
  else if 1/2 < q - (⌊q⌋ : ℚ) then ⌊q⌋ + 1
  else if ⌊q⌋ % 2 = 0 then ⌊q⌋ else ⌊q⌋ + 1

/-- Python float modulo `a % b` (for `b > 0`): `a - b * floor (a / b)`. -/
def qmod (a b : ℚ) : ℚ :=
  a - b * (⌊a / b⌋ : ℚ)

theorem pyTrunc_intCast (n : ℤ) : pyTrunc (n : ℚ) = n := by
  unfold pyTrunc
  split
  · simp
  · rw [← Int.cast_neg, Int.floor_intCast]
    omega

theorem pyRound_intCast (n : ℤ) : pyRound (n : ℚ) = n := by
  unfold pyRound
  simp only [Int.floor_intCast, sub_self]
  norm_num

theorem le_pyRound {n : ℤ} {q : ℚ} (h : (n : ℚ) ≤ q) : n ≤ pyRound q := by
  unfold pyRound
  have hf : n ≤ ⌊q⌋ := Int.le_floor.mpr h
  split
  · exact hf
  · split
    · omega
    · split <;> omega

theorem pyRound_le {n : ℤ} {q : ℚ} (h : q ≤ (n : ℚ)) : pyRound q ≤ n := by
  unfold pyRound
  have hf : ⌊q⌋ ≤ n := by
    have := Int.floor_le_floor h
    simpa using this
  have hfr : (⌊q⌋ : ℚ) ≤ q := Int.floor_le q
  split
  · exact hf
  · rename_i h1
    push_neg at h1
    have hne : ⌊q⌋ < n := by
      rcases lt_or_eq_of_le hf with h2 | h2
      · exact h2
      · exfalso
        rw [h2] at hfr h1
        nlinarith
    split
    · omega
    · split <;> omega

theorem abs_pyRound_sub_le (q : ℚ) : |(pyRound q : ℚ) - q| ≤ 1/2 := by
  unfold pyRound
  have h0 : (0 : ℚ) ≤ q - (⌊q⌋ : ℚ) := by
    have := Int.floor_le q
    linarith
  have h1 : q - (⌊q⌋ : ℚ) < 1 := by
    have := Int.lt_floor_add_one q
    linarith
  split
  · rename_i hr
    rw [abs_le]
    constructor <;> linarith
  · rename_i hr
    push_neg at hr
    split
    · rename_i hr2
      rw [abs_le]
      push_cast
      constructor <;> linarith
    · rename_i hr2
      push_neg at hr2
      have hq : q - (⌊q⌋ : ℚ) = 1/2 := le_antisymm hr2 hr
      split
      · rw [abs_le]
        constructor <;> linarith
      · rw [abs_le]
        push_cast
        constructor <;> linarith

theorem qmod_nonneg (a : ℚ) {b : ℚ} (hb : 0 < b) : 0 ≤ qmod a b := by
  unfold qmod
  have h := Int.floor_le (a / b)
  have : (⌊a / b⌋ : ℚ) * b ≤ (a / b) * b := by
    exact mul_le_mul_of_nonneg_right h (le_of_lt hb)
  rw [div_mul_cancel₀ a (ne_of_gt hb)] at this
  linarith [this]

theorem qmod_lt (a : ℚ) {b : ℚ} (hb : 0 < b) : qmod a b < b := by
  unfold qmod
  have h := Int.lt_floor_add_one (a / b)
  have : (a / b) * b < ((⌊a / b⌋ : ℚ) + 1) * b := by
    exact mul_lt_mul_of_pos_right h hb
  rw [div_mul_cancel₀ a (ne_of_gt hb)] at this
  nlinarith

theorem qmod_eq_self {a b : ℚ} (h0 : 0 ≤ a) (h1 : a < b) : qmod a b = a := by
  have hb : 0 < b := lt_of_le_of_lt h0 h1
  unfold qmod
  have : ⌊a / b⌋ = 0 := by
    rw [Int.floor_eq_zero_iff]
    constructor
    · positivity
    · rw [div_lt_one hb]
      exact h1
  rw [this]
  push_cast
  ring

theorem qmod_shift {a b : ℚ} (h0 : b ≤ a) (h1 : a < 2 * b) (hb : 0 < b) :
    qmod a b = a - b := by
  unfold qmod
  have : ⌊a / b⌋ = 1 := by
    have hlo : (1 : ℚ) ≤ a / b := by
      rw [le_div_iff₀ hb]
      linarith
    have hhi : a / b < 2 := by
      rw [div_lt_iff₀ hb]
      linarith
    rw [Int.floor_eq_iff]
    constructor <;> push_cast <;> linarith
  rw [this]
  push_cast
  ring

/-- ASCII whitespace recognised by the regex class under the inputs considered
here (space, tab, newline, carriage return, form feed, vertical tab). -/
def isSpaceCh (c : Char) : Bool :=
  c = ' ' || c = '\t' || c = '\n' || c = '\r' || c = '\x0b' || c = '\x0c'

/-- Character class of Python's `"0123456789abcdef"` membership test. -/
def isLowerHex (c : Char) : Bool :=
  (48 ≤ c.toNat && c.toNat ≤ 57) || (97 ≤ c.toNat && c.toNat ≤ 102)

/-- Character class of `"0123456789ABCDEFabcdef"` (HEX.validate). -/
def isHexAny (c : Char) : Bool :=
  (48 ≤ c.toNat && c.toNat ≤ 57) || (65 ≤ c.toNat && c.toNat ≤ 70) ||
    (97 ≤ c.toNat && c.toNat ≤ 102)

/-- Character class of the regex range `[A-Za-z]`. -/
def isAsciiAlpha (c : Char) : Bool :=
  (65 ≤ c.toNat && c.toNat ≤ 90) || (97 ≤ c.toNat && c.toNat ≤ 122)

/-- Value of an ASCII decimal digit character. -/
def digitVal (c : Char) : ℕ :=
  c.toNat - 48

/-- Decimal digit character, as produced by Python integer formatting. -/
def digitChar0 (d : ℕ) : Char :=
  Char.ofNat (48 + d)

/-- Value of a hexadecimal digit as accepted by `int(s, 16)`. -/
def hexDigVal (c : Char) : Option ℕ :=
  if 48 ≤ c.toNat ∧ c.toNat ≤ 57 then some (c.toNat - 48)
  else if 65 ≤ c.toNat ∧ c.toNat ≤ 70 then some (c.toNat - 55)
  else if 97 ≤ c.toNat ∧ c.toNat ≤ 102 then some (c.toNat - 87)
  else none

/-- Lowercase hexadecimal digit character, as produced by the `x` format. -/
def hexChar (d : ℕ) : Char :=
  if d < 10 then Char.ofNat (48 + d) else Char.ofNat (87 + d)

/-- Uppercase hexadecimal digit character, as produced by the `X` format. -/
def hexCharU (d : ℕ) : Char :=
  if d < 10 then Char.ofNat (48 + d) else Char.ofNat (55 + d)

/-- Two-digit zero-padded lowercase hex of a byte, Python `f"{n:02x}"`. -/
def hex2 (n : ℕ) : List Char :=
  [hexChar (n / 16), hexChar (n % 16)]

/-- Two-digit zero-padded uppercase hex of a byte, Python `f"{n:02X}"`. -/
def hex2U (n : ℕ) : List Char :=
  [hexCharU (n / 16), hexCharU (n % 16)]

/-- Value of a two-hex-digit string as computed by `int(s, 16)` on slices. -/
def val2 (c1 c2 : Char) : Option ℕ := do
  let v1 ← hexDigVal c1
  let v2 ← hexDigVal c2
  pure (16 * v1 + v2)

/-- Value of a string of decimal digits read left to right (`int(s)`). -/
def readNat (ds : List Char) : ℕ :=
  ds.foldl (fun a c => 10 * a + digitVal c) 0

/-- Little-endian decimal digits with explicit fuel (structural recursion). -/
def natDigitsAux : ℕ → ℕ → List ℕ
  | 0, _ => []
  | _ + 1, 0 => []
  | f + 1, n + 1 => (n + 1) % 10 :: natDigitsAux f ((n + 1) / 10)

/-- Decimal representation of a natural number, Python `str(n)` for `n ≥ 0`. -/
def natDec (n : ℕ) : List Char :=
  if n = 0 then ['0'] else ((natDigitsAux n n).reverse.map digitChar0)

/-- Decimal representation of a Python integer, `str(i)`. -/
def intRepr (i : ℤ) : List Char :=
  if i < 0 then '-' :: natDec i.natAbs else natDec i.toNat

/-- Exactly `k` decimal digit characters giving the value `n % 10^k`,
used for the fractional part of a positional float representation. -/
def fracDigits : ℕ → ℕ → List Char
  | 0, _ => []
  | k + 1, n => fracDigits k (n / 10) ++ [digitChar0 (n % 10)]

/-- Consume the regex `\s*`. -/
def skipWs (s : List Char) : List Char :=
  s.dropWhile isSpaceCh

/-- Consume an expected literal string, fail otherwise. -/
def expectLit : List Char → List Char → Option (List Char)
  | [], s => some s
  | c :: cs, d :: ds => if d = c then expectLit cs ds else none
  | _ :: _, [] => none

/-- Consume one expected character. -/
def expectCh (c : Char) : List Char → Option (List Char)
  | d :: ds => if d = c then some ds else none
  | [] => none

/-- Consume the optional sign of the regex `[+-]?`; `true` means negative. -/
def parseSign : List Char → Bool × List Char
  | '-' :: rest => (true, rest)
  | '+' :: rest => (false, rest)
  | s => (false, s)

/-- Consume the regex `[+-]?\d+` and convert with Python `int`. -/
def parseIntTok (s : List Char) : Option (ℤ × List Char) :=
  let p := parseSign s
  let ds := p.2.takeWhile Char.isDigit
  let rest := p.2.dropWhile Char.isDigit
  if ds = [] then none
  else some (if p.1 then -(readNat ds : ℤ) else (readNat ds : ℤ), rest)

/-- Consume the regex `[+-]?(?:\d+(?:\.\d+)?|\.\d+)` and convert with
Python `float`; the value is exact on the decimal rationals involved. -/
def parseFloatTok (s : List Char) : Option (ℚ × List Char) :=
  let p := parseSign s
  let withSign : ℚ → ℚ := fun q => if p.1 then -q else q
  match p.2 with
  | [] => none
  | c :: t =>
    if c = '.' then
      let ds := t.takeWhile Char.isDigit
      let rest2 := t.dropWhile Char.isDigit
      if ds = [] then none
      else some (withSign ((readNat ds : ℚ) / 10 ^ ds.length), rest2)
    else
      let ds := (c :: t).takeWhile Char.isDigit
      let rest := (c :: t).dropWhile Char.isDigit
      if ds = [] then none
      else
        match rest with
        | c2 :: rest2 =>
          if c2 = '.' then
            let fs := rest2.takeWhile Char.isDigit
            let rest3 := rest2.dropWhile Char.isDigit
            if fs = [] then some (withSign (readNat ds : ℚ), rest)
            else some (withSign ((readNat ds : ℚ) + (readNat fs : ℚ) / 10 ^ fs.length), rest3)
          else some (withSign (readNat ds : ℚ), rest)
        | [] => some (withSign (readNat ds : ℚ), rest)

theorem digitChar0_isDigit {d : ℕ} (h : d < 10) :
    Char.isDigit (digitChar0 d) = true := by
  interval_cases d <;> decide

theorem digitVal_digitChar0 {d : ℕ} (h : d < 10) : digitVal (digitChar0 d) = d := by
  interval_cases d <;> decide

theorem isDigit_not_special {c : Char} (h : Char.isDigit c = true) :
    c ≠ '-' ∧ c ≠ '+' ∧ c ≠ '.' ∧ isSpaceCh c = false := by
  refine ⟨?_, ?_, ?_, ?_⟩
  · rintro rfl; simp [Char.isDigit] at h
  · rintro rfl; simp [Char.isDigit] at h
  · rintro rfl; simp [Char.isDigit] at h
  · cases hsp : isSpaceCh c
    · rfl
    · exfalso
      unfold isSpaceCh at hsp
      simp only [Bool.or_eq_true, decide_eq_true_eq] at hsp
      rcases hsp with ((((rfl | rfl) | rfl) | rfl) | rfl) | rfl <;>
        simp [Char.isDigit] at h

theorem natDigitsAux_lt (f n : ℕ) : ∀ d ∈ natDigitsAux f n, d < 10 := by
  induction f generalizing n with
  | zero => intro d hd; simp [natDigitsAux] at hd
  | succ f ih =>
    cases n with
    | zero => intro d hd; simp [natDigitsAux] at hd
    | succ m =>
      intro d hd
      simp only [natDigitsAux, List.mem_cons] at hd
      rcases hd with h | h
      · subst h; exact Nat.mod_lt _ (by norm_num)
      · exact ih _ d h

theorem readNat_append (xs ys : List Char) :
    readNat (xs ++ ys) = ys.foldl (fun a c => 10 * a + digitVal c) (readNat xs) := by
  unfold readNat
  rw [List.foldl_append]

theorem readNat_snoc (xs : List Char) (c : Char) :
    readNat (xs ++ [c]) = 10 * readNat xs + digitVal c := by
  rw [readNat_append]
  rfl

theorem readNat_digits (f n : ℕ) (h : n ≤ f) :
    readNat ((natDigitsAux f n).reverse.map digitChar0) = n := by
  induction f generalizing n with
  | zero =>
    interval_cases n
    rfl
  | succ f ih =>
    cases n with
    | zero => rfl
    | succ m =>
      have hdiv : (m + 1) / 10 ≤ f := by
        have h1 : (m + 1) / 10 < m + 1 := Nat.div_lt_self (Nat.succ_pos m) (by norm_num)
        omega
      simp only [natDigitsAux, List.reverse_cons, List.map_append, List.map_cons,
        List.map_nil]
      rw [readNat_snoc, ih _ hdiv, digitVal_digitChar0 (Nat.mod_lt _ (by norm_num))]
      omega

theorem natDec_ne_nil (n : ℕ) : natDec n ≠ [] := by
  unfold natDec
  split
  · simp
  · rename_i h
    cases n with
    | zero => simp at h
    | succ m =>
      simp only [natDigitsAux, List.reverse_cons, List.map_append, List.map_cons]
      simp

theorem natDec_all_digits (n : ℕ) : ∀ c ∈ natDec n, Char.isDigit c = true := by
  unfold natDec
  split
  · intro c hc
    simp at hc
    subst hc
    decide
  · intro c hc
    simp only [List.mem_map, List.mem_reverse] at hc
    obtain ⟨d, hd, rfl⟩ := hc
    exact digitChar0_isDigit (natDigitsAux_lt _ _ d hd)

theorem readNat_natDec (n : ℕ) : readNat (natDec n) = n := by
  unfold natDec
  split
  · rename_i h; subst h; rfl
  · exact readNat_digits n n le_rfl

theorem fracDigits_length (k n : ℕ) : (fracDigits k n).length = k := by
  induction k generalizing n with
  | zero => rfl
  | succ k ih => simp [fracDigits, ih]

theorem fracDigits_all_digits (k n : ℕ) :
    ∀ c ∈ fracDigits k n, Char.isDigit c = true := by
  induction k generalizing n with
  | zero => intro c hc; simp [fracDigits] at hc
  | succ k ih =>
    intro c hc
    simp only [fracDigits, List.mem_append, List.mem_singleton] at hc
    rcases hc with h | h
    · exact ih _ c h
    · subst h
      exact digitChar0_isDigit (Nat.mod_lt _ (by norm_num))

theorem readNat_fracDigits (k n : ℕ) : readNat (fracDigits k n) = n % 10 ^ k := by
  induction k generalizing n with
  | zero => simp [fracDigits, readNat, Nat.mod_one]
  | succ k ih =>
    simp only [fracDigits]
    rw [readNat_snoc, ih, digitVal_digitChar0 (Nat.mod_lt _ (by norm_num))]
    have hp : (10 : ℕ) ^ (k + 1) = 10 * 10 ^ k := by ring
    rw [hp, Nat.mod_mul]
    omega

/-- The head of the list, if any, does not satisfy `p`. -/
def headNotSat (p : Char → Bool) : List Char → Prop
  | [] => True
  | c :: _ => p c = false

theorem takeWhile_append_all {p : Char → Bool} (ds rest : List Char)
    (h1 : ∀ c ∈ ds, p c = true) (h2 : headNotSat p rest) :
    (ds ++ rest).takeWhile p = ds := by
  induction ds with
  | nil =>
    simp only [List.nil_append]
    cases rest with
    | nil => rfl
    | cons c t =>
      unfold headNotSat at h2
      simp [List.takeWhile_cons, h2]
  | cons c t ih =>
    have hc : p c = true := h1 c (List.mem_cons_self c t)
    rw [List.cons_append, List.takeWhile_cons_of_pos hc,
      ih (fun x hx => h1 x (List.mem_cons_of_mem c hx))]

theorem dropWhile_append_all {p : Char → Bool} (ds rest : List Char)
    (h1 : ∀ c ∈ ds, p c = true) (h2 : headNotSat p rest) :
    (ds ++ rest).dropWhile p = rest := by
  induction ds with
  | nil =>
    simp only [List.nil_append]
    cases rest with
    | nil => rfl
    | cons c t =>
      unfold headNotSat at h2
      simp [List.dropWhile_cons, h2]
  | cons c t ih =>
    have hc : p c = true := h1 c (List.mem_cons_self c t)
    rw [List.cons_append, List.dropWhile_cons_of_pos hc]
    exact ih (fun x hx => h1 x (List.mem_cons_of_mem c hx))

theorem skipWs_no_ws (s : List Char) (h : headNotSat isSpaceCh s) :
    skipWs s = s := by
  unfold skipWs
  cases s with
  | nil => rfl
  | cons c t =>
    unfold headNotSat at h
    rw [List.dropWhile_cons_of_neg]
    rw [h]
    simp

theorem skipWs_space (s : List Char) : skipWs (' ' :: s) = skipWs s := by
  unfold skipWs
  rw [List.dropWhile_cons_of_pos]
  decide

theorem expectLit_append (l s : List Char) : expectLit l (l ++ s) = some s := by
  induction l with
  | nil => rfl
  | cons c t ih => simp [expectLit, ih]

theorem expectCh_cons (c : Char) (s : List Char) : expectCh c (c :: s) = some s := by
  simp [expectCh]

theorem parseSign_cons_of {c : Char} (s : List Char) (h1 : c ≠ '-') (h2 : c ≠ '+') :
    parseSign (c :: s) = (false, c :: s) := by
  unfold parseSign
  split
  · rename_i heq
    injection heq with heq1 _
    exact absurd heq1 h1
  · rename_i heq
    injection heq with heq1 _
    exact absurd heq1 h2
  · rfl

theorem parseIntTok_natDec (n : ℕ) (rest : List Char)
    (hr : headNotSat Char.isDigit rest) :
    parseIntTok (natDec n ++ rest) = some ((n : ℤ), rest) := by
  obtain ⟨c, t, hct⟩ : ∃ c t, natDec n = c :: t := by
    cases h : natDec n with
    | nil => exact absurd h (natDec_ne_nil n)
    | cons c t => exact ⟨c, t, rfl⟩
  have hcd : Char.isDigit c = true := by
    apply natDec_all_digits n
    rw [hct]; exact List.mem_cons_self c t
  have hspec := isDigit_not_special hcd
  unfold parseIntTok
  rw [hct, List.cons_append, parseSign_cons_of _ hspec.1 hspec.2.1]
  simp only [← List.cons_append, ← hct]
  rw [takeWhile_append_all _ _ (natDec_all_digits n) hr,
    dropWhile_append_all _ _ (natDec_all_digits n) hr]
  simp [natDec_ne_nil n, readNat_natDec]

/-- Search for the least exponent `k ≤ fuel` with `d` dividing `10^k`
(the denominator of a decimal rational is a divisor of some power of ten). -/
def decScaleAux (d : ℕ) : ℕ → ℕ → Option ℕ
  | 0, _ => none
  | f + 1, k => if 10 ^ k % d = 0 then some k else decScaleAux d f (k + 1)

/-- Least `k` with `d` dividing `10^k`, if any (`d + 1` steps suffice for
every denominator of a value of a Python float). -/
def decScale (d : ℕ) : Option ℕ :=
  decScaleAux d (d + 1) 0

/-- Positional decimal rendering of the value `n / 10^k`, as Python float
repr renders it for magnitudes in `[1e-4, 1e16)` (and for zero). -/
def posRepr0 (n k : ℕ) : List Char :=
  if k = 0 then natDec n ++ ['.', '0']
  else natDec (n / 10 ^ k) ++ '.' :: fracDigits k n

/-- Pad a digit string to at least two digits, as in Python float exponents. -/
def pad2 (ds : List Char) : List Char :=
  if ds.length = 1 then '0' :: ds else ds

/-- Scientific rendering of the value `n / 10^k` (`n ≠ 0`), as Python float
repr renders magnitudes below `1e-4` or at least `1e16`. -/
def sciRepr (n k : ℕ) : List Char :=
  let ds := natDigitsAux n n
  let mant := (ds.dropWhile (fun d => d == 0)).reverse.map digitChar0
  let expo : ℤ := (ds.length : ℤ) - 1 - (k : ℤ)
  (match mant with
   | [] => ['0']
   | m0 :: rest => m0 :: (if rest = [] then [] else '.' :: rest))
  ++ 'e' :: (if expo < 0 then '-' else '+') :: pad2 (natDec expo.natAbs)

/-- Python `repr`/`str` of a nonnegative float value, modelled on the exact
decimal rationals that arise here.  Positional notation is used for zero and
for magnitudes in `[1e-4, 1e16)`, scientific notation otherwise; a rational
whose denominator is not a divisor of a power of ten is not the value of any
Python float, so the fallback marker is unreachable on the modelled inputs. -/
def pyFloatAbs (q : ℚ) : List Char :=
  if q = 0 then ['0', '.', '0'] else
  match decScale q.den with
  | none => ['n', 'a', 'n']
  | some k =>
    let n : ℕ := q.num.toNat * (10 ^ k / q.den)
    if q < 1 / 10000 then sciRepr n k
    else if (10 : ℚ) ^ 16 ≤ q then sciRepr n k
    else posRepr0 n k

/-- Python `repr`/`str` of a float value. -/
def pyFloatRepr (q : ℚ) : List Char :=
  if q < 0 then '-' :: pyFloatAbs (-q) else pyFloatAbs q

/-- The nonnegative rational `q` is rendered by Python float repr in
positional (non-exponent) decimal notation: it is zero, or a decimal
rational with `1e-4 ≤ q < 1e16`. -/
def posFloat (q : ℚ) : Prop :=
  q = 0 ∨ (0 < q ∧ 1 / 10000 ≤ q ∧ q < 10 ^ 16 ∧ (decScale q.den).isSome)

theorem decScaleAux_dvd (d : ℕ) :
    ∀ f k0 k, decScaleAux d f k0 = some k → 10 ^ k % d = 0 := by
  intro f
  induction f with
  | zero => intro k0 k h; simp [decScaleAux] at h
  | succ f ih =>
    intro k0 k h
    unfold decScaleAux at h
    split at h
    · rename_i hdvd
      injection h with h
      subst h
      exact hdvd
    · exact ih _ k h

theorem decScale_dvd {d k : ℕ} (h : decScale d = some k) : d ∣ 10 ^ k := by
  have h0 := decScaleAux_dvd d (d + 1) 0 k h
  have hd : d ≠ 0 := by
    rintro rfl
    simp at h0
  exact Nat.dvd_of_mod_eq_zero h0

theorem rat_eq_scaled {q : ℚ} {k : ℕ} (hq : 0 < q) (hdvd : q.den ∣ 10 ^ k) :
    ((q.num.toNat * (10 ^ k / q.den) : ℕ) : ℚ) = q * 10 ^ k := by
  obtain ⟨c, hc⟩ := hdvd
  have hden0 : 0 < q.den := q.den_pos
  have hdivc : 10 ^ k / q.den = c := by
    rw [hc]
    exact Nat.mul_div_cancel_left c hden0
  have hnum : (0 : ℤ) ≤ q.num := le_of_lt (Rat.num_pos.mpr hq)
  have h1 : ((q.num.toNat : ℕ) : ℚ) = ((q.num : ℤ) : ℚ) := by
    rw [← Int.cast_natCast, Int.toNat_of_nonneg hnum]
  have hck : ((10 : ℚ)) ^ k = (q.den : ℚ) * (c : ℚ) := by
    have h2 : ((10 ^ k : ℕ) : ℚ) = ((q.den * c : ℕ) : ℚ) := by
      exact_mod_cast congrArg (fun x : ℕ => (x : ℚ)) hc
    push_cast at h2
    exact h2
  have hqd : (q.den : ℚ) ≠ 0 := by positivity
  have hqn : (q.num : ℚ) = q * (q.den : ℚ) := by
    rw [← div_eq_iff hqd]
    exact Rat.num_div_den q
  push_cast [hdivc]
  rw [h1, hck, hqn]
  ring

theorem parseFloatTok_shape (ip : ℕ) (fs rest : List Char) (hne : fs ≠ [])
    (hfs : ∀ c ∈ fs, Char.isDigit c = true)
    (hr : headNotSat Char.isDigit rest) :
    parseFloatTok (natDec ip ++ '.' :: (fs ++ rest)) =
      some ((ip : ℚ) + (readNat fs : ℚ) / 10 ^ fs.length, rest) := by
  obtain ⟨c, t, hct⟩ : ∃ c t, natDec ip = c :: t := by
    cases h : natDec ip with
    | nil => exact absurd h (natDec_ne_nil ip)
    | cons c t => exact ⟨c, t, rfl⟩
  have hcd : Char.isDigit c = true := by
    apply natDec_all_digits ip
    rw [hct]; exact List.mem_cons_self c t
  have hspec := isDigit_not_special hcd
  have hdot : headNotSat Char.isDigit ('.' :: (fs ++ rest)) := by
    show Char.isDigit '.' = false
    decide
  unfold parseFloatTok
  rw [hct, List.cons_append, parseSign_cons_of _ hspec.1 hspec.2.1]
  dsimp only
  rw [if_neg hspec.2.2.1]
  rw [← List.cons_append, ← hct]
  rw [takeWhile_append_all _ _ (natDec_all_digits ip) hdot,
    dropWhile_append_all _ _ (natDec_all_digits ip) hdot]
  rw [if_neg (natDec_ne_nil ip)]
  dsimp only
  rw [if_pos rfl]
  rw [takeWhile_append_all _ _ hfs hr, dropWhile_append_all _ _ hfs hr]
  rw [if_neg hne]
  simp [readNat_natDec]

theorem parseFloatTok_pyFloatRepr {q : ℚ} (hq : posFloat q) (rest : List Char)
    (hr : headNotSat Char.isDigit rest) :
    parseFloatTok (pyFloatRepr q ++ rest) = some (q, rest) := by
  rcases hq with rfl | ⟨hq0, hqlo, hqhi, hks⟩
  · have hshape := parseFloatTok_shape 0 ['0'] rest (by simp)
      (by intro c hc; simp at hc; subst hc; decide) hr
    have hlist : pyFloatRepr 0 ++ rest = natDec 0 ++ '.' :: (['0'] ++ rest) := by
      simp [pyFloatRepr, pyFloatAbs, natDec]
    rw [hlist, hshape]
    norm_num [readNat]
    decide
  · obtain ⟨k, hk⟩ := Option.isSome_iff_exists.mp hks
    have hdvd := decScale_dvd hk
    have hnq := rat_eq_scaled hq0 hdvd
    have hp10 : (0 : ℚ) < 10 ^ k := by positivity
    have habs : pyFloatRepr q =
        posRepr0 (q.num.toNat * (10 ^ k / q.den)) k := by
      unfold pyFloatRepr pyFloatAbs
      rw [if_neg (by linarith : ¬q < 0), if_neg (ne_of_gt hq0), hk]
      dsimp only
      rw [if_neg (by linarith : ¬q < 1 / 10000), if_neg (by linarith : ¬(10 : ℚ) ^ 16 ≤ q)]
    set n : ℕ := q.num.toNat * (10 ^ k / q.den) with hn
    have hqn : q = (n : ℚ) / 10 ^ k := by
      rw [hnq]
      field_simp
    cases k with
    | zero =>
      have hshape := parseFloatTok_shape n ['0'] rest (by simp)
        (by intro c hc; simp at hc; subst hc; decide) hr
      have hlist : posRepr0 n 0 ++ rest = natDec n ++ '.' :: (['0'] ++ rest) := by
        simp [posRepr0]
      rw [habs, hlist, hshape]
      have : q = (n : ℚ) := by
        rw [hqn]
        norm_num
      rw [this]
      norm_num [readNat]
      decide
    | succ m =>
      have hfne : fracDigits (m + 1) n ≠ [] := by
        intro h
        have := fracDigits_length (m + 1) n
        rw [h] at this
        simp at this
      have hshape := parseFloatTok_shape (n / 10 ^ (m + 1)) (fracDigits (m + 1) n) rest
        hfne (fracDigits_all_digits _ _) hr
      have hlist : posRepr0 n (m + 1) ++ rest =
          natDec (n / 10 ^ (m + 1)) ++ '.' :: (fracDigits (m + 1) n ++ rest) := by
        simp [posRepr0]
      rw [habs, hlist, hshape]
      congr 1
      rw [Prod.ext_iff]
      refine ⟨?_, rfl⟩
      simp only
      rw [readNat_fracDigits, fracDigits_length, hqn]
      have hsplit : ((n : ℕ) : ℚ) =
          (10 : ℚ) ^ (m + 1) * ((n / 10 ^ (m + 1) : ℕ) : ℚ) + ((n % 10 ^ (m + 1) : ℕ) : ℚ) := by
        have h1 := Nat.div_add_mod n (10 ^ (m + 1))
        have h2 : ((10 ^ (m + 1) * (n / 10 ^ (m + 1)) + n % 10 ^ (m + 1) : ℕ) : ℚ) = ((n : ℕ) : ℚ) := by
          exact_mod_cast congrArg (fun x : ℕ => (x : ℚ)) h1
        rw [← h2]
        push_cast
        ring
      rw [hsplit]
      have : ((10 : ℚ)) ^ (m + 1) ≠ 0 := by positivity
      field_simp
      ring

/-- Python `str.lower` character map (`Char.toLower` agrees on ASCII). -/
def pyLower (l : List Char) : List Char :=
  l.map Char.toLower

/-- Python slice `l[a:b]` for `0 ≤ a ≤ b`. -/
def pySlice (l : List Char) (a b : ℕ) : List Char :=
  (l.drop a).take (b - a)

/-- Python `int(s, 16)` on a string of hexadecimal digits (raises on the
empty string or on a non-hex character). -/
def intHexAux : List Char → ℕ → Option ℕ
  | [], acc => some acc
  | c :: t, acc => (hexDigVal c).bind fun v => intHexAux t (16 * acc + v)

/-- Python `int(s, 16)` (for the slices of validated color strings). -/
def intHex (l : List Char) : Option ℕ :=
  if l = [] then none else intHexAux l 0

/-- Strip a single leading `#`, as in `HEX.__init__`. -/
def stripOneHash : List Char → List Char
  | [] => []
  | c :: t => if c = '#' then t else c :: t

/-- Python `"".join(c for c in value.lower() if c in "0123456789abcdef")`
from `ASSA.__init__`. -/
def cleanLowerHex (l : List Char) : List Char :=
  (l.map Char.toLower).filter isLowerHex

/-- Python `ASSA._clean_hex`: uppercase, then keep `0123456789ABCDEF`. -/
def cleanHexU (l : List Char) : List Char :=
  (l.map Char.toUpper).filter fun c =>
    (48 ≤ c.toNat && c.toNat ≤ 57) || (65 ≤ c.toNat && c.toNat ≤ 70)

/-- The value object of the `RGB` class: three Python ints. -/
structure RGBv where
  red : ℤ
  green : ℤ
  blue : ℤ
deriving DecidableEq

/-- The range invariant enforced by `RGB.validate`. -/
def RGBv.Valid (c : RGBv) : Prop :=
  0 ≤ c.red ∧ c.red ≤ 255 ∧ 0 ≤ c.green ∧ c.green ≤ 255 ∧ 0 ≤ c.blue ∧ c.blue ≤ 255

instance (c : RGBv) : Decidable c.Valid := by
  unfold RGBv.Valid
  infer_instance

/-- `RGB.__init__` on int arguments: store, validate, freeze. -/
def RGB.mkZ (red green blue : ℤ) : Option RGBv :=
  if (RGBv.mk red green blue).Valid then some ⟨red, green, blue⟩ else none

/-- `RGB.__init__` on numeric (int-or-float) arguments: `int()` truncates
each channel toward zero before validation. -/
def RGB.mkQ (red green blue : ℚ) : Option RGBv :=
  RGB.mkZ (pyTrunc red) (pyTrunc green) (pyTrunc blue)

/-- The value object of the `RGBA` class. -/
structure RGBAv where
  red : ℤ
  green : ℤ
  blue : ℤ
  alpha : ℚ
deriving DecidableEq

/-- The range invariant enforced by `RGBA.validate`. -/
def RGBAv.Valid (c : RGBAv) : Prop :=
  0 ≤ c.red ∧ c.red ≤ 255 ∧ 0 ≤ c.green ∧ c.green ≤ 255 ∧ 0 ≤ c.blue ∧ c.blue ≤ 255 ∧
    0 ≤ c.alpha ∧ c.alpha ≤ 1

instance (c : RGBAv) : Decidable c.Valid := by
  unfold RGBAv.Valid
  infer_instance

/-- `RGBA.__init__` on int channels and a float alpha. -/
def RGBA.mkZ (red green blue : ℤ) (alpha : ℚ) : Option RGBAv :=
  if (RGBAv.mk red green blue alpha).Valid then some ⟨red, green, blue, alpha⟩ else none

/-- `RGBA.__init__` on numeric arguments (`int()` truncation on channels,
`float()` identity on alpha). -/
def RGBA.mkQ (red green blue alpha : ℚ) : Option RGBAv :=
  RGBA.mkZ (pyTrunc red) (pyTrunc green) (pyTrunc blue) alpha

/-- The value object of the `HEX` class: the stored string. -/
structure HEXv where
  value : String
deriving DecidableEq

/-- `HEX.validate` as a boolean: strip all leading `#`, require exactly six
characters of `0123456789ABCDEFabcdef`. -/
def HEX.validateB (stored : List Char) : Bool :=
  let hv := stored.dropWhile fun c => c == '#'
  hv.length == 6 && hv.all isHexAny

/-- `HEX.__init__`: strip one leading `#`, lowercase, re-prefix `#`,
then validate. -/
def HEX.mk (value : String) : Option HEXv :=
  let stored : List Char := '#' :: pyLower (stripOneHash value.data)
  if HEX.validateB stored then some ⟨String.mk stored⟩ else none

/-- The constructor invariant of `HEX` values: one or more leading `#`
characters followed by exactly six lowercase hex digits. -/
def HEXv.Valid (h : HEXv) : Prop :=
  ∃ k ds, h.value.data = List.replicate (k + 1) '#' ++ ds ∧
    ds.length = 6 ∧ ds.all isLowerHex = true

/-- The value object of the `HSV` class. -/
structure HSVv where
  hue : ℚ
  saturation : ℚ
  value : ℚ
deriving DecidableEq

/-- The range invariant enforced by `HSV.validate`. -/
def HSVv.Valid (c : HSVv) : Prop :=
  0 ≤ c.hue ∧ c.hue ≤ 360 ∧ 0 ≤ c.saturation ∧ c.saturation ≤ 100 ∧
    0 ≤ c.value ∧ c.value ≤ 100

instance (c : HSVv) : Decidable c.Valid := by
  unfold HSVv.Valid
  infer_instance

/-- `HSV.__init__` (`float()` is the identity on the modelled rationals). -/
def HSV.mk (hue saturation value : ℚ) : Option HSVv :=
  if (HSVv.mk hue saturation value).Valid then some ⟨hue, saturation, value⟩ else none

/-- The value object of the `HSL` class. -/
structure HSLv where
  hue : ℚ
  saturation : ℚ
  lightness : ℚ
deriving DecidableEq

/-- The range invariant enforced by `HSL.validate`. -/
def HSLv.Valid (c : HSLv) : Prop :=
  0 ≤ c.hue ∧ c.hue ≤ 360 ∧ 0 ≤ c.saturation ∧ c.saturation ≤ 100 ∧
    0 ≤ c.lightness ∧ c.lightness ≤ 100

instance (c : HSLv) : Decidable c.Valid := by
  unfold HSLv.Valid
  infer_instance

/-- `HSL.__init__`. -/
def HSL.mk (hue saturation lightness : ℚ) : Option HSLv :=
  if (HSLv.mk hue saturation lightness).Valid then some ⟨hue, saturation, lightness⟩ else none

/-- The value object of the `CMYK` class. -/
structure CMYKv where
  cyan : ℚ
  magenta : ℚ
  yellow : ℚ
  key : ℚ
deriving DecidableEq

/-- The range invariant enforced by `CMYK.validate`. -/
def CMYKv.Valid (c : CMYKv) : Prop :=
  0 ≤ c.cyan ∧ c.cyan ≤ 100 ∧ 0 ≤ c.magenta ∧ c.magenta ≤ 100 ∧
    0 ≤ c.yellow ∧ c.yellow ≤ 100 ∧ 0 ≤ c.key ∧ c.key ≤ 100

instance (c : CMYKv) : Decidable c.Valid := by
  unfold CMYKv.Valid
  infer_instance

/-- `CMYK.__init__`. -/
def CMYK.mk (cyan magenta yellow key : ℚ) : Option CMYKv :=
  if (CMYKv.mk cyan magenta yellow key).Valid then some ⟨cyan, magenta, yellow, key⟩ else none

/-- The value object of the `ASSA` class: the stored `&H…&` string. -/
structure ASSAv where
  value : String
deriving DecidableEq

/-- `ASSA.is_valid_format` on a stored string. -/
def ASSA.isValidFormat (value : List Char) : Bool :=
  (cleanHexU value).length == 6 || (cleanHexU value).length == 8

/-- `ASSA.__init__`: keep the lowercase hex characters of the input, wrap
them in `&H…&`, then validate. -/
def ASSA.mk (value : String) : Option ASSAv :=
  let cl := cleanLowerHex value.data
  let stored : List Char := '&' :: 'H' :: (cl ++ ['&'])
  if ASSA.isValidFormat stored then some ⟨String.mk stored⟩ else none

/-- `ASSA.from_value`: pre-clean, then construct (the constructor cleans
again, so this is the constructor on the cleaned string). -/
def ASSA.fromValue (s : String) : Option ASSAv :=
  ASSA.mk (String.mk (cleanLowerHex s.data))

/-- The `ASSA.clean_value` property: unwrap `&H…&` if present, lowercase. -/
def ASSAv.clean_value (a : ASSAv) : List Char :=
  let d := a.value.data
  let wrapped : Bool :=
    (match d with
     | c1 :: c2 :: _ => c1 == '&' && (c2 == 'H' || c2 == 'h')
     | _ => false) &&
    (match d.getLast? with
     | some c => c == '&'
     | none => false)
  if wrapped then ((d.drop 2).dropLast).map Char.toLower else d.map Char.toLower

/-- The constructor invariant of `ASSA` values: `&H`, then six or eight
lowercase hex digits, then `&`. -/
def ASSAv.Valid (a : ASSAv) : Prop :=
  ∃ cl, a.value.data = '&' :: 'H' :: (cl ++ ['&']) ∧ cl.all isLowerHex = true ∧
    (cl.length = 6 ∨ cl.length = 8)

/-- The CSS name to hex table `CSS_COLOR_TO_HEX` of the source module. -/
def cssColorToHex : List (String × String) := [
  ("aliceblue", "#F0F8FF"),
  ("antiquewhite", "#FAEBD7"),
  ("aqua", "#00FFFF"),
  ("aquamarine", "#7FFFD4"),
  ("azure", "#F0FFFF"),
  ("beige", "#F5F5DC"),
  ("bisque", "#FFE4C4"),
  ("black", "#000000"),
  ("blanchedalmond", "#FFEBCD"),
  ("blue", "#0000FF"),
  ("blueviolet", "#8A2BE2"),
  ("brown", "#A52A2A"),
  ("burlywood", "#DEB887"),
  ("cadetblue", "#5F9EA0"),
  ("chartreuse", "#7FFF00"),
  ("chocolate", "#D2691E"),
  ("coral", "#FF7F50"),
  ("cornflowerblue", "#6495ED"),
  ("cornsilk", "#FFF8DC"),
  ("crimson", "#DC143C"),
  ("cyan", "#00FFFF"),
  ("darkblue", "#00008B"),
  ("darkcyan", "#008B8B"),
  ("darkgoldenrod", "#B8860B"),
  ("darkgray", "#A9A9A9"),
  ("darkgrey", "#A9A9A9"),
  ("darkgreen", "#006400"),
  ("darkkhaki", "#BDB76B"),
  ("darkmagenta", "#8B008B"),
  ("darkolivegreen", "#556B2F"),
  ("darkorange", "#FF8C00"),
  ("darkorchid", "#9932CC"),
  ("darkred", "#8B0000"),
  ("darksalmon", "#E9967A"),
  ("darkseagreen", "#8FBC8F"),
  ("darkslateblue", "#483D8B"),
  ("darkslategray", "#2F4F4F"),
  ("darkslategrey", "#2F4F4F"),
  ("darkturquoise", "#00CED1"),
  ("darkviolet", "#9400D3"),
  ("deeppink", "#FF1493"),
  ("deepskyblue", "#00BFFF"),
  ("dimgray", "#696969"),
  ("dimgrey", "#696969"),
  ("dodgerblue", "#1E90FF"),
  ("firebrick", "#B22222"),
  ("floralwhite", "#FFFAF0"),
  ("forestgreen", "#228B22"),
  ("fuchsia", "#FF00FF"),
  ("gainsboro", "#DCDCDC"),
  ("ghostwhite", "#F8F8FF"),
  ("gold", "#FFD700"),
  ("goldenrod", "#DAA520"),
  ("gray", "#808080"),
  ("grey", "#808080"),
  ("green", "#008000"),
  ("greenyellow", "#ADFF2F"),
  ("honeydew", "#F0FFF0"),
  ("hotpink", "#FF69B4"),
  ("indianred", "#CD5C5C"),
  ("indigo", "#4B0082"),
  ("ivory", "#FFFFF0"),
  ("khaki", "#F0E68C"),
  ("lavender", "#E6E6FA"),
  ("lavenderblush", "#FFF0F5"),
  ("lawngreen", "#7CFC00"),
  ("lemonchiffon", "#FFFACD"),
  ("lightblue", "#ADD8E6"),
  ("lightcoral", "#F08080"),
  ("lightcyan", "#E0FFFF"),
  ("lightgoldenrodyellow", "#FAFAD2"),
  ("lightgray", "#D3D3D3"),
  ("lightgrey", "#D3D3D3"),
  ("lightgreen", "#90EE90"),
  ("lightpink", "#FFB6C1"),
  ("lightsalmon", "#FFA07A"),
  ("lightseagreen", "#20B2AA"),
  ("lightskyblue", "#87CEFA"),
  ("lightslategray", "#778899"),
  ("lightslategrey", "#778899"),
  ("lightsteelblue", "#B0C4DE"),
  ("lightyellow", "#FFFFE0"),
  ("lime", "#00FF00"),
  ("limegreen", "#32CD32"),
  ("linen", "#FAF0E6"),
  ("magenta", "#FF00FF"),
  ("maroon", "#800000"),
  ("mediumaquamarine", "#66CDAA"),
  ("mediumblue", "#0000CD"),
  ("mediumorchid", "#BA55D3"),
  ("mediumpurple", "#9370DB"),
  ("mediumseagreen", "#3CB371"),
  ("mediumslateblue", "#7B68EE"),
  ("mediumspringgreen", "#00FA9A"),
  ("mediumturquoise", "#48D1CC"),
  ("mediumvioletred", "#C71585"),
  ("midnightblue", "#191970"),
  ("mintcream", "#F5FFFA"),
  ("mistyrose", "#FFE4E1"),
  ("moccasin", "#FFE4B5"),
  ("navajowhite", "#FFDEAD"),
  ("navy", "#000080"),
  ("oldlace", "#FDF5E6"),
  ("olive", "#808000"),
  ("olivedrab", "#6B8E23"),
  ("orange", "#FFA500"),
  ("orangered", "#FF4500"),
  ("orchid", "#DA70D6"),
  ("palegoldenrod", "#EEE8AA"),
  ("palegreen", "#98FB98"),
  ("paleturquoise", "#AFEEEE"),
  ("palevioletred", "#DB7093"),
  ("papayawhip", "#FFEFD5"),
  ("peachpuff", "#FFDAB9"),
  ("peru", "#CD853F"),
  ("pink", "#FFC0CB"),
  ("plum", "#DDA0DD"),
  ("powderblue", "#B0E0E6"),
  ("purple", "#800080"),
  ("rebeccapurple", "#663399"),
  ("red", "#FF0000"),
  ("rosybrown", "#BC8F8F"),
  ("royalblue", "#4169E1"),
  ("saddlebrown", "#8B4513"),
  ("salmon", "#FA8072"),
  ("sandybrown", "#F4A460"),
  ("seagreen", "#2E8B57"),
  ("seashell", "#FFF5EE"),
  ("sienna", "#A0522D"),
  ("silver", "#C0C0C0"),
  ("skyblue", "#87CEEB"),
  ("slateblue", "#6A5ACD"),
  ("slategray", "#708090"),
  ("slategrey", "#708090"),
  ("snow", "#FFFAFA"),
  ("springgreen", "#00FF7F"),
  ("steelblue", "#4682B4"),
  ("tan", "#D2B48C"),
  ("teal", "#008080"),
  ("thistle", "#D8BFD8"),
  ("tomato", "#FF6347"),
  ("turquoise", "#40E0D0"),
  ("violet", "#EE82EE"),
  ("wheat", "#F5DEB3"),
  ("white", "#FFFFFF"),
  ("whitesmoke", "#F5F5F5"),
  ("yellow", "#FFFF00"),
  ("yellowgreen", "#9ACD32")
]

/-- The value object of the `webcolor` class (the `hex_value` field is
recomputed from the table, which the constructor guarantees to succeed). -/
structure WEBv where
  name : String
deriving DecidableEq

/-- `webcolor.__init__`: lowercase the name, require it in the color table. -/
def webcolor.mk (name : String) : Option WEBv :=
  let nl := String.mk (pyLower name.data)
  if (cssColorToHex.lookup nl).isSome then some ⟨nl⟩ else none

/-- The constructor invariant of `webcolor` values. -/
def WEBv.Valid (w : WEBv) : Prop :=
  (cssColorToHex.lookup w.name).isSome = true

/-- The `hex_value` field of a constructed `webcolor`,
`HEX(self.COLORS[name])`. -/
def WEBv.hexValue (w : WEBv) : Option HEXv :=
  (cssColorToHex.lookup w.name).bind HEX.mk

/-- `RGB.to_rgb`: `return self`. -/
def RGBv.to_rgb (x : RGBv) : RGBv :=
  x

/-- `Color.copy` as inherited by `RGB`: `return self`. -/
def RGBv.copy (x : RGBv) : RGBv :=
  x

/-- `RGB.to_hsv`. -/
def RGBv.to_hsv (x : RGBv) : Option HSVv :=
  let r : ℚ := (x.red : ℚ) / 255
  let g : ℚ := (x.green : ℚ) / 255
  let b : ℚ := (x.blue : ℚ) / 255
  let cmax := max r (max g b)
  let cmin := min r (min g b)
  let diff := cmax - cmin
  let h : ℚ :=
    if cmax = cmin then 0
    else if cmax = r then qmod (60 * ((g - b) / diff) + 360) 360
    else if cmax = g then qmod (60 * ((b - r) / diff) + 120) 360
    else qmod (60 * ((r - g) / diff) + 240) 360
  let s : ℚ := if cmax = 0 then 0 else diff / cmax
  HSV.mk h (s * 100) (cmax * 100)

/-- `RGB.to_hsl`. -/
def RGBv.to_hsl (x : RGBv) : Option HSLv :=
  let r : ℚ := (x.red : ℚ) / 255
  let g : ℚ := (x.green : ℚ) / 255
  let b : ℚ := (x.blue : ℚ) / 255
  let cmax := max r (max g b)
  let cmin := min r (min g b)
  let diff := cmax - cmin
  let l := (cmax + cmin) / 2
  if diff = 0 then HSL.mk 0 0 (l * 100)
  else
    let s : ℚ := if l > 1/2 then diff / (2 - cmax - cmin) else diff / (cmax + cmin)
    let h : ℚ :=
      if cmax = r then qmod (60 * ((g - b) / diff) + 360) 360
      else if cmax = g then qmod (60 * ((b - r) / diff) + 120) 360
      else qmod (60 * ((r - g) / diff) + 240) 360
    HSL.mk h (s * 100) (l * 100)

/-- `RGB.to_cmyk`. -/
def RGBv.to_cmyk (x : RGBv) : Option CMYKv :=
  let r : ℚ := (x.red : ℚ) / 255
  let g : ℚ := (x.green : ℚ) / 255
  let b : ℚ := (x.blue : ℚ) / 255
  let k := 1 - max r (max g b)
  if k = 1 then CMYK.mk 0 0 0 (k * 100)
  else
    let c := (1 - r - k) / (1 - k)
    let m := (1 - g - k) / (1 - k)
    let y := (1 - b - k) / (1 - k)
    CMYK.mk (c * 100) (m * 100) (y * 100) (k * 100)

/-- `RGB.to_hex`: format `#rrggbb` and construct a `HEX`. -/
def RGBv.to_hex (x : RGBv) : Option HEXv :=
  HEX.mk (String.mk ('#' :: (hex2 x.red.toNat ++ hex2 x.green.toNat ++ hex2 x.blue.toNat)))

/-- `RGB.to_rgba`. -/
def RGBv.to_rgba (x : RGBv) (alpha : ℚ) : Option RGBAv :=
  RGBA.mkZ x.red x.green x.blue alpha

/-- `ASSA.from_rgb`. -/
def ASSA.from_rgb (rgb : RGBv) (alpha : Option ℤ) : Option ASSAv :=
  match alpha with
  | none =>
    ASSA.mk (String.mk (hex2U rgb.blue.toNat ++ hex2U rgb.green.toNat ++ hex2U rgb.red.toNat))
  | some al =>
    if 0 ≤ al ∧ al ≤ 255 then
      ASSA.mk (String.mk (hex2U al.toNat ++ hex2U rgb.blue.toNat ++
        hex2U rgb.green.toNat ++ hex2U rgb.red.toNat))
    else none

/-- `RGB.to_assa`: `ASSA.from_rgb(self)`. -/
def RGBv.to_assa (x : RGBv) : Option ASSAv :=
  ASSA.from_rgb x none

/-- `RGBA.to_rgb`: `RGB(self.red, self.green, self.blue)`. -/
def RGBAv.to_rgb (x : RGBAv) : Option RGBv :=
  RGB.mkZ x.red x.green x.blue

/-- `RGBA.to_rgba`: `return self`. -/
def RGBAv.to_rgba (x : RGBAv) : RGBAv :=
  x

/-- `Color.copy` as inherited by `RGBA`. -/
def RGBAv.copy (x : RGBAv) : RGBAv :=
  x

/-- `RGBA.to_hsv`: `self.to_rgb().to_hsv()`. -/
def RGBAv.to_hsv (x : RGBAv) : Option HSVv :=
  x.to_rgb.bind RGBv.to_hsv

/-- `RGBA.to_hsl`. -/
def RGBAv.to_hsl (x : RGBAv) : Option HSLv :=
  x.to_rgb.bind RGBv.to_hsl

/-- `RGBA.to_cmyk`. -/
def RGBAv.to_cmyk (x : RGBAv) : Option CMYKv :=
  x.to_rgb.bind RGBv.to_cmyk

/-- `RGBA.to_hex`. -/
def RGBAv.to_hex (x : RGBAv) : Option HEXv :=
  x.to_rgb.bind RGBv.to_hex

/-- `ASSA.from_rgba`: alpha byte `round((1 - rgba.alpha) * 255)`. -/
def ASSA.from_rgba (x : RGBAv) : Option ASSAv :=
  x.to_rgb.bind fun rgb => ASSA.from_rgb rgb (some (pyRound ((1 - x.alpha) * 255)))

/-- `RGBA.to_assa`: `ASSA.from_rgba(self)`. -/
def RGBAv.to_assa (x : RGBAv) : Option ASSAv :=
  ASSA.from_rgba x

/-- `HEX.to_rgb`: decode the three two-digit slices. -/
def HEXv.to_rgb (h : HEXv) : Option RGBv :=
  let hv := h.value.data.dropWhile fun c => c == '#'
  (intHex (pySlice hv 0 2)).bind fun r =>
    (intHex (pySlice hv 2 4)).bind fun g =>
      (intHex (pySlice hv 4 6)).bind fun b =>
        RGB.mkZ r g b

/-- `HEX.to_hex`: `return self`. -/
def HEXv.to_hex (h : HEXv) : HEXv :=
  h

/-- `Color.copy` as inherited by `HEX`. -/
def HEXv.copy (h : HEXv) : HEXv :=
  h

/-- `HEX.to_hsv`. -/
def HEXv.to_hsv (h : HEXv) : Option HSVv :=
  h.to_rgb.bind RGBv.to_hsv

/-- `HEX.to_hsl`. -/
def HEXv.to_hsl (h : HEXv) : Option HSLv :=
  h.to_rgb.bind RGBv.to_hsl

/-- `HEX.to_cmyk`. -/
def HEXv.to_cmyk (h : HEXv) : Option CMYKv :=
  h.to_rgb.bind RGBv.to_cmyk

/-- `HEX.to_assa`. -/
def HEXv.to_assa (h : HEXv) : Option ASSAv :=
  h.to_rgb.bind RGBv.to_assa

/-- `HSV.to_rgb`. -/
def HSVv.to_rgb (x : HSVv) : Option RGBv :=
  let h := x.hue
  let s := x.saturation / 100
  let v := x.value / 100
  let c := v * s
  let xx := c * (1 - |qmod (h / 60) 2 - 1|)
  let m := v - c
  let rgb1 : ℚ × ℚ × ℚ :=
    if 0 ≤ h ∧ h < 60 then (c, xx, 0)
    else if 60 ≤ h ∧ h < 120 then (xx, c, 0)
    else if 120 ≤ h ∧ h < 180 then (0, c, xx)
    else if 180 ≤ h ∧ h < 240 then (0, xx, c)
    else if 240 ≤ h ∧ h < 300 then (xx, 0, c)
    else (c, 0, xx)
  RGB.mkZ (pyRound ((rgb1.1 + m) * 255)) (pyRound ((rgb1.2.1 + m) * 255))
    (pyRound ((rgb1.2.2 + m) * 255))

/-- `HSV.to_hsv`: `return self`. -/
def HSVv.to_hsv (x : HSVv) : HSVv :=
  x

/-- `Color.copy` as inherited by `HSV`. -/
def HSVv.copy (x : HSVv) : HSVv :=
  x

/-- `HSV.to_hsl`. -/
def HSVv.to_hsl (x : HSVv) : Option HSLv :=
  x.to_rgb.bind RGBv.to_hsl

/-- `HSV.to_cmyk`. -/
def HSVv.to_cmyk (x : HSVv) : Option CMYKv :=
  x.to_rgb.bind RGBv.to_cmyk

/-- `HSV.to_hex`. -/
def HSVv.to_hex (x : HSVv) : Option HEXv :=
  x.to_rgb.bind RGBv.to_hex

/-- `HSV.to_assa`. -/
def HSVv.to_assa (x : HSVv) : Option ASSAv :=
  x.to_rgb.bind RGBv.to_assa

/-- The inner `hue_to_rgb` helper of `HSL.to_rgb`. -/
def hueToRgb (p q t0 : ℚ) : ℚ :=
  let t1 := if t0 < 0 then t0 + 1 else t0
  let t := if t1 > 1 then t1 - 1 else t1
  if t < 1/6 then p + (q - p) * 6 * t
  else if t < 1/2 then q
  else if t < 2/3 then p + (q - p) * (2/3 - t) * 6
  else p

/-- `HSL.to_rgb`. -/
def HSLv.to_rgb (x : HSLv) : Option RGBv :=
  let hue := x.hue / 360
  let saturation := x.saturation / 100
  let lightness := x.lightness / 100
  if saturation = 0 then
    RGB.mkZ (pyRound (lightness * 255)) (pyRound (lightness * 255)) (pyRound (lightness * 255))
  else
    let q :=
      if lightness < 1/2 then lightness * (1 + saturation)
      else lightness + saturation - lightness * saturation
    let p := 2 * lightness - q
    RGB.mkZ (pyRound (hueToRgb p q (hue + 1/3) * 255)) (pyRound (hueToRgb p q hue * 255))
      (pyRound (hueToRgb p q (hue - 1/3) * 255))

/-- `HSL.to_hsl`: `return self`. -/
def HSLv.to_hsl (x : HSLv) : HSLv :=
  x

/-- `Color.copy` as inherited by `HSL`. -/
def HSLv.copy (x : HSLv) : HSLv :=
  x

/-- `HSL.to_hsv`. -/
def HSLv.to_hsv (x : HSLv) : Option HSVv :=
  x.to_rgb.bind RGBv.to_hsv

/-- `HSL.to_cmyk`. -/
def HSLv.to_cmyk (x : HSLv) : Option CMYKv :=
  x.to_rgb.bind RGBv.to_cmyk

/-- `HSL.to_hex`. -/
def HSLv.to_hex (x : HSLv) : Option HEXv :=
  x.to_rgb.bind RGBv.to_hex

/-- `HSL.to_assa`. -/
def HSLv.to_assa (x : HSLv) : Option ASSAv :=
  x.to_rgb.bind RGBv.to_assa

/-- `CMYK.to_rgb`. -/
def CMYKv.to_rgb (x : CMYKv) : Option RGBv :=
  let c := x.cyan / 100
  let m := x.magenta / 100
  let y := x.yellow / 100
  let k := x.key / 100
  RGB.mkZ (pyRound (255 * (1 - c) * (1 - k))) (pyRound (255 * (1 - m) * (1 - k)))
    (pyRound (255 * (1 - y) * (1 - k)))

/-- `CMYK.to_cmyk`: `return self`. -/
def CMYKv.to_cmyk (x : CMYKv) : CMYKv :=
  x

/-- `Color.copy` as inherited by `CMYK`. -/
def CMYKv.copy (x : CMYKv) : CMYKv :=
  x

/-- `CMYK.to_hsv`. -/
def CMYKv.to_hsv (x : CMYKv) : Option HSVv :=
  x.to_rgb.bind RGBv.to_hsv

/-- `CMYK.to_hsl`. -/
def CMYKv.to_hsl (x : CMYKv) : Option HSLv :=
  x.to_rgb.bind RGBv.to_hsl

/-- `CMYK.to_hex`. -/
def CMYKv.to_hex (x : CMYKv) : Option HEXv :=
  x.to_rgb.bind RGBv.to_hex

/-- `CMYK.to_assa`. -/
def CMYKv.to_assa (x : CMYKv) : Option ASSAv :=
  x.to_rgb.bind RGBv.to_assa

/-- `ASSA.to_rgb`: decode slices in `BBGGRR` or `AABBGGRR` order. -/
def ASSAv.to_rgb (a : ASSAv) : Option RGBv :=
  let clean := a.clean_value
  if clean.length = 6 then
    (intHex (pySlice clean 0 2)).bind fun b =>
      (intHex (pySlice clean 2 4)).bind fun g =>
        (intHex (pySlice clean 4 6)).bind fun r =>
          RGB.mkZ r g b
  else
    (intHex (pySlice clean 2 4)).bind fun b =>
      (intHex (pySlice clean 4 6)).bind fun g =>
        (intHex (pySlice clean 6 8)).bind fun r =>
          RGB.mkZ r g b

/-- The `ASSA.alpha` property: `none` for the 6-digit form, else the first
byte (an inner `none` of the outer option is a decoding error). -/
def ASSAv.alphaProp (a : ASSAv) : Option (Option ℕ) :=
  let clean := a.clean_value
  if clean.length = 6 then some none
  else (intHex (pySlice clean 0 2)).map some

/-- `ASSA.to_assa`: `return self`. -/
def ASSAv.to_assa (a : ASSAv) : ASSAv :=
  a

/-- `Color.copy` as inherited by `ASSA`. -/
def ASSAv.copy (a : ASSAv) : ASSAv :=
  a

/-- `ASSA.to_hsv`. -/
def ASSAv.to_hsv (a : ASSAv) : Option HSVv :=
  a.to_rgb.bind RGBv.to_hsv

/-- `ASSA.to_hsl`. -/
def ASSAv.to_hsl (a : ASSAv) : Option HSLv :=
  a.to_rgb.bind RGBv.to_hsl

/-- `ASSA.to_cmyk`. -/
def ASSAv.to_cmyk (a : ASSAv) : Option CMYKv :=
  a.to_rgb.bind RGBv.to_cmyk

/-- `ASSA.to_hex`. -/
def ASSAv.to_hex (a : ASSAv) : Option HEXv :=
  a.to_rgb.bind RGBv.to_hex

/-- `RGBA.from_assa`. -/
def RGBA.from_assa (a : ASSAv) : Option RGBAv :=
  a.to_rgb.bind fun rgb =>
    a.alphaProp.bind fun al =>
      match al with
      | none => RGBA.mkZ rgb.red rgb.green rgb.blue 1
      | some v => RGBA.mkZ rgb.red rgb.green rgb.blue (1 - (v : ℚ) / 255)

/-- `webcolor.to_rgb`: `self.hex_value.to_rgb()`. -/
def WEBv.to_rgb (w : WEBv) : Option RGBv :=
  w.hexValue.bind HEXv.to_rgb

/-- `webcolor.to_hex`: `return self.hex_value`. -/
def WEBv.to_hex (w : WEBv) : Option HEXv :=
  w.hexValue

/-- `webcolor.to_webcolor`: `return self`. -/
def WEBv.to_webcolor (w : WEBv) : WEBv :=
  w

/-- `Color.copy` as inherited by `webcolor`. -/
def WEBv.copy (w : WEBv) : WEBv :=
  w

/-- `webcolor.to_hsv`. -/
def WEBv.to_hsv (w : WEBv) : Option HSVv :=
  w.hexValue.bind HEXv.to_hsv

/-- `webcolor.to_hsl`. -/
def WEBv.to_hsl (w : WEBv) : Option HSLv :=
  w.hexValue.bind HEXv.to_hsl

/-- `webcolor.to_cmyk`. -/
def WEBv.to_cmyk (w : WEBv) : Option CMYKv :=
  w.hexValue.bind HEXv.to_cmyk

/-- `webcolor.to_assa`. -/
def WEBv.to_assa (w : WEBv) : Option ASSAv :=
  w.hexValue.bind HEXv.to_assa

/-- `RGB.__repr__`: `rgb(r, g, b)`. -/
def RGBv.reprStr (x : RGBv) : List Char :=
  ['r','g','b','('] ++ intRepr x.red ++ [',',' '] ++ intRepr x.green ++ [',',' '] ++
    intRepr x.blue ++ [')']

/-- `RGBA.__repr__`: `rgba(r, g, b, a)`. -/
def RGBAv.reprStr (x : RGBAv) : List Char :=
  ['r','g','b','a','('] ++ intRepr x.red ++ [',',' '] ++ intRepr x.green ++ [',',' '] ++
    intRepr x.blue ++ [',',' '] ++ pyFloatRepr x.alpha ++ [')']

/-- `HSV.__repr__`: `hsv(h, s, v)`. -/
def HSVv.reprStr (x : HSVv) : List Char :=
  ['h','s','v','('] ++ pyFloatRepr x.hue ++ [',',' '] ++ pyFloatRepr x.saturation ++
    [',',' '] ++ pyFloatRepr x.value ++ [')']

/-- `HSL.__repr__`: `hsl(h, s, l)`. -/
def HSLv.reprStr (x : HSLv) : List Char :=
  ['h','s','l','('] ++ pyFloatRepr x.hue ++ [',',' '] ++ pyFloatRepr x.saturation ++
    [',',' '] ++ pyFloatRepr x.lightness ++ [')']

/-- `CMYK.__repr__`: `cmyk(c, m, y, k)`. -/
def CMYKv.reprStr (x : CMYKv) : List Char :=
  ['c','m','y','k','('] ++ pyFloatRepr x.cyan ++ [',',' '] ++ pyFloatRepr x.magenta ++
    [',',' '] ++ pyFloatRepr x.yellow ++ [',',' '] ++ pyFloatRepr x.key ++ [')']

/-- `HEX.__repr__`: `hex(#rrggbb)`. -/
def HEXv.reprStr (x : HEXv) : List Char :=
  ['h','e','x','('] ++ x.value.data ++ [')']

/-- `ASSA.__repr__`: `assa(clean_value)`. -/
def ASSAv.reprStr (x : ASSAv) : List Char :=
  ['a','s','s','a','('] ++ x.clean_value ++ [')']

/-- `webcolor.__repr__`: `webcolor('name')`. -/
def WEBv.reprStr (x : WEBv) : List Char :=
  ['w','e','b','c','o','l','o','r','(', Char.ofNat 39] ++ x.name.data ++
    [Char.ofNat 39, ')']

/-- The mapping produced by `Color.dict()` for `RGB`. -/
def RGBv.dictM (x : RGBv) : List (String × ℚ) :=
  [("red", (x.red : ℚ)), ("green", (x.green : ℚ)), ("blue", (x.blue : ℚ))]

/-- The mapping produced by `Color.dict()` for `RGBA`. -/
def RGBAv.dictM (x : RGBAv) : List (String × ℚ) :=
  [("red", (x.red : ℚ)), ("green", (x.green : ℚ)), ("blue", (x.blue : ℚ)),
    ("alpha", x.alpha)]

/-- The mapping produced by `Color.dict()` for `HSV`. -/
def HSVv.dictM (x : HSVv) : List (String × ℚ) :=
  [("hue", x.hue), ("saturation", x.saturation), ("value", x.value)]

/-- The mapping produced by `Color.dict()` for `HSL`. -/
def HSLv.dictM (x : HSLv) : List (String × ℚ) :=
  [("hue", x.hue), ("saturation", x.saturation), ("lightness", x.lightness)]

/-- The mapping produced by `Color.dict()` for `CMYK`. -/
def CMYKv.dictM (x : CMYKv) : List (String × ℚ) :=
  [("cyan", x.cyan), ("magenta", x.magenta), ("yellow", x.yellow), ("key", x.key)]

/-- The mapping produced by `Color.dict()` for `HEX`. -/
def HEXv.dictM (x : HEXv) : List (String × String) :=
  [("value", x.value)]

/-- The mapping produced by `Color.dict()` for `ASSA`. -/
def ASSAv.dictM (x : ASSAv) : List (String × String) :=
  [("value", x.value)]

/-- The mapping produced by `Color.dict()` for `webcolor`. -/
def WEBv.dictM (x : WEBv) : List (String × String) :=
  [("name", x.name)]

/-- All listed keys are present in the mapping (Python `set.issubset`). -/
def hasKeysQ (m : List (String × ℚ)) (ks : List String) : Bool :=
  ks.all fun k => (m.lookup k).isSome

/-- Mapping access `data[k]` (guarded by a `hasKeysQ` test at every use). -/
def getQ (m : List (String × ℚ)) (k : String) : ℚ :=
  (m.lookup k).getD 0

/-- Mapping access for string-valued mappings. -/
def getS (m : List (String × String)) (k : String) : String :=
  (m.lookup k).getD ""

/-- The string branch of `parse_rgb` (the regex
`\s*rgb\(\s*([+-]?\d+)\s*,\s*([+-]?\d+)\s*,\s*([+-]?\d+)\s*\)\s*`
followed by `RGB(...)`). -/
def parse_rgb_str (s : String) : Option RGBv := do
  let s0 ← expectLit ['r','g','b','('] (skipWs s.data)
  let (r, s1) ← parseIntTok (skipWs s0)
  let s2 ← expectCh ',' (skipWs s1)
  let (g, s3) ← parseIntTok (skipWs s2)
  let s4 ← expectCh ',' (skipWs s3)
  let (b, s5) ← parseIntTok (skipWs s4)
  let s6 ← expectCh ')' (skipWs s5)
  if skipWs s6 = [] then RGB.mkZ r g b else none

/-- The mapping branch of `parse_rgb`. -/
def parse_rgb_map (m : List (String × ℚ)) : Option RGBv :=
  if hasKeysQ m ["red", "green", "blue"] then
    RGB.mkQ (getQ m "red") (getQ m "green") (getQ m "blue")
  else if hasKeysQ m ["r", "g", "b"] then
    RGB.mkQ (getQ m "r") (getQ m "g") (getQ m "b")
  else none

/-- The string branch of `parse_rgba`. -/
def parse_rgba_str (s : String) : Option RGBAv := do
  let s0 ← expectLit ['r','g','b','a','('] (skipWs s.data)
  let (r, s1) ← parseIntTok (skipWs s0)
  let s2 ← expectCh ',' (skipWs s1)
  let (g, s3) ← parseIntTok (skipWs s2)
  let s4 ← expectCh ',' (skipWs s3)
  let (b, s5) ← parseIntTok (skipWs s4)
  let s6 ← expectCh ',' (skipWs s5)
  let (a, s7) ← parseFloatTok (skipWs s6)
  let s8 ← expectCh ')' (skipWs s7)
  if skipWs s8 = [] then RGBA.mkZ r g b a else none

/-- The mapping branch of `parse_rgba`. -/
def parse_rgba_map (m : List (String × ℚ)) : Option RGBAv :=
  if hasKeysQ m ["red", "green", "blue", "alpha"] then
    RGBA.mkQ (getQ m "red") (getQ m "green") (getQ m "blue") (getQ m "alpha")
  else if hasKeysQ m ["r", "g", "b", "a"] then
    RGBA.mkQ (getQ m "r") (getQ m "g") (getQ m "b") (getQ m "a")
  else none

/-- The string branch of `parse_hsv`. -/
def parse_hsv_str (s : String) : Option HSVv := do
  let s0 ← expectLit ['h','s','v','('] (skipWs s.data)
  let (h, s1) ← parseFloatTok (skipWs s0)
  let s2 ← expectCh ',' (skipWs s1)
  let (sv, s3) ← parseFloatTok (skipWs s2)
  let s4 ← expectCh ',' (skipWs s3)
  let (v, s5) ← parseFloatTok (skipWs s4)
  let s6 ← expectCh ')' (skipWs s5)
  if skipWs s6 = [] then HSV.mk h sv v else none

/-- The mapping branch of `parse_hsv`. -/
def parse_hsv_map (m : List (String × ℚ)) : Option HSVv :=
  if hasKeysQ m ["hue", "saturation", "value"] then
    HSV.mk (getQ m "hue") (getQ m "saturation") (getQ m "value")
  else if hasKeysQ m ["h", "s", "v"] then
    HSV.mk (getQ m "h") (getQ m "s") (getQ m "v")
  else none

/-- The string branch of `parse_hsl`. -/
def parse_hsl_str (s : String) : Option HSLv := do
  let s0 ← expectLit ['h','s','l','('] (skipWs s.data)
  let (h, s1) ← parseFloatTok (skipWs s0)
  let s2 ← expectCh ',' (skipWs s1)
  let (sv, s3) ← parseFloatTok (skipWs s2)
  let s4 ← expectCh ',' (skipWs s3)
  let (l, s5) ← parseFloatTok (skipWs s4)
  let s6 ← expectCh ')' (skipWs s5)
  if skipWs s6 = [] then HSL.mk h sv l else none

/-- The mapping branch of `parse_hsl`. -/
def parse_hsl_map (m : List (String × ℚ)) : Option HSLv :=
  if hasKeysQ m ["hue", "saturation", "lightness"] then
    HSL.mk (getQ m "hue") (getQ m "saturation") (getQ m "lightness")
  else if hasKeysQ m ["h", "s", "l"] then
    HSL.mk (getQ m "h") (getQ m "s") (getQ m "l")
  else none

/-- The string branch of `parse_cmyk`. -/
def parse_cmyk_str (s : String) : Option CMYKv := do
  let s0 ← expectLit ['c','m','y','k','('] (skipWs s.data)
  let (c, s1) ← parseFloatTok (skipWs s0)
  let s2 ← expectCh ',' (skipWs s1)
  let (m, s3) ← parseFloatTok (skipWs s2)
  let s4 ← expectCh ',' (skipWs s3)
  let (y, s5) ← parseFloatTok (skipWs s4)
  let s6 ← expectCh ',' (skipWs s5)
  let (k, s7) ← parseFloatTok (skipWs s6)
  let s8 ← expectCh ')' (skipWs s7)
  if skipWs s8 = [] then CMYK.mk c m y k else none

/-- The mapping branch of `parse_cmyk`. -/
def parse_cmyk_map (m : List (String × ℚ)) : Option CMYKv :=
  if hasKeysQ m ["cyan", "magenta", "yellow", "key"] then
    CMYK.mk (getQ m "cyan") (getQ m "magenta") (getQ m "yellow") (getQ m "key")
  else if hasKeysQ m ["c", "m", "y", "k"] then
    CMYK.mk (getQ m "c") (getQ m "m") (getQ m "y") (getQ m "k")
  else none

/-- The string branch of `parse_hex` (regex `\s*hex\(\s*(#?[0-9A-Fa-f]{6})\s*\)\s*`,
re-prefixing `#` when absent before constructing). -/
def parse_hex_str (s : String) : Option HEXv := do
  let s0 ← expectLit ['h','e','x','('] (skipWs s.data)
  let s1 := stripOneHash (skipWs s0)
  match s1 with
  | c1 :: c2 :: c3 :: c4 :: c5 :: c6 :: rest =>
    if [c1, c2, c3, c4, c5, c6].all isHexAny then do
      let s2 ← expectCh ')' (skipWs rest)
      if skipWs s2 = [] then HEX.mk (String.mk ('#' :: [c1, c2, c3, c4, c5, c6])) else none
    else none
  | _ => none

/-- The mapping branch of `parse_hex`. -/
def parse_hex_map (m : List (String × String)) : Option HEXv :=
  if (m.lookup "value").isSome then HEX.mk (getS m "value")
  else if (m.lookup "hex").isSome then HEX.mk (getS m "hex")
  else none

/-- The string branch of `parse_assa`
(regex `\s*assa\(\s*([0-9A-Fa-f]{6}|[0-9A-Fa-f]{8})\s*\)\s*`). -/
def parse_assa_str (s : String) : Option ASSAv := do
  let s0 ← expectLit ['a','s','s','a','('] (skipWs s.data)
  let s1 := skipWs s0
  let ds := s1.takeWhile isHexAny
  let rest := s1.dropWhile isHexAny
  if ds.length = 6 ∨ ds.length = 8 then do
    let s2 ← expectCh ')' (skipWs rest)
    if skipWs s2 = [] then ASSA.mk (String.mk ds) else none
  else none

/-- The mapping branch of `parse_assa`. -/
def parse_assa_map (m : List (String × String)) : Option ASSAv :=
  if (m.lookup "value").isSome then ASSA.mk (getS m "value")
  else if (m.lookup "clean_value").isSome then ASSA.mk (getS m "clean_value")
  else none

/-- The string branch of `parse_webcolor`
(regex `\s*webcolor\(\s*(['"])\s*([A-Za-z]+)\s*\1\s*\)\s*`). -/
def parse_webcolor_str (s : String) : Option WEBv := do
  let s0 ← expectLit ['w','e','b','c','o','l','o','r','('] (skipWs s.data)
  let (qc, s1) ← (match skipWs s0 with
    | c :: t => if c = Char.ofNat 39 ∨ c = '"' then some (c, t) else none
    | [] => none)
  let s2 := skipWs s1
  let nm := s2.takeWhile isAsciiAlpha
  let s3 := s2.dropWhile isAsciiAlpha
  if nm = [] then none
  else do
    let s4 ← expectCh qc (skipWs s3)
    let s5 ← expectCh ')' (skipWs s4)
    if skipWs s5 = [] then webcolor.mk (String.mk nm) else none

/-- The mapping branch of `parse_webcolor`. -/
def parse_webcolor_map (m : List (String × String)) : Option WEBv :=
  if (m.lookup "name").isSome then webcolor.mk (getS m "name")
  else none

/-- The raw inputs accepted by `normalize_color`: all-numeric sequences,
strings, and anything else. -/
inductive RawColor where
  | seq (xs : List ℚ)
  | str (s : String)
  | other

/-- The union of variants `normalize_color` can return. -/
inductive AnyColor where
  | rgb (c : RGBv)
  | rgba (c : RGBAv)
  | hex (c : HEXv)
  | assa (c : ASSAv)
  | web (c : WEBv)
deriving DecidableEq

/-- Python `color.startswith("&h") or color.startswith("&H")`. -/
def startsAmpH (s : String) : Bool :=
  match s.data with
  | c1 :: c2 :: _ => c1 == '&' && (c2 == 'h' || c2 == 'H')
  | _ => false

/-- `normalize_color`.  In Python a `str` is itself a `Sequence`; only the
empty string has (vacuously) all-numeric elements and falls into the length
dispatch, raising the sequence-length error. -/
def normalize_color : RawColor → Option AnyColor
  | .seq xs =>
    match xs with
    | [a, b, c] => (RGB.mkQ a b c).map AnyColor.rgb
    | [a, b, c, d] => (RGBA.mkQ a b c d).map AnyColor.rgba
    | _ => none
  | .str s =>
    if s.data = [] then none
    else if s.data.head? = some '#' then (HEX.mk s).map AnyColor.hex
    else if startsAmpH s then (ASSA.fromValue s).map AnyColor.assa
    else (webcolor.mk s).map AnyColor.web
  | .other => none

theorem char_eq_iff_toNat {c d : Char} : c = d ↔ c.toNat = d.toNat := by
  constructor
  · rintro rfl; rfl
  · intro h
    apply Char.ext
    exact UInt32.toNat.inj h

theorem toNat_ofNat_lt {m : ℕ} (h : m < 55296) : (Char.ofNat m).toNat = m := by
  unfold Char.ofNat
  rw [dif_pos (Or.inl (by exact_mod_cast h))]
  rfl

theorem toNat_toLower (c : Char) :
    (Char.toLower c).toNat =
      if 65 ≤ c.toNat ∧ c.toNat ≤ 90 then c.toNat + 32 else c.toNat := by
  unfold Char.toLower
  dsimp only
  split
  · rename_i h
    exact toNat_ofNat_lt (by omega)
  · rfl

theorem toNat_toUpper (c : Char) :
    (Char.toUpper c).toNat =
      if 97 ≤ c.toNat ∧ c.toNat ≤ 122 then c.toNat - 32 else c.toNat := by
  unfold Char.toUpper
  dsimp only
  split
  · rename_i h
    exact toNat_ofNat_lt (by omega)
  · rfl

theorem toLower_of_isLowerHex {c : Char} (h : isLowerHex c = true) :
    Char.toLower c = c := by
  unfold isLowerHex at h
  simp only [Bool.or_eq_true, Bool.and_eq_true, decide_eq_true_eq] at h
  rw [char_eq_iff_toNat, toNat_toLower, if_neg (by omega)]

theorem isLowerHex_toLower_of_isHexAny {c : Char}
    (h : isHexAny (Char.toLower c) = true) : isLowerHex (Char.toLower c) = true := by
  unfold isHexAny at h
  unfold isLowerHex
  simp only [Bool.or_eq_true, Bool.and_eq_true, decide_eq_true_eq] at h ⊢
  rw [toNat_toLower] at h ⊢
  by_cases hc : 65 ≤ c.toNat ∧ c.toNat ≤ 90
  · rw [if_pos hc] at h ⊢
    omega
  · rw [if_neg hc] at h ⊢
    omega

theorem isHexAny_toLower_iff {c : Char} :
    isHexAny (Char.toLower c) = true ↔ isHexAny c = true := by
  unfold isHexAny
  simp only [Bool.or_eq_true, Bool.and_eq_true, decide_eq_true_eq]
  rw [toNat_toLower]
  by_cases hc : 65 ≤ c.toNat ∧ c.toNat ≤ 90
  · rw [if_pos hc]
    constructor <;> intro hx <;> omega
  · rw [if_neg hc]

theorem toLower_ne_hash {c : Char} (h : c ≠ '#') : Char.toLower c ≠ '#' := by
  intro hc
  apply h
  rw [char_eq_iff_toNat] at hc ⊢
  rw [toNat_toLower] at hc
  have h35 : ('#').toNat = 35 := by decide
  rw [h35] at hc ⊢
  by_cases hcc : 65 ≤ c.toNat ∧ c.toNat ≤ 90
  · rw [if_pos hcc] at hc
    omega
  · rw [if_neg hcc] at hc
    omega

theorem hexDigVal_hexChar {d : ℕ} (h : d < 16) : hexDigVal (hexChar d) = some d := by
  interval_cases d <;> decide

theorem isLowerHex_hexChar {d : ℕ} (h : d < 16) : isLowerHex (hexChar d) = true := by
  interval_cases d <;> decide

theorem toLower_hexCharU {d : ℕ} (h : d < 16) : Char.toLower (hexCharU d) = hexChar d := by
  interval_cases d <;> decide

theorem intHex_hex2 {n : ℕ} (h : n < 256) : intHex (hex2 n) = some (n : ℕ) := by
  have h1 : n / 16 < 16 := by omega
  have h2 : n % 16 < 16 := by omega
  unfold intHex hex2
  rw [if_neg (by simp)]
  unfold intHexAux
  rw [hexDigVal_hexChar h1]
  simp only [Option.some_bind]
  unfold intHexAux
  rw [hexDigVal_hexChar h2]
  simp only [Option.some_bind]
  unfold intHexAux
  congr 1
  omega

theorem cleanLowerHex_hex2U {n : ℕ} (h : n < 256) :
    cleanLowerHex (hex2U n) = hex2 n := by
  have h1 : n / 16 < 16 := by omega
  have h2 : n % 16 < 16 := by omega
  unfold cleanLowerHex hex2U hex2
  simp only [List.map_cons, List.map_nil, toLower_hexCharU h1, toLower_hexCharU h2]
  rw [List.filter_cons_of_pos (isLowerHex_hexChar h1),
    List.filter_cons_of_pos (isLowerHex_hexChar h2)]
  rfl

theorem cleanLowerHex_append (l1 l2 : List Char) :
    cleanLowerHex (l1 ++ l2) = cleanLowerHex l1 ++ cleanLowerHex l2 := by
  unfold cleanLowerHex
  rw [List.map_append, List.filter_append]

theorem cleanHexU_keeps_lowerHex {c : Char} (h : isLowerHex c = true) :
    ((48 ≤ (Char.toUpper c).toNat && (Char.toUpper c).toNat ≤ 57) ||
      (65 ≤ (Char.toUpper c).toNat && (Char.toUpper c).toNat ≤ 70)) = true := by
  unfold isLowerHex at h
  simp only [Bool.or_eq_true, Bool.and_eq_true, decide_eq_true_eq] at h ⊢
  rw [toNat_toUpper]
  split <;> omega

theorem cleanHexU_stored {cl : List Char} (h : cl.all isLowerHex = true) :
    cleanHexU ('&' :: 'H' :: (cl ++ ['&'])) = cl.map Char.toUpper := by
  unfold cleanHexU
  simp only [List.map_cons, List.map_append, List.map_nil]
  rw [List.filter_cons_of_neg (by decide), List.filter_cons_of_neg (by decide),
    List.filter_append, List.filter_cons_of_neg (by decide)]
  simp only [List.filter_nil, List.append_nil]
  rw [List.filter_eq_self]
  intro u hu
  rw [List.mem_map] at hu
  obtain ⟨c, hc, rfl⟩ := hu
  exact cleanHexU_keeps_lowerHex (by
    rw [List.all_eq_true] at h
    exact h c hc)

theorem RGB.mkZ_of_valid {r g b : ℤ} (h : (RGBv.mk r g b).Valid) :
    RGB.mkZ r g b = some ⟨r, g, b⟩ := by
  unfold RGB.mkZ
  rw [if_pos h]

theorem RGB.mkZ_inv {r g b : ℤ} {c : RGBv} (h : RGB.mkZ r g b = some c) :
    c = ⟨r, g, b⟩ ∧ c.Valid := by
  unfold RGB.mkZ at h
  split at h
  · rename_i hv
    injection h with h
    subst h
    exact ⟨rfl, hv⟩
  · simp at h

theorem rgba_mkZ_of_valid {r g b : ℤ} {a : ℚ} (h : (RGBAv.mk r g b a).Valid) :
    RGBA.mkZ r g b a = some ⟨r, g, b, a⟩ := by
  unfold RGBA.mkZ
  rw [if_pos h]

theorem rgba_mkZ_inv {r g b : ℤ} {a : ℚ} {c : RGBAv}
    (h : RGBA.mkZ r g b a = some c) : c = ⟨r, g, b, a⟩ ∧ c.Valid := by
  unfold RGBA.mkZ at h
  split at h
  · rename_i hv
    injection h with h
    subst h
    exact ⟨rfl, hv⟩
  · simp at h

theorem hsv_mk_of_valid {h s v : ℚ} (hv : (HSVv.mk h s v).Valid) :
    HSV.mk h s v = some ⟨h, s, v⟩ := by
  unfold HSV.mk
  rw [if_pos hv]

theorem hsv_mk_inv {h s v : ℚ} {c : HSVv} (he : HSV.mk h s v = some c) :
    c = ⟨h, s, v⟩ ∧ c.Valid := by
  unfold HSV.mk at he
  split at he
  · rename_i hv
    injection he with he
    subst he
    exact ⟨rfl, hv⟩
  · simp at he

theorem hsl_mk_of_valid {h s l : ℚ} (hv : (HSLv.mk h s l).Valid) :
    HSL.mk h s l = some ⟨h, s, l⟩ := by
  unfold HSL.mk
  rw [if_pos hv]

theorem hsl_mk_inv {h s l : ℚ} {c : HSLv} (he : HSL.mk h s l = some c) :
    c = ⟨h, s, l⟩ ∧ c.Valid := by
  unfold HSL.mk at he
  split at he
  · rename_i hv
    injection he with he
    subst he
    exact ⟨rfl, hv⟩
  · simp at he

theorem cmyk_mk_of_valid {c m y k : ℚ} (hv : (CMYKv.mk c m y k).Valid) :
    CMYK.mk c m y k = some ⟨c, m, y, k⟩ := by
  unfold CMYK.mk
  rw [if_pos hv]

theorem cmyk_mk_inv {c m y k : ℚ} {x : CMYKv} (he : CMYK.mk c m y k = some x) :
    x = ⟨c, m, y, k⟩ ∧ x.Valid := by
  unfold CMYK.mk at he
  split at he
  · rename_i hv
    injection he with he
    subst he
    exact ⟨rfl, hv⟩
  · simp at he

theorem isHexAny_of_isLowerHex {c : Char} (h : isLowerHex c = true) :
    isHexAny c = true := by
  unfold isLowerHex at h
  unfold isHexAny
  simp only [Bool.or_eq_true, Bool.and_eq_true, decide_eq_true_eq] at h ⊢
  omega

theorem isLowerHex_ne_hash {c : Char} (h : isLowerHex c = true) : (c == '#') = false := by
  unfold isLowerHex at h
  simp only [Bool.or_eq_true, Bool.and_eq_true, decide_eq_true_eq] at h
  simp only [beq_eq_false_iff_ne, ne_eq]
  intro hc
  subst hc
  revert h
  decide

theorem pyLower_of_all_lowerHex {l : List Char} (h : l.all isLowerHex = true) :
    pyLower l = l := by
  unfold pyLower
  induction l with
  | nil => rfl
  | cons c t ih =>
    rw [List.all_cons, Bool.and_eq_true] at h
    rw [List.map_cons, toLower_of_isLowerHex h.1, ih h.2]

theorem dropWhile_hash_of_all_lowerHex {l : List Char} (h : l.all isLowerHex = true) :
    (l.dropWhile fun c => c == '#') = l := by
  cases l with
  | nil => rfl
  | cons c t =>
    rw [List.all_cons, Bool.and_eq_true] at h
    rw [List.dropWhile_cons_of_neg]
    rw [isLowerHex_ne_hash h.1]
    simp

theorem HEX.mk_canonical {ds : List Char} (hlen : ds.length = 6)
    (hhex : ds.all isLowerHex = true) :
    HEX.mk (String.mk ('#' :: ds)) = some ⟨String.mk ('#' :: ds)⟩ := by
  unfold HEX.mk
  have hstrip : stripOneHash ('#' :: ds) = ds := by
    unfold stripOneHash
    dsimp only
    rw [if_pos rfl]
  have hd : (String.mk ('#' :: ds)).data = '#' :: ds := rfl
  rw [hd, hstrip, pyLower_of_all_lowerHex hhex]
  rw [if_pos]
  unfold HEX.validateB
  rw [List.dropWhile_cons_of_pos (by decide), dropWhile_hash_of_all_lowerHex hhex]
  simp only [Bool.and_eq_true, beq_iff_eq]
  constructor
  · exact hlen
  · rw [List.all_eq_true] at hhex ⊢
    intro c hc
    exact isHexAny_of_isLowerHex (hhex c hc)

theorem hex2_all_lowerHex {n : ℕ} (h : n < 256) : (hex2 n).all isLowerHex = true := by
  unfold hex2
  rw [List.all_eq_true]
  intro c hc
  simp only [List.mem_cons, List.not_mem_nil, or_false] at hc
  rcases hc with rfl | rfl
  · exact isLowerHex_hexChar (by omega)
  · exact isLowerHex_hexChar (by omega)

theorem pyTrunc_zero : pyTrunc (0 : ℚ) = 0 := by
  unfold pyTrunc
  rw [if_pos le_rfl]
  simp

theorem rgb_mkQ_truncates : RGB.mkQ (2559 / 10) 0 0 = some ⟨255, 0, 0⟩ := by
  have htr : pyTrunc ((2559 : ℚ) / 10) = 255 := by
    unfold pyTrunc
    rw [if_pos (by norm_num)]
    rw [Int.floor_eq_iff]
    constructor <;> norm_num
  unfold RGB.mkQ
  rw [htr, pyTrunc_zero]
  decide

/-- C10 (implicit claim): every identity conversion (`to_rgb` on `RGB`,
`to_hex` on `HEX`, `to_hsv` on `HSV`, `to_hsl` on `HSL`, `to_cmyk` on
`CMYK`, `to_assa` on `ASSA`, `to_rgba` on `RGBA`, `to_webcolor` on
`webcolor`) and every `copy` is literally `return self`: in the embedding
each of these functions is the identity on its argument. -/
theorem c10_identity_conversions :
    (∀ x : RGBv, x.to_rgb = x ∧ x.copy = x) ∧
    (∀ x : RGBAv, x.to_rgba = x ∧ x.copy = x) ∧
    (∀ x : HEXv, x.to_hex = x ∧ x.copy = x) ∧
    (∀ x : HSVv, x.to_hsv = x ∧ x.copy = x) ∧
    (∀ x : HSLv, x.to_hsl = x ∧ x.copy = x) ∧
    (∀ x : CMYKv, x.to_cmyk = x ∧ x.copy = x) ∧
    (∀ x : ASSAv, x.to_assa = x ∧ x.copy = x) ∧
    (∀ x : WEBv, x.to_webcolor = x ∧ x.copy = x) :=
  ⟨fun _ => ⟨rfl, rfl⟩, fun _ => ⟨rfl, rfl⟩, fun _ => ⟨rfl, rfl⟩, fun _ => ⟨rfl, rfl⟩,
    fun _ => ⟨rfl, rfl⟩, fun _ => ⟨rfl, rfl⟩, fun _ => ⟨rfl, rfl⟩, fun _ => ⟨rfl, rfl⟩⟩

/-- C6 counterexample: the claim says constructors raise on invalid input
and never silently coerce a value into range, but `RGB(255.9, 0, 0)` is
accepted: `int()` truncates the out-of-range float `255.9` to `255`. -/
theorem c6_counterexample :
    (255 : ℚ) < 2559 / 10 ∧ RGB.mkQ (2559 / 10) 0 0 = some ⟨255, 0, 0⟩ := by
  constructor
  · norm_num
  · exact rgb_mkQ_truncates

/-- C6 (amended): for integer channel inputs the constructors raise
`ColorValueError` exactly on out-of-range input and store in-range input
unchanged; `RGB(256,0,0)`, `HSV(361,0,0)`, `CMYK(-1,0,0,0)`,
`ASSA("12345")` and `webcolor("notacolor")` all raise; non-integral
numeric channels are first truncated toward zero by `int()`, so
`RGB(255.9, 0, 0)` is silently accepted as `RGB(255, 0, 0)`. -/
theorem c6_constructor_validation_amended :
    RGB.mkZ 256 0 0 = none ∧
    HSV.mk 361 0 0 = none ∧
    CMYK.mk (-1) 0 0 0 = none ∧
    ASSA.mk "12345" = none ∧
    webcolor.mk "notacolor" = none ∧
    (∀ r g b : ℤ, 0 ≤ r → r ≤ 255 → 0 ≤ g → g ≤ 255 → 0 ≤ b → b ≤ 255 →
      RGB.mkZ r g b = some ⟨r, g, b⟩) ∧
    (∀ r g b : ℤ, ¬(0 ≤ r ∧ r ≤ 255 ∧ 0 ≤ g ∧ g ≤ 255 ∧ 0 ≤ b ∧ b ≤ 255) →
      RGB.mkZ r g b = none) ∧
    (∀ h s v : ℚ, 0 ≤ h → h ≤ 360 → 0 ≤ s → s ≤ 100 → 0 ≤ v → v ≤ 100 →
      HSV.mk h s v = some ⟨h, s, v⟩) ∧
    (∀ h s v : ℚ, ¬(0 ≤ h ∧ h ≤ 360 ∧ 0 ≤ s ∧ s ≤ 100 ∧ 0 ≤ v ∧ v ≤ 100) →
      HSV.mk h s v = none) ∧
    (∀ c m y k : ℚ, 0 ≤ c → c ≤ 100 → 0 ≤ m → m ≤ 100 → 0 ≤ y → y ≤ 100 →
      0 ≤ k → k ≤ 100 → CMYK.mk c m y k = some ⟨c, m, y, k⟩) ∧
    (∀ c m y k : ℚ, ¬(0 ≤ c ∧ c ≤ 100 ∧ 0 ≤ m ∧ m ≤ 100 ∧ 0 ≤ y ∧ y ≤ 100 ∧
      0 ≤ k ∧ k ≤ 100) → CMYK.mk c m y k = none) ∧
    (∀ s : String, ((cleanLowerHex s.data).length = 6 ∨ (cleanLowerHex s.data).length = 8) →
      ASSA.mk s = some ⟨String.mk ('&' :: 'H' :: (cleanLowerHex s.data ++ ['&']))⟩) ∧
    (∀ s : String, ¬((cleanLowerHex s.data).length = 6 ∨ (cleanLowerHex s.data).length = 8) →
      ASSA.mk s = none) ∧
    (∀ n : String, (cssColorToHex.lookup (String.mk (pyLower n.data))).isSome = true →
      webcolor.mk n = some ⟨String.mk (pyLower n.data)⟩) ∧
    (∀ n : String, (cssColorToHex.lookup (String.mk (pyLower n.data))).isSome = false →
      webcolor.mk n = none) ∧
    RGB.mkQ (2559 / 10) 0 0 = some ⟨255, 0, 0⟩ := by
  refine ⟨by decide, by decide, by decide, by decide, by decide, ?_, ?_, ?_, ?_, ?_, ?_,
    ?_, ?_, ?_, ?_, rgb_mkQ_truncates⟩
  · intro r g b h1 h2 h3 h4 h5 h6
    exact RGB.mkZ_of_valid ⟨h1, h2, h3, h4, h5, h6⟩
  · intro r g b h
    unfold RGB.mkZ
    rw [if_neg]
    exact h
  · intro h s v h1 h2 h3 h4 h5 h6
    exact hsv_mk_of_valid ⟨h1, h2, h3, h4, h5, h6⟩
  · intro h s v hn
    unfold HSV.mk
    rw [if_neg]
    exact hn
  · intro c m y k h1 h2 h3 h4 h5 h6 h7 h8
    exact cmyk_mk_of_valid ⟨h1, h2, h3, h4, h5, h6, h7, h8⟩
  · intro c m y k hn
    unfold CMYK.mk
    rw [if_neg]
    exact hn
  · intro s hlen
    unfold ASSA.mk
    rw [if_pos]
    unfold ASSA.isValidFormat
    rw [cleanHexU_stored (by
      unfold cleanLowerHex
      rw [List.all_eq_true]
      intro c hc
      exact (List.mem_filter.mp hc).2)]
    rw [List.length_map]
    rcases hlen with h | h <;> simp [h]
  · intro s hlen
    unfold ASSA.mk
    rw [if_neg]
    unfold ASSA.isValidFormat
    rw [cleanHexU_stored (by
      unfold cleanLowerHex
      rw [List.all_eq_true]
      intro c hc
      exact (List.mem_filter.mp hc).2)]
    rw [List.length_map]
    simp only [Bool.or_eq_true, beq_iff_eq]
    exact hlen
  · intro n h
    unfold webcolor.mk
    rw [if_pos h]
  · intro n h
    unfold webcolor.mk
    rw [if_neg]
    rw [h]
    simp

/-- C6 witness: the amended theorem applied at concrete inputs. -/
theorem c6_constructor_validation_amended_witness :
    RGB.mkZ 12 200 99 = some ⟨12, 200, 99⟩ ∧
    RGB.mkZ 300 0 0 = none ∧
    HSV.mk 120 50 50 = some ⟨120, 50, 50⟩ ∧
    CMYK.mk 1 2 3 4 = some ⟨1, 2, 3, 4⟩ ∧
    ASSA.mk "aabbcc" = some ⟨"&Haabbcc&"⟩ ∧
    webcolor.mk "Red" = some ⟨"red"⟩ := by
  obtain ⟨-, -, -, -, -, hrgb, hrgbn, hhsv, -, hcmyk, -, hassa, -, hweb, -, -⟩ :=
    c6_constructor_validation_amended
  refine ⟨hrgb 12 200 99 (by norm_num) (by norm_num) (by norm_num) (by norm_num)
      (by norm_num) (by norm_num), ?_, ?_, ?_, ?_, ?_⟩
  · exact hrgbn 300 0 0 (by omega)
  · exact hhsv 120 50 50 (by norm_num) (by norm_num) (by norm_num) (by norm_num)
      (by norm_num) (by norm_num)
  · exact hcmyk 1 2 3 4 (by norm_num) (by norm_num) (by norm_num) (by norm_num)
      (by norm_num) (by norm_num) (by norm_num) (by norm_num)
  · have h := hassa "aabbcc" (by decide)
    rw [h]
    rfl
  · have h := hweb "Red" (by decide)
    rw [h]
    rfl

/-- C7: `normalize_color` dispatch.  A length-3 all-numeric sequence goes to
the `RGB` constructor and a length-4 one to `RGBA`; any other numeric
sequence length raises `ColorValueError`.  A string starting with `#` goes
to `HEX`, a string starting with `&h`/`&H` to `ASSA.from_value`, any other
string to the `webcolor` lookup (which raises on unknown names, and on the
empty string the sequence-length branch raises, which coincides with the
failing `webcolor` lookup).  Any other input type raises. -/
theorem c7_normalize_dispatch :
    (∀ a b c : ℚ, normalize_color (.seq [a, b, c]) = (RGB.mkQ a b c).map AnyColor.rgb) ∧
    (∀ a b c d : ℚ,
      normalize_color (.seq [a, b, c, d]) = (RGBA.mkQ a b c d).map AnyColor.rgba) ∧
    (∀ xs : List ℚ, xs.length ≠ 3 → xs.length ≠ 4 → normalize_color (.seq xs) = none) ∧
    (∀ s : String, s.data.head? = some '#' →
      normalize_color (.str s) = (HEX.mk s).map AnyColor.hex) ∧
    (∀ s : String, s.data.head? ≠ some '#' → startsAmpH s = true →
      normalize_color (.str s) = (ASSA.fromValue s).map AnyColor.assa) ∧
    (∀ s : String, s.data.head? ≠ some '#' → startsAmpH s = false →
      normalize_color (.str s) = (webcolor.mk s).map AnyColor.web) ∧
    normalize_color .other = none := by
  refine ⟨fun a b c => rfl, fun a b c d => rfl, ?_, ?_, ?_, ?_, rfl⟩
  · intro xs h3 h4
    unfold normalize_color
    rcases xs with _ | ⟨a, _ | ⟨b, _ | ⟨c, _ | ⟨d, _ | ⟨e, t⟩⟩⟩⟩⟩
    · rfl
    · rfl
    · rfl
    · exact absurd rfl h3
    · exact absurd rfl h4
    · rfl
  · intro s hh
    unfold normalize_color
    dsimp only
    have hne : s.data ≠ [] := by
      intro h
      rw [h] at hh
      simp at hh
    rw [if_neg hne, if_pos hh]
  · intro s hh hamp
    unfold normalize_color
    dsimp only
    have hne : s.data ≠ [] := by
      intro h
      unfold startsAmpH at hamp
      rw [h] at hamp
      simp at hamp
    rw [if_neg hne, if_neg hh, if_pos hamp]
  · intro s hh hamp
    unfold normalize_color
    dsimp only
    by_cases hne : s.data = []
    · rw [if_pos hne]
      have hwm : webcolor.mk s = none := by
        unfold webcolor.mk
        rw [hne]
        decide
      rw [hwm]
      rfl
    · rw [if_neg hne, if_neg hh, hamp]
      simp

/-- C7 witness. -/
theorem c7_normalize_dispatch_witness :
    normalize_color (.seq [255, 128, 64]) = some (.rgb ⟨255, 128, 64⟩) ∧
    normalize_color (.seq [255, 128, 64, 1/2]) = some (.rgba ⟨255, 128, 64, 1/2⟩) ∧
    normalize_color (.seq [1, 2]) = none ∧
    normalize_color (.str "red") = some (.web ⟨"red"⟩) ∧
    normalize_color (.str "") = none := by
  obtain ⟨h3, h4, hlen, hhex, hamp, hweb, hother⟩ := c7_normalize_dispatch
  refine ⟨?_, ?_, ?_, ?_, ?_⟩
  · rw [h3 255 128 64]
    decide
  · rw [h4 255 128 64 (1/2)]
    have : RGBA.mkQ 255 128 64 (1/2) = some ⟨255, 128, 64, 1/2⟩ := by
      unfold RGBA.mkQ
      have h255 : pyTrunc (255 : ℚ) = 255 := by
        have := pyTrunc_intCast 255
        simpa using this
      have h128 : pyTrunc (128 : ℚ) = 128 := by
        have := pyTrunc_intCast 128
        simpa using this
      have h64 : pyTrunc (64 : ℚ) = 64 := by
        have := pyTrunc_intCast 64
        simpa using this
      rw [h255, h128, h64]
      unfold RGBA.mkZ
      rw [if_pos]
      unfold RGBAv.Valid
      norm_num
    rw [this]
    rfl
  · exact hlen [1, 2] (by simp) (by simp)
  · rw [hweb "red" (by decide) (by decide)]
    decide
  · rw [hweb "" (by decide) (by decide)]
    decide

theorem list_len2 {p : List Char} (hp : p.length = 2) : ∃ x y, p = [x, y] := by
  rcases p with _ | ⟨x, _ | ⟨y, _ | ⟨z, t⟩⟩⟩
  · simp at hp
  · simp at hp
  · exact ⟨x, y, rfl⟩
  · simp at hp

theorem take2_of_len2 {p : List Char} (hp : p.length = 2) (t : List Char) :
    (p ++ t).take 2 = p := by
  obtain ⟨x, y, rfl⟩ := list_len2 hp
  rfl

theorem drop2_of_len2 {p : List Char} (hp : p.length = 2) (t : List Char) :
    (p ++ t).drop 2 = t := by
  obtain ⟨x, y, rfl⟩ := list_len2 hp
  rfl

theorem take2_len2 {p : List Char} (hp : p.length = 2) : p.take 2 = p := by
  obtain ⟨x, y, rfl⟩ := list_len2 hp
  rfl

theorem hex2_length (n : ℕ) : (hex2 n).length = 2 :=
  rfl

/-- C4: for every valid RGB, `to_hex` encodes each channel as its 2-digit
zero-padded lowercase hexadecimal, concatenated red, green, blue behind a
`#`, and `HEX.to_rgb` decodes the same digits back, so
`x.to_hex().to_rgb() == x` exactly. -/
theorem c4_hex_roundtrip_exact :
    ∀ x : RGBv, x.Valid →
      x.to_hex = some ⟨String.mk ('#' ::
        (hex2 x.red.toNat ++ hex2 x.green.toNat ++ hex2 x.blue.toNat))⟩ ∧
      ∀ hx, x.to_hex = some hx → hx.to_rgb = some x := by
  intro x hv
  obtain ⟨h1, h2, h3, h4, h5, h6⟩ := hv
  have hr : x.red.toNat < 256 := by omega
  have hg : x.green.toNat < 256 := by omega
  have hb : x.blue.toNat < 256 := by omega
  have hall : (hex2 x.red.toNat ++ hex2 x.green.toNat ++ hex2 x.blue.toNat).all
      isLowerHex = true := by
    simp only [List.all_append, Bool.and_eq_true]
    exact ⟨⟨hex2_all_lowerHex hr, hex2_all_lowerHex hg⟩, hex2_all_lowerHex hb⟩
  have hlen : (hex2 x.red.toNat ++ hex2 x.green.toNat ++ hex2 x.blue.toNat).length = 6 := by
    simp [List.length_append, hex2_length]
  have hmk : x.to_hex = some ⟨String.mk ('#' ::
      (hex2 x.red.toNat ++ hex2 x.green.toNat ++ hex2 x.blue.toNat))⟩ := by
    unfold RGBv.to_hex
    exact HEX.mk_canonical hlen hall
  refine ⟨hmk, ?_⟩
  intro hx hhx
  rw [hmk] at hhx
  injection hhx with hhx
  subst hhx
  unfold HEXv.to_rgb
  dsimp only
  rw [List.dropWhile_cons_of_pos (by decide), dropWhile_hash_of_all_lowerHex hall]
  have hs1 : pySlice (hex2 x.red.toNat ++ hex2 x.green.toNat ++ hex2 x.blue.toNat) 0 2 =
      hex2 x.red.toNat := by
    unfold pySlice
    rw [List.drop_zero, List.append_assoc]
    exact take2_of_len2 (hex2_length _) _
  have hs2 : pySlice (hex2 x.red.toNat ++ hex2 x.green.toNat ++ hex2 x.blue.toNat) 2 4 =
      hex2 x.green.toNat := by
    unfold pySlice
    rw [List.append_assoc, drop2_of_len2 (hex2_length _) _]
    exact take2_of_len2 (hex2_length _) _
  have hs3 : pySlice (hex2 x.red.toNat ++ hex2 x.green.toNat ++ hex2 x.blue.toNat) 4 6 =
      hex2 x.blue.toNat := by
    unfold pySlice
    rw [List.append_assoc]
    rw [show (4 : ℕ) = 2 + 2 from rfl, ← List.drop_drop]
    rw [drop2_of_len2 (hex2_length _) _, drop2_of_len2 (hex2_length _) _]
    exact take2_len2 (hex2_length _)
  rw [hs1, hs2, hs3, intHex_hex2 hr, intHex_hex2 hg, intHex_hex2 hb]
  simp only [Option.some_bind]
  have e1 : (x.red.toNat : ℤ) = x.red := Int.toNat_of_nonneg h1
  have e2 : (x.green.toNat : ℤ) = x.green := Int.toNat_of_nonneg h3
  have e3 : (x.blue.toNat : ℤ) = x.blue := Int.toNat_of_nonneg h5
  rw [e1, e2, e3]
  exact RGB.mkZ_of_valid ⟨h1, h2, h3, h4, h5, h6⟩

/-- C4 witness at a concrete input. -/
theorem c4_hex_roundtrip_exact_witness :
    RGBv.to_hex ⟨255, 128, 64⟩ = some ⟨"#ff8040"⟩ ∧
    HEXv.to_rgb ⟨"#ff8040"⟩ = some ⟨255, 128, 64⟩ := by
  obtain ⟨hmk, hrt⟩ := c4_hex_roundtrip_exact ⟨255, 128, 64⟩ (by decide)
  constructor
  · rw [hmk]
    rfl
  · have := hrt ⟨"#ff8040"⟩ (by rw [hmk]; rfl)
    exact this

theorem cleanLowerHex_all (l : List Char) : (cleanLowerHex l).all isLowerHex = true := by
  unfold cleanLowerHex
  rw [List.all_eq_true]
  intro c hc
  exact (List.mem_filter.mp hc).2

theorem ASSA.mk_of_clean {cl : List Char} (hall : cl.all isLowerHex = true)
    (hlen : cl.length = 6 ∨ cl.length = 8) {s : String}
    (hs : cleanLowerHex s.data = cl) :
    ASSA.mk s = some ⟨String.mk ('&' :: 'H' :: (cl ++ ['&']))⟩ := by
  unfold ASSA.mk
  rw [hs, if_pos]
  unfold ASSA.isValidFormat
  rw [cleanHexU_stored hall, List.length_map]
  rcases hlen with h | h <;> simp [h]

theorem ASSAv.clean_value_explicit {cl : List Char} (hall : cl.all isLowerHex = true) :
    ASSAv.clean_value ⟨String.mk ('&' :: 'H' :: (cl ++ ['&']))⟩ = cl := by
  unfold ASSAv.clean_value
  dsimp only
  have hlast : ('&' :: 'H' :: (cl ++ ['&'])).getLast? = some '&' := by
    have hre : '&' :: 'H' :: (cl ++ ['&']) = ('&' :: 'H' :: cl) ++ ['&'] := by
      simp
    rw [hre, List.getLast?_concat]
  rw [hlast]
  split
  · have hdrop : ('&' :: 'H' :: (cl ++ ['&'])).drop 2 = cl ++ ['&'] := rfl
    rw [hdrop, List.dropLast_concat]
    have hp := pyLower_of_all_lowerHex hall
    unfold pyLower at hp
    exact hp
  · rename_i hfalse
    exfalso
    apply hfalse
    decide

theorem pySlice4_02 {p1 p2 p3 p4 : List Char} (h1 : p1.length = 2) :
    pySlice (p1 ++ p2 ++ p3 ++ p4) 0 2 = p1 := by
  unfold pySlice
  rw [List.drop_zero, List.append_assoc, List.append_assoc]
  exact take2_of_len2 h1 _

theorem pySlice4_24 {p1 p2 p3 p4 : List Char} (h1 : p1.length = 2) (h2 : p2.length = 2) :
    pySlice (p1 ++ p2 ++ p3 ++ p4) 2 4 = p2 := by
  unfold pySlice
  rw [List.append_assoc, List.append_assoc, drop2_of_len2 h1 _]
  exact take2_of_len2 h2 _

theorem pySlice4_46 {p1 p2 p3 p4 : List Char} (h1 : p1.length = 2) (h2 : p2.length = 2)
    (h3 : p3.length = 2) : pySlice (p1 ++ p2 ++ p3 ++ p4) 4 6 = p3 := by
  unfold pySlice
  rw [List.append_assoc, List.append_assoc]
  rw [show (4 : ℕ) = 2 + 2 from rfl, ← List.drop_drop]
  rw [drop2_of_len2 h1 _, drop2_of_len2 h2 _]
  exact take2_of_len2 h3 _

theorem pySlice4_68 {p1 p2 p3 p4 : List Char} (h1 : p1.length = 2) (h2 : p2.length = 2)
    (h3 : p3.length = 2) (h4 : p4.length = 2) :
    pySlice (p1 ++ p2 ++ p3 ++ p4) 6 8 = p4 := by
  unfold pySlice
  rw [List.append_assoc, List.append_assoc]
  rw [show (6 : ℕ) = 2 + (2 + 2) from rfl, ← List.drop_drop, ← List.drop_drop]
  rw [drop2_of_len2 h1 _, drop2_of_len2 h2 _, drop2_of_len2 h3 _]
  exact take2_len2 h4

/-- C5: for every valid RGB `x` and alpha `a` in `[0,1]`, converting
`x.to_rgba(a)` to ASSA stores the alpha byte `round((1 - a) * 255)` in
front of the `BBGGRR` digits, and `RGBA.from_assa` recovers the same
channels and the alpha `1 - assa_alpha/255`, within `1/255` of `a`. -/
theorem c5_assa_alpha_roundtrip :
    ∀ (x : RGBv) (a : ℚ), x.Valid → 0 ≤ a → a ≤ 1 →
    ∃ (ra : RGBAv) (as0 : ASSAv) (back : RGBAv),
      x.to_rgba a = some ra ∧
      ra.to_assa = some as0 ∧
      as0.alphaProp = some (some (pyRound ((1 - a) * 255)).toNat) ∧
      RGBA.from_assa as0 = some back ∧
      back.red = x.red ∧ back.green = x.green ∧ back.blue = x.blue ∧
      back.alpha = 1 - ((pyRound ((1 - a) * 255) : ℤ) : ℚ) / 255 ∧
      |back.alpha - a| ≤ 1 / 255 := by
  intro x a hv ha0 ha1
  obtain ⟨h1, h2, h3, h4, h5, h6⟩ := hv
  set al : ℤ := pyRound ((1 - a) * 255) with hal
  have halq : |((al : ℤ) : ℚ) - (1 - a) * 255| ≤ 1/2 := abs_pyRound_sub_le _
  have hal0 : (0 : ℤ) ≤ al :=
    le_pyRound (show ((0 : ℤ) : ℚ) ≤ (1 - a) * 255 by push_cast; nlinarith)
  have hal255 : al ≤ 255 :=
    pyRound_le (show (1 - a) * 255 ≤ ((255 : ℤ) : ℚ) by push_cast; nlinarith)
  have hrn : x.red.toNat < 256 := by omega
  have hgn : x.green.toNat < 256 := by omega
  have hbn : x.blue.toNat < 256 := by omega
  have han : al.toNat < 256 := by omega
  set cl : List Char :=
    hex2 al.toNat ++ hex2 x.blue.toNat ++ hex2 x.green.toNat ++ hex2 x.red.toNat with hcl
  have hclall : cl.all isLowerHex = true := by
    rw [hcl]
    simp only [List.all_append, Bool.and_eq_true]
    exact ⟨⟨⟨hex2_all_lowerHex han, hex2_all_lowerHex hbn⟩, hex2_all_lowerHex hgn⟩,
      hex2_all_lowerHex hrn⟩
  have hcllen : cl.length = 8 := by
    rw [hcl]
    simp [List.length_append, hex2_length]
  have hra : x.to_rgba a = some ⟨x.red, x.green, x.blue, a⟩ := by
    unfold RGBv.to_rgba
    exact rgba_mkZ_of_valid ⟨h1, h2, h3, h4, h5, h6, ha0, ha1⟩
  have hxr : RGB.mkZ x.red x.green x.blue = some x := by
    have := RGB.mkZ_of_valid
      (show (RGBv.mk x.red x.green x.blue).Valid from ⟨h1, h2, h3, h4, h5, h6⟩)
    exact this
  have hclean_s : cleanLowerHex (String.mk (hex2U al.toNat ++ hex2U x.blue.toNat ++
      hex2U x.green.toNat ++ hex2U x.red.toNat)).data = cl := by
    show cleanLowerHex (hex2U al.toNat ++ hex2U x.blue.toNat ++
      hex2U x.green.toNat ++ hex2U x.red.toNat) = cl
    rw [cleanLowerHex_append, cleanLowerHex_append, cleanLowerHex_append]
    rw [cleanLowerHex_hex2U han, cleanLowerHex_hex2U hbn, cleanLowerHex_hex2U hgn,
      cleanLowerHex_hex2U hrn]
  have hmkassa : ASSA.mk (String.mk (hex2U al.toNat ++ hex2U x.blue.toNat ++
      hex2U x.green.toNat ++ hex2U x.red.toNat)) =
      some ⟨String.mk ('&' :: 'H' :: (cl ++ ['&']))⟩ :=
    ASSA.mk_of_clean hclall (Or.inr hcllen) hclean_s
  set as0 : ASSAv := ⟨String.mk ('&' :: 'H' :: (cl ++ ['&']))⟩ with has0
  have hassa : RGBAv.to_assa ⟨x.red, x.green, x.blue, a⟩ = some as0 := by
    unfold RGBAv.to_assa ASSA.from_rgba
    dsimp only
    unfold RGBAv.to_rgb
    dsimp only
    rw [hxr]
    simp only [Option.some_bind]
    unfold ASSA.from_rgb
    dsimp only
    rw [if_pos ⟨hal0, hal255⟩]
    exact hmkassa
  have hclean : as0.clean_value = cl := ASSAv.clean_value_explicit hclall
  have halpha : as0.alphaProp = some (some al.toNat) := by
    unfold ASSAv.alphaProp
    rw [hclean]
    rw [if_neg (by rw [hcllen]; norm_num)]
    rw [hcl, pySlice4_02 (hex2_length _), intHex_hex2 han]
    rfl
  have hto_rgb : as0.to_rgb = some x := by
    unfold ASSAv.to_rgb
    rw [hclean]
    rw [if_neg (by rw [hcllen]; norm_num)]
    rw [hcl, pySlice4_24 (hex2_length _) (hex2_length _),
      pySlice4_46 (hex2_length _) (hex2_length _) (hex2_length _),
      pySlice4_68 (hex2_length _) (hex2_length _) (hex2_length _) (hex2_length _)]
    rw [intHex_hex2 hbn, intHex_hex2 hgn, intHex_hex2 hrn]
    simp only [Option.some_bind]
    rw [Int.toNat_of_nonneg h1, Int.toNat_of_nonneg h3, Int.toNat_of_nonneg h5]
    exact hxr
  have hcast : ((al.toNat : ℕ) : ℚ) = ((al : ℤ) : ℚ) := by
    rw [← Int.cast_natCast, Int.toNat_of_nonneg hal0]
  have hback : RGBA.from_assa as0 =
      some ⟨x.red, x.green, x.blue, 1 - ((al : ℤ) : ℚ) / 255⟩ := by
    unfold RGBA.from_assa
    rw [hto_rgb]
    simp only [Option.some_bind]
    rw [halpha]
    simp only [Option.some_bind]
    rw [hcast]
    exact rgba_mkZ_of_valid ⟨h1, h2, h3, h4, h5, h6, by
      push_cast
      constructor
      · rw [sub_nonneg, div_le_one (by norm_num : (0:ℚ) < 255)]
        exact_mod_cast hal255
      · have : (0 : ℚ) ≤ (al : ℚ) / 255 := by positivity
        linarith⟩
  refine ⟨⟨x.red, x.green, x.blue, a⟩, as0, ⟨x.red, x.green, x.blue,
    1 - ((al : ℤ) : ℚ) / 255⟩, hra, hassa, halpha, hback, rfl, rfl, rfl, rfl, ?_⟩
  have hy : (1 - ((al : ℤ) : ℚ) / 255) - a = ((1 - a) * 255 - (al : ℚ)) / 255 := by
    field_simp
    ring
  rw [hy, abs_div]
  have h255 : |(255 : ℚ)| = 255 := by norm_num
  rw [h255, div_le_iff₀ (by norm_num : (0 : ℚ) < 255)]
  rw [abs_sub_comm] at halq
  calc |(1 - a) * 255 - (al : ℚ)| ≤ 1/2 := halq
    _ ≤ 1 / 255 * 255 := by norm_num

/-- C5 witness at a concrete input. -/
theorem c5_assa_alpha_roundtrip_witness :
    ∃ (ra : RGBAv) (as0 : ASSAv) (back : RGBAv),
      RGBv.to_rgba ⟨255, 128, 64⟩ (1/2) = some ra ∧
      ra.to_assa = some as0 ∧
      as0.alphaProp = some (some (pyRound ((1 - 1/2) * 255)).toNat) ∧
      RGBA.from_assa as0 = some back ∧
      back.red = 255 ∧ back.green = 128 ∧ back.blue = 64 ∧
      back.alpha = 1 - ((pyRound ((1 - 1/2) * 255) : ℤ) : ℚ) / 255 ∧
      |back.alpha - 1/2| ≤ 1 / 255 := by
  have h := c5_assa_alpha_roundtrip ⟨255, 128, 64⟩ (1/2) (by decide)
    (by norm_num) (by norm_num)
  exact h

theorem HSV.mk_isSome_iff {h s v : ℚ} :
    (HSV.mk h s v).isSome = true ↔ (HSVv.mk h s v).Valid := by
  unfold HSV.mk
  split
  · rename_i hv
    simpa using hv
  · rename_i hv
    simpa using hv

theorem rgb_to_hsv_some {x : RGBv} (hv : x.Valid) :
    ∃ y, x.to_hsv = some y ∧ y.Valid := by
  obtain ⟨h1, h2, h3, h4, h5, h6⟩ := hv
  have hr0 : (0 : ℚ) ≤ (x.red : ℚ) / 255 := by positivity
  have hg0 : (0 : ℚ) ≤ (x.green : ℚ) / 255 := by positivity
  have hb0 : (0 : ℚ) ≤ (x.blue : ℚ) / 255 := by positivity
  have hr1 : (x.red : ℚ) / 255 ≤ 1 := by
    rw [div_le_one (by norm_num : (0:ℚ) < 255)]
    exact_mod_cast h2
  have hg1 : (x.green : ℚ) / 255 ≤ 1 := by
    rw [div_le_one (by norm_num : (0:ℚ) < 255)]
    exact_mod_cast h4
  have hb1 : (x.blue : ℚ) / 255 ≤ 1 := by
    rw [div_le_one (by norm_num : (0:ℚ) < 255)]
    exact_mod_cast h6
  unfold RGBv.to_hsv
  dsimp only
  set r : ℚ := (x.red : ℚ) / 255 with hrdef
  set g : ℚ := (x.green : ℚ) / 255 with hgdef
  set b : ℚ := (x.blue : ℚ) / 255 with hbdef
  set cmax : ℚ := max r (max g b) with hcmaxdef
  set cmin : ℚ := min r (min g b) with hcmindef
  have hcmax1 : cmax ≤ 1 := max_le hr1 (max_le hg1 hb1)
  have hcmin0 : 0 ≤ cmin := le_min hr0 (le_min hg0 hb0)
  have hminmax : cmin ≤ cmax :=
    le_trans (min_le_left _ _) (le_max_left _ _)
  set H : ℚ := (if cmax = cmin then 0
    else if cmax = r then qmod (60 * ((g - b) / (cmax - cmin)) + 360) 360
    else if cmax = g then qmod (60 * ((b - r) / (cmax - cmin)) + 120) 360
    else qmod (60 * ((r - g) / (cmax - cmin)) + 240) 360) with hHdef
  have hH : 0 ≤ H ∧ H ≤ 360 := by
    rw [hHdef]
    have h360 : (0 : ℚ) < 360 := by norm_num
    split
    · norm_num
    · split
      · exact ⟨qmod_nonneg _ h360, le_of_lt (qmod_lt _ h360)⟩
      · split
        · exact ⟨qmod_nonneg _ h360, le_of_lt (qmod_lt _ h360)⟩
        · exact ⟨qmod_nonneg _ h360, le_of_lt (qmod_lt _ h360)⟩
  set S : ℚ := (if cmax = 0 then 0 else (cmax - cmin) / cmax) with hSdef
  have hS : 0 ≤ S ∧ S ≤ 1 := by
    rw [hSdef]
    split
    · norm_num
    · rename_i hc0
      have hcpos : 0 < cmax := lt_of_le_of_ne (le_trans hcmin0 hminmax) (Ne.symm hc0)
      constructor
      · exact div_nonneg (by linarith) (le_of_lt hcpos)
      · rw [div_le_one hcpos]
        linarith
  have hval : (HSVv.mk H (S * 100) (cmax * 100)).Valid := by
    unfold HSVv.Valid
    dsimp only
    refine ⟨hH.1, hH.2, ?_, ?_, ?_, ?_⟩ <;>
      nlinarith [hS.1, hS.2, hcmin0, hminmax, hcmax1]
  exact ⟨⟨H, S * 100, cmax * 100⟩, hsv_mk_of_valid hval, hval⟩

theorem rgb_to_hsl_some {x : RGBv} (hv : x.Valid) :
    ∃ y, x.to_hsl = some y ∧ y.Valid := by
  obtain ⟨h1, h2, h3, h4, h5, h6⟩ := hv
  have hr0 : (0 : ℚ) ≤ (x.red : ℚ) / 255 := by positivity
  have hg0 : (0 : ℚ) ≤ (x.green : ℚ) / 255 := by positivity
  have hb0 : (0 : ℚ) ≤ (x.blue : ℚ) / 255 := by positivity
  have hr1 : (x.red : ℚ) / 255 ≤ 1 := by
    rw [div_le_one (by norm_num : (0:ℚ) < 255)]
    exact_mod_cast h2
  have hg1 : (x.green : ℚ) / 255 ≤ 1 := by
    rw [div_le_one (by norm_num : (0:ℚ) < 255)]
    exact_mod_cast h4
  have hb1 : (x.blue : ℚ) / 255 ≤ 1 := by
    rw [div_le_one (by norm_num : (0:ℚ) < 255)]
    exact_mod_cast h6
  unfold RGBv.to_hsl
  dsimp only
  set r : ℚ := (x.red : ℚ) / 255 with hrdef
  set g : ℚ := (x.green : ℚ) / 255 with hgdef
  set b : ℚ := (x.blue : ℚ) / 255 with hbdef
  set cmax : ℚ := max r (max g b) with hcmaxdef
  set cmin : ℚ := min r (min g b) with hcmindef
  have hcmax1 : cmax ≤ 1 := max_le hr1 (max_le hg1 hb1)
  have hcmin0 : 0 ≤ cmin := le_min hr0 (le_min hg0 hb0)
  have hminmax : cmin ≤ cmax :=
    le_trans (min_le_left _ _) (le_max_left _ _)
  split
  · rename_i hdiff
    have hval : (HSLv.mk 0 0 ((cmax + cmin) / 2 * 100)).Valid := by
      unfold HSLv.Valid
      dsimp only
      refine ⟨le_refl 0, by norm_num, le_refl 0, by norm_num, ?_, ?_⟩ <;> nlinarith
    exact ⟨⟨0, 0, (cmax + cmin) / 2 * 100⟩, hsl_mk_of_valid hval, hval⟩
  · rename_i hdiff
    have hdpos : 0 < cmax - cmin := by
      rcases lt_or_eq_of_le hminmax with h | h
      · linarith
      · exfalso
        apply hdiff
        rw [h]
        ring
    have hcmin1 : cmin < 1 := by linarith
    set L : ℚ := (cmax + cmin) / 2 with hLdef
    set S : ℚ := (if L > 1/2 then (cmax - cmin) / (2 - cmax - cmin)
      else (cmax - cmin) / (cmax + cmin)) with hSdef
    have hS : 0 ≤ S ∧ S ≤ 1 := by
      rw [hSdef]
      split
      · rename_i hl
        have hden : 0 < 2 - cmax - cmin := by linarith
        constructor
        · exact div_nonneg (by linarith) (le_of_lt hden)
        · rw [div_le_one hden]
          linarith
      · rename_i hl
        have hden : 0 < cmax + cmin := by
          rw [hLdef] at hl
          push_neg at hl
          by_contra hc
          push_neg at hc
          have hc0 : cmax = 0 := by
            have : cmax ≤ 0 := by linarith [hcmin0]
            linarith [le_trans hcmin0 hminmax]
          have : cmin = 0 := by linarith [hcmin0, hminmax]
          rw [hc0, this] at hdpos
          linarith
        constructor
        · exact div_nonneg (by linarith) (le_of_lt hden)
        · rw [div_le_one hden]
          linarith
    set H : ℚ := (if cmax = r then qmod (60 * ((g - b) / (cmax - cmin)) + 360) 360
      else if cmax = g then qmod (60 * ((b - r) / (cmax - cmin)) + 120) 360
      else qmod (60 * ((r - g) / (cmax - cmin)) + 240) 360) with hHdef
    have hH : 0 ≤ H ∧ H ≤ 360 := by
      rw [hHdef]
      have h360 : (0 : ℚ) < 360 := by norm_num
      split
      · exact ⟨qmod_nonneg _ h360, le_of_lt (qmod_lt _ h360)⟩
      · split
        · exact ⟨qmod_nonneg _ h360, le_of_lt (qmod_lt _ h360)⟩
        · exact ⟨qmod_nonneg _ h360, le_of_lt (qmod_lt _ h360)⟩
    have hval : (HSLv.mk H (S * 100) (L * 100)).Valid := by
      unfold HSLv.Valid
      dsimp only
      refine ⟨hH.1, hH.2, ?_, ?_, ?_, ?_⟩ <;>
        nlinarith [hS.1, hS.2, hcmin0, hminmax, hcmax1]
    exact ⟨⟨H, S * 100, L * 100⟩, hsl_mk_of_valid hval, hval⟩

theorem rgb_to_cmyk_some {x : RGBv} (hv : x.Valid) :
    ∃ y, x.to_cmyk = some y ∧ y.Valid := by
  obtain ⟨h1, h2, h3, h4, h5, h6⟩ := hv
  have hr0 : (0 : ℚ) ≤ (x.red : ℚ) / 255 := by positivity
  have hg0 : (0 : ℚ) ≤ (x.green : ℚ) / 255 := by positivity
  have hb0 : (0 : ℚ) ≤ (x.blue : ℚ) / 255 := by positivity
  have hr1 : (x.red : ℚ) / 255 ≤ 1 := by
    rw [div_le_one (by norm_num : (0:ℚ) < 255)]
    exact_mod_cast h2
  have hg1 : (x.green : ℚ) / 255 ≤ 1 := by
    rw [div_le_one (by norm_num : (0:ℚ) < 255)]
    exact_mod_cast h4
  have hb1 : (x.blue : ℚ) / 255 ≤ 1 := by
    rw [div_le_one (by norm_num : (0:ℚ) < 255)]
    exact_mod_cast h6
  unfold RGBv.to_cmyk
  dsimp only
  set r : ℚ := (x.red : ℚ) / 255 with hrdef
  set g : ℚ := (x.green : ℚ) / 255 with hgdef
  set b : ℚ := (x.blue : ℚ) / 255 with hbdef
  set cmax : ℚ := max r (max g b) with hcmaxdef
  have hcmax1 : cmax ≤ 1 := max_le hr1 (max_le hg1 hb1)
  have hcmax0 : 0 ≤ cmax := le_trans hr0 (le_max_left _ _)
  have hrle : r ≤ cmax := le_max_left _ _
  have hgle : g ≤ cmax := le_trans (le_max_left _ _) (le_max_right _ _)
  have hble : b ≤ cmax := le_trans (le_max_right _ _) (le_max_right _ _)
  split
  · rename_i hk1
    have hval : (CMYKv.mk 0 0 0 ((1 - cmax) * 100)).Valid := by
      unfold CMYKv.Valid
      dsimp only
      refine ⟨le_refl 0, by norm_num, le_refl 0, by norm_num, le_refl 0, by norm_num,
        ?_, ?_⟩ <;> nlinarith
    exact ⟨⟨0, 0, 0, (1 - cmax) * 100⟩, cmyk_mk_of_valid hval, hval⟩
  · rename_i hk1
    have hcpos : 0 < cmax := by
      rcases lt_or_eq_of_le hcmax0 with h | h
      · exact h
      · exfalso
        apply hk1
        rw [← h]
        ring
    have hfrac : ∀ t : ℚ, 0 ≤ t → t ≤ cmax →
        0 ≤ (1 - t - (1 - cmax)) / (1 - (1 - cmax)) ∧
          (1 - t - (1 - cmax)) / (1 - (1 - cmax)) ≤ 1 := by
      intro t ht0 htc
      have hden : 1 - (1 - cmax) = cmax := by ring
      rw [hden]
      constructor
      · exact div_nonneg (by linarith) (le_of_lt hcpos)
      · rw [div_le_one hcpos]
        linarith
    have hcv := hfrac r hr0 hrle
    have hmv := hfrac g hg0 hgle
    have hyv := hfrac b hb0 hble
    set C : ℚ := (1 - r - (1 - cmax)) / (1 - (1 - cmax)) with hCdef
    set M : ℚ := (1 - g - (1 - cmax)) / (1 - (1 - cmax)) with hMdef
    set Y : ℚ := (1 - b - (1 - cmax)) / (1 - (1 - cmax)) with hYdef
    have hval : (CMYKv.mk (C * 100) (M * 100) (Y * 100) ((1 - cmax) * 100)).Valid := by
      unfold CMYKv.Valid
      dsimp only
      refine ⟨?_, ?_, ?_, ?_, ?_, ?_, ?_, ?_⟩ <;>
        linarith [hcv.1, hcv.2, hmv.1, hmv.2, hyv.1, hyv.2, hcmax0, hcmax1]
    exact ⟨_, cmyk_mk_of_valid hval, hval⟩

theorem mkZ_round3 {A B C : ℚ} (hA0 : 0 ≤ A) (hA1 : A ≤ 255) (hB0 : 0 ≤ B)
    (hB1 : B ≤ 255) (hC0 : 0 ≤ C) (hC1 : C ≤ 255) :
    ∃ y, RGB.mkZ (pyRound A) (pyRound B) (pyRound C) = some y ∧ y.Valid := by
  have bA0 : (0 : ℤ) ≤ pyRound A := le_pyRound (by exact_mod_cast hA0)
  have bA1 : pyRound A ≤ 255 := pyRound_le (by exact_mod_cast hA1)
  have bB0 : (0 : ℤ) ≤ pyRound B := le_pyRound (by exact_mod_cast hB0)
  have bB1 : pyRound B ≤ 255 := pyRound_le (by exact_mod_cast hB1)
  have bC0 : (0 : ℤ) ≤ pyRound C := le_pyRound (by exact_mod_cast hC0)
  have bC1 : pyRound C ≤ 255 := pyRound_le (by exact_mod_cast hC1)
  exact ⟨_, RGB.mkZ_of_valid ⟨bA0, bA1, bB0, bB1, bC0, bC1⟩,
    ⟨bA0, bA1, bB0, bB1, bC0, bC1⟩⟩

theorem hsv_to_rgb_some {x : HSVv} (hv : x.Valid) :
    ∃ y, x.to_rgb = some y ∧ y.Valid := by
  obtain ⟨h1, h2, h3, h4, h5, h6⟩ := hv
  have hs0 : (0 : ℚ) ≤ x.saturation / 100 := by positivity
  have hs1 : x.saturation / 100 ≤ 1 := by
    rw [div_le_one (by norm_num : (0:ℚ) < 100)]
    exact h4
  have hv0 : (0 : ℚ) ≤ x.value / 100 := by positivity
  have hv1 : x.value / 100 ≤ 1 := by
    rw [div_le_one (by norm_num : (0:ℚ) < 100)]
    exact h6
  unfold HSVv.to_rgb
  dsimp only
  set s : ℚ := x.saturation / 100
  set v : ℚ := x.value / 100
  set c : ℚ := v * s with hcdef
  have hc0 : 0 ≤ c := mul_nonneg hv0 hs0
  have hcv : c ≤ v := by nlinarith
  set t : ℚ := qmod (x.hue / 60) 2 with htdef
  have ht : 0 ≤ t ∧ t < 2 := ⟨qmod_nonneg _ (by norm_num), qmod_lt _ (by norm_num)⟩
  set xx : ℚ := c * (1 - |t - 1|) with hxxdef
  have habs : |t - 1| ≤ 1 := by
    rw [abs_le]
    constructor <;> linarith [ht.1, ht.2]
  have habs0 : 0 ≤ |t - 1| := abs_nonneg _
  have hxx0 : 0 ≤ xx := by
    rw [hxxdef]
    apply mul_nonneg hc0
    linarith
  have hxxc : xx ≤ c := by
    rw [hxxdef]
    nlinarith
  set m : ℚ := v - c with hmdef
  have hm0 : 0 ≤ m := by rw [hmdef]; linarith
  have key : ∀ comp : ℚ, 0 ≤ comp → comp ≤ c →
      0 ≤ (comp + m) * 255 ∧ (comp + m) * 255 ≤ 255 := by
    intro comp hc1 hc2
    constructor
    · nlinarith
    · nlinarith [hv1]
  split
  · exact mkZ_round3 (key c hc0 (le_refl c)).1 (key c hc0 (le_refl c)).2
      (key xx hxx0 hxxc).1 (key xx hxx0 hxxc).2
      (key 0 (le_refl 0) hc0).1 (key 0 (le_refl 0) hc0).2
  · split
    · exact mkZ_round3 (key xx hxx0 hxxc).1 (key xx hxx0 hxxc).2
        (key c hc0 (le_refl c)).1 (key c hc0 (le_refl c)).2
        (key 0 (le_refl 0) hc0).1 (key 0 (le_refl 0) hc0).2
    · split
      · exact mkZ_round3 (key 0 (le_refl 0) hc0).1 (key 0 (le_refl 0) hc0).2
          (key c hc0 (le_refl c)).1 (key c hc0 (le_refl c)).2
          (key xx hxx0 hxxc).1 (key xx hxx0 hxxc).2
      · split
        · exact mkZ_round3 (key 0 (le_refl 0) hc0).1 (key 0 (le_refl 0) hc0).2
            (key xx hxx0 hxxc).1 (key xx hxx0 hxxc).2
            (key c hc0 (le_refl c)).1 (key c hc0 (le_refl c)).2
        · split
          · exact mkZ_round3 (key xx hxx0 hxxc).1 (key xx hxx0 hxxc).2
              (key 0 (le_refl 0) hc0).1 (key 0 (le_refl 0) hc0).2
              (key c hc0 (le_refl c)).1 (key c hc0 (le_refl c)).2
          · exact mkZ_round3 (key c hc0 (le_refl c)).1 (key c hc0 (le_refl c)).2
              (key 0 (le_refl 0) hc0).1 (key 0 (le_refl 0) hc0).2
              (key xx hxx0 hxxc).1 (key xx hxx0 hxxc).2

theorem hueToRgb_bounds {p q t0 : ℚ} (hp0 : 0 ≤ p) (hpq : p ≤ q) (hq1 : q ≤ 1)
    (hl : -(1/3) ≤ t0) (hr : t0 ≤ 4/3) :
    0 ≤ hueToRgb p q t0 ∧ hueToRgb p q t0 ≤ 1 := by
  unfold hueToRgb
  dsimp only
  set t1 : ℚ := if t0 < 0 then t0 + 1 else t0 with ht1
  set t : ℚ := if t1 > 1 then t1 - 1 else t1 with ht
  have h0t1 : 0 ≤ t1 := by rw [ht1]; split <;> linarith
  have h1t1 : t1 ≤ 4/3 := by rw [ht1]; split <;> linarith
  have h0t : 0 ≤ t := by rw [ht]; split <;> linarith
  have h1t : t ≤ 1 := by rw [ht]; split <;> linarith
  constructor
  · split
    · nlinarith
    · split
      · linarith
      · split
        · rename_i hc1 hc2 hc3
          push_neg at hc1 hc2
          nlinarith
        · linarith
  · split
    · rename_i hc1
      nlinarith
    · split
      · linarith
      · split
        · rename_i hc1 hc2 hc3
          push_neg at hc1 hc2
          nlinarith
        · linarith

theorem hsl_to_rgb_some {x : HSLv} (hv : x.Valid) :
    ∃ y, x.to_rgb = some y ∧ y.Valid := by
  obtain ⟨h1, h2, h3, h4, h5, h6⟩ := hv
  unfold HSLv.to_rgb
  dsimp only
  set hue : ℚ := x.hue / 360 with hhue
  set sa : ℚ := x.saturation / 100 with hsa
  set li : ℚ := x.lightness / 100 with hli
  have hhue0 : 0 ≤ hue := by rw [hhue]; positivity
  have hhue1 : hue ≤ 1 := by
    rw [hhue, div_le_one (by norm_num : (0:ℚ) < 360)]
    exact h2
  have hsa0 : 0 ≤ sa := by rw [hsa]; positivity
  have hsa1 : sa ≤ 1 := by
    rw [hsa, div_le_one (by norm_num : (0:ℚ) < 100)]
    exact h4
  have hli0 : 0 ≤ li := by rw [hli]; positivity
  have hli1 : li ≤ 1 := by
    rw [hli, div_le_one (by norm_num : (0:ℚ) < 100)]
    exact h6
  split
  · have hb0 : (0 : ℚ) ≤ li * 255 := by nlinarith
    have hb1 : li * 255 ≤ 255 := by nlinarith
    exact mkZ_round3 hb0 hb1 hb0 hb1 hb0 hb1
  · set qq : ℚ := if li < 1/2 then li * (1 + sa) else li + sa - li * sa with hqq
    set pp : ℚ := 2 * li - qq with hpp
    have hqb : 0 ≤ qq ∧ qq ≤ 1 ∧ pp ≤ qq ∧ 0 ≤ pp := by
      rw [hpp, hqq]
      split
      · refine ⟨by nlinarith, by nlinarith, by nlinarith, by nlinarith⟩
      · rename_i hge
        push_neg at hge
        refine ⟨by nlinarith, by nlinarith, by nlinarith, by nlinarith⟩
    obtain ⟨hq0, hq1, hpq, hp0⟩ := hqb
    have b1 := hueToRgb_bounds hp0 hpq hq1 (show -(1/3) ≤ hue + 1/3 by linarith)
      (show hue + 1/3 ≤ 4/3 by linarith)
    have b2 := hueToRgb_bounds hp0 hpq hq1 (show -(1/3) ≤ hue by linarith)
      (show hue ≤ 4/3 by linarith)
    have b3 := hueToRgb_bounds hp0 hpq hq1 (show -(1/3) ≤ hue - 1/3 by linarith)
      (show hue - 1/3 ≤ 4/3 by linarith)
    exact mkZ_round3 (by linarith [b1.1]) (by linarith [b1.2])
      (by linarith [b2.1]) (by linarith [b2.2])
      (by linarith [b3.1]) (by linarith [b3.2])

theorem cmyk_to_rgb_some {x : CMYKv} (hv : x.Valid) :
    ∃ y, x.to_rgb = some y ∧ y.Valid := by
  obtain ⟨h1, h2, h3, h4, h5, h6, h7, h8⟩ := hv
  unfold CMYKv.to_rgb
  dsimp only
  have hc0 : (0 : ℚ) ≤ 1 - x.cyan / 100 := by
    rw [sub_nonneg, div_le_one (by norm_num : (0:ℚ) < 100)]
    exact h2
  have hc1 : 1 - x.cyan / 100 ≤ 1 := by
    have : (0 : ℚ) ≤ x.cyan / 100 := by positivity
    linarith
  have hm0 : (0 : ℚ) ≤ 1 - x.magenta / 100 := by
    rw [sub_nonneg, div_le_one (by norm_num : (0:ℚ) < 100)]
    exact h4
  have hm1 : 1 - x.magenta / 100 ≤ 1 := by
    have : (0 : ℚ) ≤ x.magenta / 100 := by positivity
    linarith
  have hy0 : (0 : ℚ) ≤ 1 - x.yellow / 100 := by
    rw [sub_nonneg, div_le_one (by norm_num : (0:ℚ) < 100)]
    exact h6
  have hy1 : 1 - x.yellow / 100 ≤ 1 := by
    have : (0 : ℚ) ≤ x.yellow / 100 := by positivity
    linarith
  have hk0 : (0 : ℚ) ≤ 1 - x.key / 100 := by
    rw [sub_nonneg, div_le_one (by norm_num : (0:ℚ) < 100)]
    exact h8
  have hk1 : 1 - x.key / 100 ≤ 1 := by
    have : (0 : ℚ) ≤ x.key / 100 := by positivity
    linarith
  exact mkZ_round3 (by nlinarith) (by nlinarith) (by nlinarith) (by nlinarith)
    (by nlinarith) (by nlinarith)

theorem hexDigVal_of_lowerHex {c : Char} (h : isLowerHex c = true) :
    ∃ v, hexDigVal c = some v ∧ v < 16 := by
  unfold isLowerHex at h
  unfold hexDigVal
  simp only [Bool.or_eq_true, Bool.and_eq_true, decide_eq_true_eq] at h
  rcases h with ⟨h1, h2⟩ | ⟨h1, h2⟩
  · rw [if_pos ⟨h1, h2⟩]
    exact ⟨c.toNat - 48, rfl, by omega⟩
  · rw [if_neg (by omega), if_neg (by omega), if_pos ⟨h1, h2⟩]
    exact ⟨c.toNat - 87, rfl, by omega⟩

theorem intHex_pair {c1 c2 : Char} (h1 : isLowerHex c1 = true) (h2 : isLowerHex c2 = true) :
    ∃ v, intHex [c1, c2] = some v ∧ v < 256 := by
  obtain ⟨v1, hv1, hv1b⟩ := hexDigVal_of_lowerHex h1
  obtain ⟨v2, hv2, hv2b⟩ := hexDigVal_of_lowerHex h2
  refine ⟨16 * v1 + v2, ?_, by omega⟩
  unfold intHex
  rw [if_neg (by simp)]
  unfold intHexAux
  rw [hv1]
  simp only [Option.some_bind]
  unfold intHexAux
  rw [hv2]
  simp only [Option.some_bind]
  unfold intHexAux
  norm_num

theorem dropWhile_hash_replicate (n : ℕ) (ds : List Char) :
    ((List.replicate n '#' ++ ds).dropWhile fun c => c == '#') =
      ds.dropWhile fun c => c == '#' := by
  induction n with
  | zero => rw [List.replicate_zero, List.nil_append]
  | succ m ih =>
    rw [List.replicate_succ, List.cons_append, List.dropWhile_cons_of_pos (by decide), ih]

theorem list_len6 {p : List Char} (hp : p.length = 6) :
    ∃ a b c d e f, p = [a, b, c, d, e, f] := by
  rcases p with _ | ⟨a, p⟩
  · simp at hp
  rcases p with _ | ⟨b, p⟩
  · simp at hp
  rcases p with _ | ⟨c, p⟩
  · simp at hp
  rcases p with _ | ⟨d, p⟩
  · simp at hp
  rcases p with _ | ⟨e, p⟩
  · simp at hp
  rcases p with _ | ⟨f, p⟩
  · simp at hp
  rcases p with _ | ⟨g, p⟩
  · exact ⟨a, b, c, d, e, f, rfl⟩
  · simp only [List.length_cons] at hp
    omega

theorem list_len8 {p : List Char} (hp : p.length = 8) :
    ∃ a b c d e f g h, p = [a, b, c, d, e, f, g, h] := by
  rcases p with _ | ⟨a, p⟩
  · simp at hp
  rcases p with _ | ⟨b, p⟩
  · simp at hp
  rcases p with _ | ⟨c, p⟩
  · simp at hp
  rcases p with _ | ⟨d, p⟩
  · simp at hp
  rcases p with _ | ⟨e, p⟩
  · simp at hp
  rcases p with _ | ⟨f, p⟩
  · simp at hp
  rcases p with _ | ⟨g, p⟩
  · simp at hp
  rcases p with _ | ⟨h0, p⟩
  · simp at hp
  rcases p with _ | ⟨i, p⟩
  · exact ⟨a, b, c, d, e, f, g, h0, rfl⟩
  · simp only [List.length_cons] at hp
    omega

theorem hex_to_rgb_some {h : HEXv} (hv : h.Valid) :
    ∃ y, h.to_rgb = some y ∧ y.Valid := by
  obtain ⟨k, ds, hdata, hlen, hall⟩ := hv
  obtain ⟨a, b, c, d, e, f, rfl⟩ := list_len6 hlen
  have hall' := hall
  rw [List.all_eq_true] at hall'
  have ha := hall' a (by simp)
  have hb := hall' b (by simp)
  have hc := hall' c (by simp)
  have hd := hall' d (by simp)
  have he := hall' e (by simp)
  have hf := hall' f (by simp)
  unfold HEXv.to_rgb
  dsimp only
  rw [hdata, dropWhile_hash_replicate, dropWhile_hash_of_all_lowerHex hall]
  have h02 : pySlice [a, b, c, d, e, f] 0 2 = [a, b] := rfl
  have h24 : pySlice [a, b, c, d, e, f] 2 4 = [c, d] := rfl
  have h46 : pySlice [a, b, c, d, e, f] 4 6 = [e, f] := rfl
  rw [h02, h24, h46]
  obtain ⟨v1, hv1, hb1⟩ := intHex_pair ha hb
  obtain ⟨v2, hv2, hb2⟩ := intHex_pair hc hd
  obtain ⟨v3, hv3, hb3⟩ := intHex_pair he hf
  rw [hv1, hv2, hv3]
  simp only [Option.some_bind]
  have hvalid : (RGBv.mk (v1 : ℤ) (v2 : ℤ) (v3 : ℤ)).Valid := by
    unfold RGBv.Valid
    dsimp only
    refine ⟨?_, ?_, ?_, ?_, ?_, ?_⟩ <;> omega
  exact ⟨⟨(v1 : ℤ), (v2 : ℤ), (v3 : ℤ)⟩, RGB.mkZ_of_valid hvalid, hvalid⟩

theorem rgb_to_hex_some {x : RGBv} (hv : x.Valid) :
    ∃ y, x.to_hex = some y ∧ y.Valid := by
  obtain ⟨h1, h2, h3, h4, h5, h6⟩ := hv
  have hr : x.red.toNat < 256 := by omega
  have hg : x.green.toNat < 256 := by omega
  have hb : x.blue.toNat < 256 := by omega
  have hall : (hex2 x.red.toNat ++ hex2 x.green.toNat ++ hex2 x.blue.toNat).all
      isLowerHex = true := by
    simp only [List.all_append, Bool.and_eq_true]
    exact ⟨⟨hex2_all_lowerHex hr, hex2_all_lowerHex hg⟩, hex2_all_lowerHex hb⟩
  have hlen : (hex2 x.red.toNat ++ hex2 x.green.toNat ++ hex2 x.blue.toNat).length = 6 := by
    simp [List.length_append, hex2_length]
  refine ⟨⟨String.mk ('#' ::
    (hex2 x.red.toNat ++ hex2 x.green.toNat ++ hex2 x.blue.toNat))⟩, ?_, ?_⟩
  · unfold RGBv.to_hex
    exact HEX.mk_canonical hlen hall
  · exact ⟨0, hex2 x.red.toNat ++ hex2 x.green.toNat ++ hex2 x.blue.toNat, rfl, hlen, hall⟩

theorem assa_from_rgb_none_some {x : RGBv} (hv : x.Valid) :
    ∃ y, ASSA.from_rgb x none = some y ∧ y.Valid := by
  obtain ⟨h1, h2, h3, h4, h5, h6⟩ := hv
  have hbn : x.blue.toNat < 256 := by omega
  have hgn : x.green.toNat < 256 := by omega
  have hrn : x.red.toNat < 256 := by omega
  set cl : List Char := hex2 x.blue.toNat ++ hex2 x.green.toNat ++ hex2 x.red.toNat with hcl
  have hclall : cl.all isLowerHex = true := by
    rw [hcl]
    simp only [List.all_append, Bool.and_eq_true]
    exact ⟨⟨hex2_all_lowerHex hbn, hex2_all_lowerHex hgn⟩, hex2_all_lowerHex hrn⟩
  have hcllen : cl.length = 6 := by
    rw [hcl]
    simp [List.length_append, hex2_length]
  have hclean_s : cleanLowerHex (String.mk (hex2U x.blue.toNat ++ hex2U x.green.toNat ++
      hex2U x.red.toNat)).data = cl := by
    show cleanLowerHex (hex2U x.blue.toNat ++ hex2U x.green.toNat ++ hex2U x.red.toNat) = cl
    rw [cleanLowerHex_append, cleanLowerHex_append, cleanLowerHex_hex2U hbn,
      cleanLowerHex_hex2U hgn, cleanLowerHex_hex2U hrn]
  refine ⟨⟨String.mk ('&' :: 'H' :: (cl ++ ['&']))⟩, ?_, ?_⟩
  · unfold ASSA.from_rgb
    exact ASSA.mk_of_clean hclall (Or.inl hcllen) hclean_s
  · exact ⟨cl, rfl, hclall, Or.inl hcllen⟩

theorem assa_from_rgb_alpha_some {x : RGBv} {al : ℤ} (hv : x.Valid) (h0 : 0 ≤ al)
    (h255 : al ≤ 255) : ∃ y, ASSA.from_rgb x (some al) = some y ∧ y.Valid := by
  obtain ⟨h1, h2, h3, h4, h5, h6⟩ := hv
  have hbn : x.blue.toNat < 256 := by omega
  have hgn : x.green.toNat < 256 := by omega
  have hrn : x.red.toNat < 256 := by omega
  have han : al.toNat < 256 := by omega
  set cl : List Char :=
    hex2 al.toNat ++ hex2 x.blue.toNat ++ hex2 x.green.toNat ++ hex2 x.red.toNat with hcl
  have hclall : cl.all isLowerHex = true := by
    rw [hcl]
    simp only [List.all_append, Bool.and_eq_true]
    exact ⟨⟨⟨hex2_all_lowerHex han, hex2_all_lowerHex hbn⟩, hex2_all_lowerHex hgn⟩,
      hex2_all_lowerHex hrn⟩
  have hcllen : cl.length = 8 := by
    rw [hcl]
    simp [List.length_append, hex2_length]
  have hclean_s : cleanLowerHex (String.mk (hex2U al.toNat ++ hex2U x.blue.toNat ++
      hex2U x.green.toNat ++ hex2U x.red.toNat)).data = cl := by
    show cleanLowerHex (hex2U al.toNat ++ hex2U x.blue.toNat ++
      hex2U x.green.toNat ++ hex2U x.red.toNat) = cl
    rw [cleanLowerHex_append, cleanLowerHex_append, cleanLowerHex_append,
      cleanLowerHex_hex2U han, cleanLowerHex_hex2U hbn, cleanLowerHex_hex2U hgn,
      cleanLowerHex_hex2U hrn]
  refine ⟨⟨String.mk ('&' :: 'H' :: (cl ++ ['&']))⟩, ?_, ?_⟩
  · unfold ASSA.from_rgb
    dsimp only
    rw [if_pos ⟨h0, h255⟩]
    exact ASSA.mk_of_clean hclall (Or.inr hcllen) hclean_s
  · exact ⟨cl, rfl, hclall, Or.inr hcllen⟩

theorem rgb_to_assa_some {x : RGBv} (hv : x.Valid) :
    ∃ y, x.to_assa = some y ∧ y.Valid := by
  unfold RGBv.to_assa
  exact assa_from_rgb_none_some hv

theorem assa_to_rgb_some {a : ASSAv} (hv : a.Valid) :
    ∃ y, a.to_rgb = some y ∧ y.Valid := by
  obtain ⟨cl, hdata, hall, hlen⟩ := hv
  obtain ⟨v⟩ := a
  obtain ⟨d⟩ := v
  have hd : d = '&' :: 'H' :: (cl ++ ['&']) := hdata
  subst hd
  unfold ASSAv.to_rgb
  dsimp only
  rw [ASSAv.clean_value_explicit hall]
  have hall' := hall
  rw [List.all_eq_true] at hall'
  rcases hlen with h6 | h8
  · obtain ⟨c1, c2, c3, c4, c5, c6, rfl⟩ := list_len6 h6
    rw [if_pos h6]
    have s02 : pySlice [c1, c2, c3, c4, c5, c6] 0 2 = [c1, c2] := rfl
    have s24 : pySlice [c1, c2, c3, c4, c5, c6] 2 4 = [c3, c4] := rfl
    have s46 : pySlice [c1, c2, c3, c4, c5, c6] 4 6 = [c5, c6] := rfl
    rw [s02, s24, s46]
    obtain ⟨v1, hv1, hb1⟩ := intHex_pair (hall' c1 (by simp)) (hall' c2 (by simp))
    obtain ⟨v2, hv2, hb2⟩ := intHex_pair (hall' c3 (by simp)) (hall' c4 (by simp))
    obtain ⟨v3, hv3, hb3⟩ := intHex_pair (hall' c5 (by simp)) (hall' c6 (by simp))
    rw [hv1, hv2, hv3]
    simp only [Option.some_bind]
    have hvalid : (RGBv.mk (v3 : ℤ) (v2 : ℤ) (v1 : ℤ)).Valid := by
      unfold RGBv.Valid
      dsimp only
      refine ⟨?_, ?_, ?_, ?_, ?_, ?_⟩ <;> omega
    exact ⟨⟨(v3 : ℤ), (v2 : ℤ), (v1 : ℤ)⟩, RGB.mkZ_of_valid hvalid, hvalid⟩
  · obtain ⟨c1, c2, c3, c4, c5, c6, c7, c8, rfl⟩ := list_len8 h8
    rw [if_neg (by simp)]
    have s24 : pySlice [c1, c2, c3, c4, c5, c6, c7, c8] 2 4 = [c3, c4] := rfl
    have s46 : pySlice [c1, c2, c3, c4, c5, c6, c7, c8] 4 6 = [c5, c6] := rfl
    have s68 : pySlice [c1, c2, c3, c4, c5, c6, c7, c8] 6 8 = [c7, c8] := rfl
    rw [s24, s46, s68]
    obtain ⟨v1, hv1, hb1⟩ := intHex_pair (hall' c3 (by simp)) (hall' c4 (by simp))
    obtain ⟨v2, hv2, hb2⟩ := intHex_pair (hall' c5 (by simp)) (hall' c6 (by simp))
    obtain ⟨v3, hv3, hb3⟩ := intHex_pair (hall' c7 (by simp)) (hall' c8 (by simp))
    rw [hv1, hv2, hv3]
    simp only [Option.some_bind]
    have hvalid : (RGBv.mk (v3 : ℤ) (v2 : ℤ) (v1 : ℤ)).Valid := by
      unfold RGBv.Valid
      dsimp only
      refine ⟨?_, ?_, ?_, ?_, ?_, ?_⟩ <;> omega
    exact ⟨⟨(v3 : ℤ), (v2 : ℤ), (v1 : ℤ)⟩, RGB.mkZ_of_valid hvalid, hvalid⟩

theorem bind_exists {α γ : Type} {o : Option α} {f : α → Option γ} {P : α → Prop}
    {Q : γ → Prop} (h : ∃ y, o = some y ∧ P y)
    (hf : ∀ y, P y → ∃ z, f y = some z ∧ Q z) :
    ∃ z, o.bind f = some z ∧ Q z := by
  obtain ⟨y, rfl, hy⟩ := h
  simp only [Option.some_bind]
  exact hf y hy

theorem rgba_to_rgb_some {x : RGBAv} (hv : x.Valid) :
    ∃ y, x.to_rgb = some y ∧ y.Valid := by
  obtain ⟨h1, h2, h3, h4, h5, h6, _, _⟩ := hv
  exact ⟨⟨x.red, x.green, x.blue⟩, RGB.mkZ_of_valid ⟨h1, h2, h3, h4, h5, h6⟩,
    h1, h2, h3, h4, h5, h6⟩

theorem rgba_to_assa_some {x : RGBAv} (hv : x.Valid) :
    ∃ y, x.to_assa = some y ∧ y.Valid := by
  obtain ⟨h1, h2, h3, h4, h5, h6, h7, h8⟩ := hv
  unfold RGBAv.to_assa ASSA.from_rgba
  have hrgb : x.to_rgb = some ⟨x.red, x.green, x.blue⟩ := by
    unfold RGBAv.to_rgb
    exact RGB.mkZ_of_valid ⟨h1, h2, h3, h4, h5, h6⟩
  rw [hrgb]
  simp only [Option.some_bind]
  have hal0 : (0 : ℤ) ≤ pyRound ((1 - x.alpha) * 255) :=
    le_pyRound (show ((0 : ℤ) : ℚ) ≤ (1 - x.alpha) * 255 by push_cast; nlinarith)
  have hal255 : pyRound ((1 - x.alpha) * 255) ≤ 255 :=
    pyRound_le (show (1 - x.alpha) * 255 ≤ ((255 : ℤ) : ℚ) by push_cast; nlinarith)
  exact assa_from_rgb_alpha_some ⟨h1, h2, h3, h4, h5, h6⟩ hal0 hal255

theorem HEX.mk_of_hexAny {ds : List Char} (hlen : ds.length = 6)
    (hall : ds.all isHexAny = true) :
    ∃ hx, HEX.mk (String.mk ('#' :: ds)) = some hx ∧ hx.Valid := by
  have hstrip : stripOneHash (String.mk ('#' :: ds)).data = ds := rfl
  have hmap : ∀ c ∈ ds, isLowerHex (Char.toLower c) = true := by
    rw [List.all_eq_true] at hall
    intro c hc
    exact isLowerHex_toLower_of_isHexAny (isHexAny_toLower_iff.mpr (hall c hc))
  have hallLower : (pyLower ds).all isLowerHex = true := by
    unfold pyLower
    rw [List.all_eq_true]
    intro c hc
    obtain ⟨c0, hc0, rfl⟩ := List.mem_map.mp hc
    exact hmap c0 hc0
  have hlenLower : (pyLower ds).length = 6 := by
    unfold pyLower
    rw [List.length_map]
    exact hlen
  have hvb : HEX.validateB ('#' :: pyLower ds) = true := by
    unfold HEX.validateB
    dsimp only
    rw [List.dropWhile_cons_of_pos (by decide), dropWhile_hash_of_all_lowerHex hallLower]
    rw [Bool.and_eq_true, beq_iff_eq]
    refine ⟨hlenLower, ?_⟩
    rw [List.all_eq_true]
    intro c hc
    exact isHexAny_of_isLowerHex (List.all_eq_true.mp hallLower c hc)
  refine ⟨⟨String.mk ('#' :: pyLower ds)⟩, ?_, ?_⟩
  · unfold HEX.mk
    dsimp only
    rw [hstrip, if_pos hvb]
  · exact ⟨0, pyLower ds, rfl, hlenLower, hallLower⟩

theorem lookup_mem {l : List (String × String)} {k v : String}
    (h : l.lookup k = some v) : (k, v) ∈ l := by
  induction l with
  | nil => simp [List.lookup] at h
  | cons p t ih =>
    obtain ⟨pk, pv⟩ := p
    rw [List.lookup] at h
    split at h
    · rename_i heq
      injection h with h
      subst h
      have hk : k = pk := beq_iff_eq.mp heq
      subst hk
      exact List.mem_cons_self _ _
    · exact List.mem_cons_of_mem _ (ih h)

theorem web_hexValue_some {w : WEBv} (hv : w.Valid) :
    ∃ hx, w.hexValue = some hx ∧ hx.Valid := by
  unfold WEBv.Valid at hv
  obtain ⟨v, hvv⟩ := Option.isSome_iff_exists.mp hv
  have hmem : (w.name, v) ∈ cssColorToHex := lookup_mem hvv
  have htab : cssColorToHex.all (fun p =>
      match p.2.data with
      | [] => false
      | c :: ds => c == '#' && ((ds.length == 6) && ds.all isHexAny)) = true := by decide
  have hp := List.all_eq_true.mp htab _ hmem
  unfold WEBv.hexValue
  rw [hvv]
  simp only [Option.some_bind]
  rcases hvd : v.data with _ | ⟨c, ds⟩
  · rw [hvd] at hp
    simp at hp
  · rw [hvd] at hp
    simp only [Bool.and_eq_true, beq_iff_eq] at hp
    obtain ⟨hch, hdl, hda⟩ := hp
    subst hch
    have hveq : v = String.mk ('#' :: ds) := by
      cases v with
      | mk d =>
        have hd : d = '#' :: ds := hvd
        rw [hd]
    rw [hveq]
    exact HEX.mk_of_hexAny hdl hda

/-- C2: for every validly constructed color value of any variant, every
conversion method of the source (`to_rgb`, `to_hex`, `to_hsv`, `to_hsl`,
`to_cmyk`, `to_assa`, and `hex_value` for `webcolor`) succeeds — it returns
`some` result rather than raising `ColorValueError` — and the computed
result satisfies the target variant's range invariant, so only
construction from raw input can fail. -/
theorem c2_conversions_total :
    (∀ x : RGBv, x.Valid →
      (∃ y, x.to_hsv = some y ∧ y.Valid) ∧
      (∃ y, x.to_hsl = some y ∧ y.Valid) ∧
      (∃ y, x.to_cmyk = some y ∧ y.Valid) ∧
      (∃ y, x.to_hex = some y ∧ y.Valid) ∧
      (∃ y, x.to_assa = some y ∧ y.Valid)) ∧
    (∀ x : RGBAv, x.Valid →
      (∃ y, x.to_rgb = some y ∧ y.Valid) ∧
      (∃ y, x.to_hsv = some y ∧ y.Valid) ∧
      (∃ y, x.to_hsl = some y ∧ y.Valid) ∧
      (∃ y, x.to_cmyk = some y ∧ y.Valid) ∧
      (∃ y, x.to_hex = some y ∧ y.Valid) ∧
      (∃ y, x.to_assa = some y ∧ y.Valid)) ∧
    (∀ x : HEXv, x.Valid →
      (∃ y, x.to_rgb = some y ∧ y.Valid) ∧
      (∃ y, x.to_hsv = some y ∧ y.Valid) ∧
      (∃ y, x.to_hsl = some y ∧ y.Valid) ∧
      (∃ y, x.to_cmyk = some y ∧ y.Valid) ∧
      (∃ y, x.to_assa = some y ∧ y.Valid)) ∧
    (∀ x : HSVv, x.Valid →
      (∃ y, x.to_rgb = some y ∧ y.Valid) ∧
      (∃ y, x.to_hsl = some y ∧ y.Valid) ∧
      (∃ y, x.to_cmyk = some y ∧ y.Valid) ∧
      (∃ y, x.to_hex = some y ∧ y.Valid) ∧
      (∃ y, x.to_assa = some y ∧ y.Valid)) ∧
    (∀ x : HSLv, x.Valid →
      (∃ y, x.to_rgb = some y ∧ y.Valid) ∧
      (∃ y, x.to_hsv = some y ∧ y.Valid) ∧
      (∃ y, x.to_cmyk = some y ∧ y.Valid) ∧
      (∃ y, x.to_hex = some y ∧ y.Valid) ∧
      (∃ y, x.to_assa = some y ∧ y.Valid)) ∧
    (∀ x : CMYKv, x.Valid →
      (∃ y, x.to_rgb = some y ∧ y.Valid) ∧
      (∃ y, x.to_hsv = some y ∧ y.Valid) ∧
      (∃ y, x.to_hsl = some y ∧ y.Valid) ∧
      (∃ y, x.to_hex = some y ∧ y.Valid) ∧
      (∃ y, x.to_assa = some y ∧ y.Valid)) ∧
    (∀ x : ASSAv, x.Valid →
      (∃ y, x.to_rgb = some y ∧ y.Valid) ∧
      (∃ y, x.to_hsv = some y ∧ y.Valid) ∧
      (∃ y, x.to_hsl = some y ∧ y.Valid) ∧
      (∃ y, x.to_cmyk = some y ∧ y.Valid) ∧
      (∃ y, x.to_hex = some y ∧ y.Valid)) ∧
    (∀ w : WEBv, w.Valid →
      (∃ y, w.to_rgb = some y ∧ y.Valid) ∧
      (∃ y, w.to_hex = some y ∧ y.Valid) ∧
      (∃ y, w.to_hsv = some y ∧ y.Valid) ∧
      (∃ y, w.to_hsl = some y ∧ y.Valid) ∧
      (∃ y, w.to_cmyk = some y ∧ y.Valid) ∧
      (∃ y, w.to_assa = some y ∧ y.Valid)) := by
  refine ⟨?_, ?_, ?_, ?_, ?_, ?_, ?_, ?_⟩
  · intro x hv
    exact ⟨rgb_to_hsv_some hv, rgb_to_hsl_some hv, rgb_to_cmyk_some hv,
      rgb_to_hex_some hv, rgb_to_assa_some hv⟩
  · intro x hv
    refine ⟨rgba_to_rgb_some hv, ?_, ?_, ?_, ?_, rgba_to_assa_some hv⟩
    · unfold RGBAv.to_hsv
      exact bind_exists (rgba_to_rgb_some hv) (fun y hy => rgb_to_hsv_some hy)
    · unfold RGBAv.to_hsl
      exact bind_exists (rgba_to_rgb_some hv) (fun y hy => rgb_to_hsl_some hy)
    · unfold RGBAv.to_cmyk
      exact bind_exists (rgba_to_rgb_some hv) (fun y hy => rgb_to_cmyk_some hy)
    · unfold RGBAv.to_hex
      exact bind_exists (rgba_to_rgb_some hv) (fun y hy => rgb_to_hex_some hy)
  · intro x hv
    refine ⟨hex_to_rgb_some hv, ?_, ?_, ?_, ?_⟩
    · unfold HEXv.to_hsv
      exact bind_exists (hex_to_rgb_some hv) (fun y hy => rgb_to_hsv_some hy)
    · unfold HEXv.to_hsl
      exact bind_exists (hex_to_rgb_some hv) (fun y hy => rgb_to_hsl_some hy)
    · unfold HEXv.to_cmyk
      exact bind_exists (hex_to_rgb_some hv) (fun y hy => rgb_to_cmyk_some hy)
    · unfold HEXv.to_assa
      exact bind_exists (hex_to_rgb_some hv) (fun y hy => rgb_to_assa_some hy)
  · intro x hv
    refine ⟨hsv_to_rgb_some hv, ?_, ?_, ?_, ?_⟩
    · unfold HSVv.to_hsl
      exact bind_exists (hsv_to_rgb_some hv) (fun y hy => rgb_to_hsl_some hy)
    · unfold HSVv.to_cmyk
      exact bind_exists (hsv_to_rgb_some hv) (fun y hy => rgb_to_cmyk_some hy)
    · unfold HSVv.to_hex
      exact bind_exists (hsv_to_rgb_some hv) (fun y hy => rgb_to_hex_some hy)
    · unfold HSVv.to_assa
      exact bind_exists (hsv_to_rgb_some hv) (fun y hy => rgb_to_assa_some hy)
  · intro x hv
    refine ⟨hsl_to_rgb_some hv, ?_, ?_, ?_, ?_⟩
    · unfold HSLv.to_hsv
      exact bind_exists (hsl_to_rgb_some hv) (fun y hy => rgb_to_hsv_some hy)
    · unfold HSLv.to_cmyk
      exact bind_exists (hsl_to_rgb_some hv) (fun y hy => rgb_to_cmyk_some hy)
    · unfold HSLv.to_hex
      exact bind_exists (hsl_to_rgb_some hv) (fun y hy => rgb_to_hex_some hy)
    · unfold HSLv.to_assa
      exact bind_exists (hsl_to_rgb_some hv) (fun y hy => rgb_to_assa_some hy)
  · intro x hv
    refine ⟨cmyk_to_rgb_some hv, ?_, ?_, ?_, ?_⟩
    · unfold CMYKv.to_hsv
      exact bind_exists (cmyk_to_rgb_some hv) (fun y hy => rgb_to_hsv_some hy)
    · unfold CMYKv.to_hsl
      exact bind_exists (cmyk_to_rgb_some hv) (fun y hy => rgb_to_hsl_some hy)
    · unfold CMYKv.to_hex
      exact bind_exists (cmyk_to_rgb_some hv) (fun y hy => rgb_to_hex_some hy)
    · unfold CMYKv.to_assa
      exact bind_exists (cmyk_to_rgb_some hv) (fun y hy => rgb_to_assa_some hy)
  · intro x hv
    refine ⟨assa_to_rgb_some hv, ?_, ?_, ?_, ?_⟩
    · unfold ASSAv.to_hsv
      exact bind_exists (assa_to_rgb_some hv) (fun y hy => rgb_to_hsv_some hy)
    · unfold ASSAv.to_hsl
      exact bind_exists (assa_to_rgb_some hv) (fun y hy => rgb_to_hsl_some hy)
    · unfold ASSAv.to_cmyk
      exact bind_exists (assa_to_rgb_some hv) (fun y hy => rgb_to_cmyk_some hy)
    · unfold ASSAv.to_hex
      exact bind_exists (assa_to_rgb_some hv) (fun y hy => rgb_to_hex_some hy)
  · intro w hv
    refine ⟨?_, web_hexValue_some hv, ?_, ?_, ?_, ?_⟩
    · unfold WEBv.to_rgb
      exact bind_exists (web_hexValue_some hv) (fun hx hhx => hex_to_rgb_some hhx)
    · unfold WEBv.to_hsv
      refine bind_exists (web_hexValue_some hv) (fun hx hhx => ?_)
      unfold HEXv.to_hsv
      exact bind_exists (hex_to_rgb_some hhx) (fun y hy => rgb_to_hsv_some hy)
    · unfold WEBv.to_hsl
      refine bind_exists (web_hexValue_some hv) (fun hx hhx => ?_)
      unfold HEXv.to_hsl
      exact bind_exists (hex_to_rgb_some hhx) (fun y hy => rgb_to_hsl_some hy)
    · unfold WEBv.to_cmyk
      refine bind_exists (web_hexValue_some hv) (fun hx hhx => ?_)
      unfold HEXv.to_cmyk
      exact bind_exists (hex_to_rgb_some hhx) (fun y hy => rgb_to_cmyk_some hy)
    · unfold WEBv.to_assa
      refine bind_exists (web_hexValue_some hv) (fun hx hhx => ?_)
      unfold HEXv.to_assa
      exact bind_exists (hex_to_rgb_some hhx) (fun y hy => rgb_to_assa_some hy)

/-- C2 witness: one concrete valid value per variant, with the first listed
conversion evaluated at it. -/
theorem c2_conversions_total_witness :
    RGBv.Valid ⟨12, 200, 99⟩ ∧
    RGBAv.Valid ⟨12, 200, 99, 1⟩ ∧
    HEXv.Valid ⟨"#0cc863"⟩ ∧
    HSVv.Valid ⟨210, 50, 75⟩ ∧
    HSLv.Valid ⟨210, 50, 75⟩ ∧
    CMYKv.Valid ⟨10, 20, 30, 40⟩ ∧
    ASSAv.Valid ⟨"&H63c80c&"⟩ ∧
    WEBv.Valid ⟨"red"⟩ ∧
    (∃ y, RGBv.to_hsv ⟨12, 200, 99⟩ = some y ∧ y.Valid) ∧
    (∃ y, RGBAv.to_rgb ⟨12, 200, 99, 1⟩ = some y ∧ y.Valid) ∧
    (∃ y, HEXv.to_rgb ⟨"#0cc863"⟩ = some y ∧ y.Valid) ∧
    (∃ y, HSVv.to_rgb ⟨210, 50, 75⟩ = some y ∧ y.Valid) ∧
    (∃ y, HSLv.to_rgb ⟨210, 50, 75⟩ = some y ∧ y.Valid) ∧
    (∃ y, CMYKv.to_rgb ⟨10, 20, 30, 40⟩ = some y ∧ y.Valid) ∧
    (∃ y, ASSAv.to_rgb ⟨"&H63c80c&"⟩ = some y ∧ y.Valid) ∧
    (∃ y, WEBv.to_rgb ⟨"red"⟩ = some y ∧ y.Valid) := by
  have hrgb : RGBv.Valid ⟨12, 200, 99⟩ := by decide
  have hrgba : RGBAv.Valid ⟨12, 200, 99, 1⟩ := by decide
  have hhex : HEXv.Valid ⟨"#0cc863"⟩ :=
    ⟨0, ['0', 'c', 'c', '8', '6', '3'], by decide, by decide, by decide⟩
  have hhsv : HSVv.Valid ⟨210, 50, 75⟩ := by decide
  have hhsl : HSLv.Valid ⟨210, 50, 75⟩ := by decide
  have hcmyk : CMYKv.Valid ⟨10, 20, 30, 40⟩ := by decide
  have hassa : ASSAv.Valid ⟨"&H63c80c&"⟩ :=
    ⟨['6', '3', 'c', '8', '0', 'c'], by decide, by decide, Or.inl (by decide)⟩
  have hweb : WEBv.Valid ⟨"red"⟩ := by
    unfold WEBv.Valid
    decide
  exact ⟨hrgb, hrgba, hhex, hhsv, hhsl, hcmyk, hassa, hweb,
    (c2_conversions_total.1 _ hrgb).1,
    (c2_conversions_total.2.1 _ hrgba).1,
    (c2_conversions_total.2.2.1 _ hhex).1,
    (c2_conversions_total.2.2.2.1 _ hhsv).1,
    (c2_conversions_total.2.2.2.2.1 _ hhsl).1,
    (c2_conversions_total.2.2.2.2.2.1 _ hcmyk).1,
    (c2_conversions_total.2.2.2.2.2.2.1 _ hassa).1,
    (c2_conversions_total.2.2.2.2.2.2.2 _ hweb).1⟩

theorem qmod_shift2 {a b : ℚ} (h0 : 2 * b ≤ a) (h1 : a < 3 * b) (hb : 0 < b) :
    qmod a b = a - 2 * b := by
  unfold qmod
  have : ⌊a / b⌋ = 2 := by
    have hlo : (2 : ℚ) ≤ a / b := by
      rw [le_div_iff₀ hb]
      linarith
    have hhi : a / b < 3 := by
      rw [div_lt_iff₀ hb]
      linarith
    rw [Int.floor_eq_iff]
    constructor <;> push_cast <;> linarith
  rw [this]
  push_cast
  ring

theorem mkZ_round_eq {A B C : ℚ} {x : RGBv} (hv : x.Valid)
    (hA : A = ((x.red : ℤ) : ℚ)) (hB : B = ((x.green : ℤ) : ℚ))
    (hC : C = ((x.blue : ℤ) : ℚ)) :
    RGB.mkZ (pyRound A) (pyRound B) (pyRound C) = some x := by
  rw [hA, hB, hC, pyRound_intCast, pyRound_intCast, pyRound_intCast]
  have := RGB.mkZ_of_valid (show (RGBv.mk x.red x.green x.blue).Valid from hv)
  exact this

set_option maxHeartbeats 1000000 in
theorem hsv_roundtrip_exact {x : RGBv} (hv : x.Valid) :
    ∃ y, x.to_hsv = some y ∧ y.to_rgb = some x := by
  have hv' := hv
  obtain ⟨y0, hy0, hy0v⟩ := rgb_to_hsv_some hv
  obtain ⟨h1, h2, h3, h4, h5, h6⟩ := hv
  set r : ℚ := (x.red : ℚ) / 255 with hrdef
  set g : ℚ := (x.green : ℚ) / 255 with hgdef
  set b : ℚ := (x.blue : ℚ) / 255 with hbdef
  set cmax : ℚ := max r (max g b) with hcmaxdef
  set cmin : ℚ := min r (min g b) with hcmindef
  set diff : ℚ := cmax - cmin with hdiffdef
  set hH : ℚ :=
    (if cmax = cmin then 0
     else if cmax = r then qmod (60 * ((g - b) / diff) + 360) 360
     else if cmax = g then qmod (60 * ((b - r) / diff) + 120) 360
     else qmod (60 * ((r - g) / diff) + 240) 360) with hHdef
  set sS : ℚ := (if cmax = 0 then 0 else diff / cmax) with hSdef
  have hy2 : HSV.mk hH (sS * 100) (cmax * 100) = some y0 := hy0
  obtain ⟨rfl, -⟩ := hsv_mk_inv hy2
  refine ⟨⟨hH, sS * 100, cmax * 100⟩, hy0, ?_⟩
  clear_value sS hH diff cmin cmax b g r
  clear hy2 hy0v hy0
  have hr255 : ((x.red : ℤ) : ℚ) = r * 255 := by
    rw [hrdef]
    push_cast
    field_simp
  have hg255 : ((x.green : ℤ) : ℚ) = g * 255 := by
    rw [hgdef]
    push_cast
    field_simp
  have hb255 : ((x.blue : ℤ) : ℚ) = b * 255 := by
    rw [hbdef]
    push_cast
    field_simp
  have hr0 : 0 ≤ r := by rw [hrdef]; positivity
  have hg0 : 0 ≤ g := by rw [hgdef]; positivity
  have hb0 : 0 ≤ b := by rw [hbdef]; positivity
  have hrle : r ≤ cmax := by rw [hcmaxdef]; exact le_max_left _ _
  have hgle : g ≤ cmax := by
    rw [hcmaxdef]
    exact le_trans (le_max_left g b) (le_max_right r (max g b))
  have hble : b ≤ cmax := by
    rw [hcmaxdef]
    exact le_trans (le_max_right g b) (le_max_right r (max g b))
  have hminr : cmin ≤ r := by rw [hcmindef]; exact min_le_left _ _
  have hming : cmin ≤ g := by
    rw [hcmindef]
    exact le_trans (min_le_right r (min g b)) (min_le_left g b)
  have hminb : cmin ≤ b := by
    rw [hcmindef]
    exact le_trans (min_le_right r (min g b)) (min_le_right g b)
  have hmin0 : 0 ≤ cmin := by
    rw [hcmindef]
    exact le_min hr0 (le_min hg0 hb0)
  have hmaxcases : cmax = r ∨ cmax = g ∨ cmax = b := by
    rw [hcmaxdef]
    rcases max_choice r (max g b) with h | h
    · exact Or.inl h
    · rcases max_choice g b with h7 | h7
      · exact Or.inr (Or.inl (h.trans h7))
      · exact Or.inr (Or.inr (h.trans h7))
  unfold HSVv.to_rgb
  dsimp only
  by_cases hdz : cmax = cmin
  · -- grey case: all channels equal, hue and saturation are zero
    have hrc : r = cmax := le_antisymm hrle (by rw [hdz]; exact hminr)
    have hgc : g = cmax := le_antisymm hgle (by rw [hdz]; exact hming)
    have hbc : b = cmax := le_antisymm hble (by rw [hdz]; exact hminb)
    have hHe : hH = 0 := by rw [hHdef, if_pos hdz]
    have hdiff0 : diff = 0 := by rw [hdiffdef, hdz, sub_self]
    have hsSe : sS = 0 := by
      rw [hSdef]
      split
      · rfl
      · rw [hdiff0, zero_div]
    rw [hHe, hsSe]
    rw [if_pos (show (0 : ℚ) ≤ 0 ∧ (0 : ℚ) < 60 by norm_num)]
    dsimp only
    refine mkZ_round_eq hv' ?_ ?_ ?_
    · rw [hr255, ← hrc]
      ring
    · rw [hg255, ← hgc]
      ring
    · rw [hb255, ← hbc]
      ring
  · -- chromatic case
    have hcminlt : cmin < cmax :=
      lt_of_le_of_ne (le_trans hminr hrle) (fun h => hdz h.symm)
    have hdpos : 0 < diff := by rw [hdiffdef]; linarith
    have hdne : diff ≠ 0 := ne_of_gt hdpos
    have hcmaxpos : 0 < cmax := lt_of_le_of_lt hmin0 hcminlt
    have hcmax0 : cmax ≠ 0 := ne_of_gt hcmaxpos
    have hsSval : sS = diff / cmax := by rw [hSdef, if_neg hcmax0]
    by_cases hA : cmax = r
    · -- cmax = red branch of the hue formula
      have hrne : r ≠ 0 := hA ▸ hcmax0
      have hu_le : (g - b) / diff ≤ 1 := by
        rw [div_le_one hdpos]
        linarith [hgle, hminb]
      have hu_ge : -1 ≤ (g - b) / diff := by
        rw [le_div_iff₀ hdpos]
        linarith [hble, hming]
      by_cases hu0 : 0 ≤ (g - b) / diff
      · -- g ≥ b: hue in [0, 60]
        have hgb : b ≤ g := by
          have h7 := mul_nonneg hu0 (le_of_lt hdpos)
          rw [div_mul_cancel₀ _ hdne] at h7
          linarith
        have hcminEq : cmin = b := by
          rw [hcmindef, min_eq_right hgb, min_eq_right (hA ▸ hble)]
        have hden : r - b ≠ 0 := by
          have h7 := hdne
          rw [hdiffdef, hA, hcminEq] at h7
          exact h7
        have hHval : hH = 60 * ((g - b) / diff) := by
          rw [hHdef, if_neg hdz, if_pos hA, qmod_shift (by linarith) (by linarith)
            (by norm_num)]
          ring
        have hH0 : 0 ≤ hH := by rw [hHval]; linarith
        have hH60 : hH ≤ 60 := by rw [hHval]; linarith
        split
        · -- sector 0 ≤ h < 60: triple (c, xx, 0)
          rename_i hc1
          have hult : (g - b) / diff < 1 := by linarith [hc1.2]
          have ht : qmod (60 * ((g - b) / diff) / 60) 2 = 60 * ((g - b) / diff) / 60 :=
            qmod_eq_self (by linarith) (by linarith)
          refine mkZ_round_eq hv' ?_ ?_ ?_
          · rw [hr255, hsSval, hdiffdef, hA, hcminEq]
            field_simp [hrne, hden]
          · rw [hg255, hHval, hsSval, ht,
              abs_of_nonpos (show 60 * ((g - b) / diff) / 60 - 1 ≤ 0 by linarith),
              hdiffdef, hA, hcminEq]
            field_simp [hrne, hden]
            try ring
          · rw [hb255, hsSval, hdiffdef, hA, hcminEq]
            field_simp [hrne, hden]
            try ring
        · rename_i hn1
          split
          · -- sector 60 ≤ h < 120: only h = 60, so g - b = diff; triple (xx, c, 0)
            rename_i hc2
            have hu1 : (g - b) / diff = 1 := by linarith [hc2.1, hu_le]
            have hgr : g = r := by
              have h7 := hu1
              rw [div_eq_iff hdne, one_mul, hdiffdef, hcminEq, hA] at h7
              linarith
            refine mkZ_round_eq hv' ?_ ?_ ?_
            · rw [hr255, hHval, hsSval, hu1,
                show (60 : ℚ) * 1 / 60 = 1 by norm_num,
                show qmod (1 : ℚ) 2 = 1 from qmod_eq_self (by norm_num) (by norm_num),
                show |(1 : ℚ) - 1| = 0 by norm_num,
                hdiffdef, hA, hcminEq]
              field_simp [hrne, hden]
            · rw [hg255, hgr, hsSval, hdiffdef, hA, hcminEq]
              field_simp [hrne, hden]
            · rw [hb255, hsSval, hdiffdef, hA, hcminEq]
              field_simp [hrne, hden]
              try ring
          · rename_i hn2
            split
            · rename_i hc3
              exfalso
              linarith [hc3.1]
            · rename_i hn3
              split
              · rename_i hc4
                exfalso
                linarith [hc4.1]
              · rename_i hn4
                split
                · rename_i hc5
                  exfalso
                  linarith [hc5.1]
                · rename_i hn5
                  exfalso
                  push_neg at hn1 hn2
                  linarith [hn2 (hn1 hH0)]
      · -- g < b: hue in [300, 360); triple (c, 0, xx)
        push_neg at hu0
        have hgb : g < b := by
          have h7 := mul_neg_of_neg_of_pos hu0 hdpos
          rw [div_mul_cancel₀ _ hdne] at h7
          linarith
        have hcminEq : cmin = g := by
          rw [hcmindef, min_eq_left (le_of_lt hgb), min_eq_right (hA ▸ hgle)]
        have hden : r - g ≠ 0 := by
          have h7 := hdne
          rw [hdiffdef, hA, hcminEq] at h7
          exact h7
        have hHval : hH = 60 * ((g - b) / diff) + 360 := by
          rw [hHdef, if_neg hdz, if_pos hA, qmod_eq_self (by linarith) (by linarith)]
        have hH300 : 300 ≤ hH := by rw [hHval]; linarith
        have hH360 : hH < 360 := by rw [hHval]; linarith
        split
        · rename_i hc1
          exfalso
          linarith [hc1.2]
        · rename_i hn1
          split
          · rename_i hc2
            exfalso
            linarith [hc2.2]
          · rename_i hn2
            split
            · rename_i hc3
              exfalso
              linarith [hc3.2]
            · rename_i hn3
              split
              · rename_i hc4
                exfalso
                linarith [hc4.2]
              · rename_i hn4
                split
                · rename_i hc5
                  exfalso
                  linarith [hc5.2]
                · rename_i hn5
                  have ht : qmod ((60 * ((g - b) / diff) + 360) / 60) 2 =
                      (60 * ((g - b) / diff) + 360) / 60 - 2 * 2 :=
                    qmod_shift2 (by linarith) (by linarith) (by norm_num)
                  refine mkZ_round_eq hv' ?_ ?_ ?_
                  · rw [hr255, hsSval, hdiffdef, hA, hcminEq]
                    field_simp [hrne, hden]
                  · rw [hg255, hsSval, hdiffdef, hA, hcminEq]
                    field_simp [hrne, hden]
                    try ring
                  · rw [hb255, hHval, hsSval, ht,
                      abs_of_nonneg (show (0 : ℚ) ≤
                        (60 * ((g - b) / diff) + 360) / 60 - 2 * 2 - 1 by linarith),
                      hdiffdef, hA, hcminEq]
                    field_simp [hrne, hden]
                    try ring
    · by_cases hB : cmax = g
      · -- cmax = green branch: hue = 60 * (b - r)/diff + 120 in [60, 180]
        have hgne : g ≠ 0 := hB ▸ hcmax0
        have hu_le : (b - r) / diff ≤ 1 := by
          rw [div_le_one hdpos]
          linarith [hble, hminr]
        have hu_ge : -1 ≤ (b - r) / diff := by
          rw [le_div_iff₀ hdpos]
          linarith [hrle, hminb]
        have hHval : hH = 60 * ((b - r) / diff) + 120 := by
          rw [hHdef, if_neg hdz, if_neg hA, if_pos hB,
            qmod_eq_self (by linarith) (by linarith)]
        have hH60 : 60 ≤ hH := by rw [hHval]; linarith
        have hH180 : hH ≤ 180 := by rw [hHval]; linarith
        split
        · rename_i hc1
          exfalso
          linarith [hc1.2]
        · rename_i hn1
          split
          · -- sector 60 ≤ h < 120: b < r; triple (xx, c, 0)
            rename_i hc2
            have hu0 : (b - r) / diff < 0 := by linarith [hc2.2]
            have hbr : b < r := by
              have h7 := mul_neg_of_neg_of_pos hu0 hdpos
              rw [div_mul_cancel₀ _ hdne] at h7
              linarith
            have hble2 : b ≤ g := by rw [← hB]; exact hble
            have hcminEq : cmin = b := by
              rw [hcmindef, min_eq_right hble2, min_eq_right (le_of_lt hbr)]
            have hden : g - b ≠ 0 := by
              have h7 := hdne
              rw [hdiffdef, hcminEq, hB] at h7
              exact h7
            have ht : qmod ((60 * ((b - r) / diff) + 120) / 60) 2 =
                (60 * ((b - r) / diff) + 120) / 60 :=
              qmod_eq_self (by linarith) (by linarith)
            refine mkZ_round_eq hv' ?_ ?_ ?_
            · rw [hr255, hHval, hsSval, ht,
                abs_of_nonneg (show (0 : ℚ) ≤
                  (60 * ((b - r) / diff) + 120) / 60 - 1 by linarith),
                hdiffdef, hcminEq, hB]
              field_simp [hgne, hden]
              try ring
            · rw [hg255, hsSval, hdiffdef, hcminEq, hB]
              field_simp [hgne, hden]
            · rw [hb255, hsSval, hdiffdef, hcminEq, hB]
              field_simp [hgne, hden]
              try ring
          · rename_i hn2
            split
            · -- sector 120 ≤ h < 180: r ≤ b; triple (0, c, xx)
              rename_i hc3
              have hu0 : 0 ≤ (b - r) / diff := by linarith [hc3.1]
              have hult : (b - r) / diff < 1 := by linarith [hc3.2]
              have hrb : r ≤ b := by
                have h7 := mul_nonneg hu0 (le_of_lt hdpos)
                rw [div_mul_cancel₀ _ hdne] at h7
                linarith
              have hble2 : b ≤ g := by rw [← hB]; exact hble
              have hcminEq : cmin = r := by
                rw [hcmindef, min_eq_right hble2, min_eq_left hrb]
              have hden : g - r ≠ 0 := by
                have h7 := hdne
                rw [hdiffdef, hcminEq, hB] at h7
                exact h7
              have ht : qmod ((60 * ((b - r) / diff) + 120) / 60) 2 =
                  (60 * ((b - r) / diff) + 120) / 60 - 2 :=
                qmod_shift (by linarith) (by linarith) (by norm_num)
              refine mkZ_round_eq hv' ?_ ?_ ?_
              · rw [hr255, hsSval, hdiffdef, hcminEq, hB]
                field_simp [hgne, hden]
                try ring
              · rw [hg255, hsSval, hdiffdef, hcminEq, hB]
                field_simp [hgne, hden]
              · rw [hb255, hHval, hsSval, ht,
                  abs_of_nonpos (show (60 * ((b - r) / diff) + 120) / 60 - 2 - 1 ≤ 0
                    by linarith),
                  hdiffdef, hcminEq, hB]
                field_simp [hgne, hden]
                try ring
            · rename_i hn3
              split
              · -- sector 180 ≤ h < 240: only h = 180, so b = g; triple (0, xx, c)
                rename_i hc4
                have hu1 : (b - r) / diff = 1 := by linarith [hc4.1, hu_le]
                have hrb : r ≤ b := by
                  have h7 := hu1
                  rw [div_eq_iff hdne, one_mul] at h7
                  linarith
                have hble2 : b ≤ g := by rw [← hB]; exact hble
                have hcminEq : cmin = r := by
                  rw [hcmindef, min_eq_right hble2, min_eq_left hrb]
                have hden : g - r ≠ 0 := by
                  have h7 := hdne
                  rw [hdiffdef, hcminEq, hB] at h7
                  exact h7
                have hbg : b = g := by
                  have h7 := hu1
                  rw [div_eq_iff hdne, one_mul, hdiffdef, hcminEq, hB] at h7
                  linarith
                refine mkZ_round_eq hv' ?_ ?_ ?_
                · rw [hr255, hsSval, hdiffdef, hcminEq, hB]
                  field_simp [hgne, hden]
                  try ring
                · rw [hg255, hHval, hsSval, hu1,
                    show ((60 : ℚ) * 1 + 120) / 60 = 3 by norm_num,
                    show qmod (3 : ℚ) 2 = 3 - 2 from qmod_shift (by norm_num)
                      (by norm_num) (by norm_num),
                    show |(3 : ℚ) - 2 - 1| = 0 by norm_num,
                    hdiffdef, hcminEq, hB]
                  field_simp [hgne, hden]
                  try ring
                · rw [hb255, hbg, hsSval, hdiffdef, hcminEq, hB]
                  field_simp [hgne, hden]
              · rename_i hn4
                split
                · rename_i hc5
                  exfalso
                  linarith [hc5.1]
                · rename_i hn5
                  exfalso
                  push_neg at hn2 hn3 hn4
                  linarith [hn4 (hn3 (hn2 hH60))]
      · -- cmax = blue branch: hue = 60 * (r - g)/diff + 240 in [180, 300]
        have hC : cmax = b := by
          rcases hmaxcases with h7 | h7 | h7
          · exact absurd h7 hA
          · exact absurd h7 hB
          · exact h7
        have hbne : b ≠ 0 := hC ▸ hcmax0
        have hu_le : (r - g) / diff ≤ 1 := by
          rw [div_le_one hdpos]
          linarith [hrle, hming]
        have hu_ge : -1 ≤ (r - g) / diff := by
          rw [le_div_iff₀ hdpos]
          linarith [hgle, hminr]
        have hHval : hH = 60 * ((r - g) / diff) + 240 := by
          rw [hHdef, if_neg hdz, if_neg hA, if_neg hB,
            qmod_eq_self (by linarith) (by linarith)]
        have hH180 : 180 ≤ hH := by rw [hHval]; linarith
        have hH300 : hH ≤ 300 := by rw [hHval]; linarith
        split
        · rename_i hc1
          exfalso
          linarith [hc1.2]
        · rename_i hn1
          split
          · rename_i hc2
            exfalso
            linarith [hc2.2]
          · rename_i hn2
            split
            · rename_i hc3
              exfalso
              linarith [hc3.2]
            · rename_i hn3
              split
              · -- sector 180 ≤ h < 240: r < g; triple (0, xx, c)
                rename_i hc4
                have hu0 : (r - g) / diff < 0 := by linarith [hc4.2]
                have hrg : r < g := by
                  have h7 := mul_neg_of_neg_of_pos hu0 hdpos
                  rw [div_mul_cancel₀ _ hdne] at h7
                  linarith
                have hgle2 : g ≤ b := by rw [← hC]; exact hgle
                have hcminEq : cmin = r := by
                  rw [hcmindef, min_eq_left hgle2, min_eq_left (le_of_lt hrg)]
                have hden : b - r ≠ 0 := by
                  have h7 := hdne
                  rw [hdiffdef, hcminEq, hC] at h7
                  exact h7
                have ht : qmod ((60 * ((r - g) / diff) + 240) / 60) 2 =
                    (60 * ((r - g) / diff) + 240) / 60 - 2 :=
                  qmod_shift (by linarith) (by linarith) (by norm_num)
                refine mkZ_round_eq hv' ?_ ?_ ?_
                · rw [hr255, hsSval, hdiffdef, hcminEq, hC]
                  field_simp [hbne, hden]
                  try ring
                · rw [hg255, hHval, hsSval, ht,
                    abs_of_nonneg (show (0 : ℚ) ≤
                      (60 * ((r - g) / diff) + 240) / 60 - 2 - 1 by linarith),
                    hdiffdef, hcminEq, hC]
                  field_simp [hbne, hden]
                  try ring
                · rw [hb255, hsSval, hdiffdef, hcminEq, hC]
                  field_simp [hbne, hden]
              · rename_i hn4
                split
                · -- sector 240 ≤ h < 300: g ≤ r; triple (xx, 0, c)
                  rename_i hc5
                  have hu0 : 0 ≤ (r - g) / diff := by linarith [hc5.1]
                  have hult : (r - g) / diff < 1 := by linarith [hc5.2]
                  have hgr : g ≤ r := by
                    have h7 := mul_nonneg hu0 (le_of_lt hdpos)
                    rw [div_mul_cancel₀ _ hdne] at h7
                    linarith
                  have hgle2 : g ≤ b := by rw [← hC]; exact hgle
                  have hcminEq : cmin = g := by
                    rw [hcmindef, min_eq_left hgle2, min_eq_right hgr]
                  have hden : b - g ≠ 0 := by
                    have h7 := hdne
                    rw [hdiffdef, hcminEq, hC] at h7
                    exact h7
                  have ht : qmod ((60 * ((r - g) / diff) + 240) / 60) 2 =
                      (60 * ((r - g) / diff) + 240) / 60 - 2 * 2 :=
                    qmod_shift2 (by linarith) (by linarith) (by norm_num)
                  refine mkZ_round_eq hv' ?_ ?_ ?_
                  · rw [hr255, hHval, hsSval, ht,
                      abs_of_nonpos (show
                        (60 * ((r - g) / diff) + 240) / 60 - 2 * 2 - 1 ≤ 0 by linarith),
                      hdiffdef, hcminEq, hC]
                    field_simp [hbne, hden]
                    try ring
                  · rw [hg255, hsSval, hdiffdef, hcminEq, hC]
                    field_simp [hbne, hden]
                    try ring
                  · rw [hb255, hsSval, hdiffdef, hcminEq, hC]
                    field_simp [hbne, hden]
                · -- leftover sector would force cmax = r, contradiction
                  rename_i hn5
                  exfalso
                  push_neg at hn4 hn5
                  have h300 : 300 ≤ hH := hn5 (hn4 hH180)
                  have hu1 : 1 ≤ (r - g) / diff := by linarith
                  have hge : diff ≤ r - g := by
                    have h7 := mul_le_mul_of_nonneg_right hu1 (le_of_lt hdpos)
                    rw [div_mul_cancel₀ _ hdne, one_mul] at h7
                    exact h7
                  have : cmax ≤ r := by linarith [hming]
                  exact hA ((le_antisymm hrle this).symm)

/-- C3: for every valid RGB `x`, the round trip `x.to_hsv().to_rgb()` yields
a color whose red, green and blue channels each differ from the
corresponding channel of `x` by at most 1 (in this exact-rational model the
round trip is in fact exact). -/
theorem c3_hsv_roundtrip_bounded :
    ∀ x : RGBv, x.Valid →
      ∃ y z, x.to_hsv = some y ∧ y.to_rgb = some z ∧
        |z.red - x.red| ≤ 1 ∧ |z.green - x.green| ≤ 1 ∧ |z.blue - x.blue| ≤ 1 := by
  intro x hv
  obtain ⟨y, hy, hz⟩ := hsv_roundtrip_exact hv
  exact ⟨y, x, hy, hz, by simp, by simp, by simp⟩

/-- C3 witness at a concrete input. -/
theorem c3_hsv_roundtrip_bounded_witness :
    RGBv.Valid ⟨12, 200, 99⟩ ∧
    (∃ y z, RGBv.to_hsv ⟨12, 200, 99⟩ = some y ∧ y.to_rgb = some z ∧
      |z.red - (12 : ℤ)| ≤ 1 ∧ |z.green - (200 : ℤ)| ≤ 1 ∧ |z.blue - (99 : ℤ)| ≤ 1) :=
  ⟨by decide, c3_hsv_roundtrip_bounded ⟨12, 200, 99⟩ (by decide)⟩

theorem toLower_eq_hash {c : Char} (h : Char.toLower c = '#') : c = '#' := by
  have ht := toNat_toLower c
  have h2 := congrArg Char.toNat h
  rw [ht] at h2
  have h35 : ('#').toNat = 35 := by decide
  rw [h35] at h2
  rw [char_eq_iff_toNat, h35]
  split at h2 <;> omega

theorem isHexAny_ne_hash {c : Char} (h : isHexAny c = true) : c ≠ '#' := by
  intro hc
  subst hc
  exact absurd h (by decide)

theorem takeWhile_hash_eq_replicate (l : List Char) :
    l.takeWhile (fun c => c == '#') =
      List.replicate (l.takeWhile (fun c => c == '#')).length '#' := by
  induction l with
  | nil => rfl
  | cons c t ih =>
    by_cases hc : c = '#'
    · subst hc
      rw [List.takeWhile_cons_of_pos (by decide)]
      rw [List.length_cons, List.replicate_succ]
      exact congrArg (List.cons '#') ih
    · rw [List.takeWhile_cons_of_neg (by simpa using hc)]
      rfl

theorem HEX.mk_valid {s : String} {hx : HEXv} (h : HEX.mk s = some hx) : hx.Valid := by
  unfold HEX.mk at h
  dsimp only at h
  set t : List Char := pyLower (stripOneHash s.data) with htdef
  split at h
  · rename_i hval
    injection h with h
    subst h
    unfold HEX.validateB at hval
    dsimp only at hval
    rw [List.dropWhile_cons_of_pos (by decide)] at hval
    rw [Bool.and_eq_true, beq_iff_eq] at hval
    obtain ⟨hlen, hall⟩ := hval
    set hv : List Char := t.dropWhile (fun c => c == '#') with hhv
    set tw : List Char := t.takeWhile (fun c => c == '#') with htw
    have hsplit : tw ++ hv = t := List.takeWhile_append_dropWhile _ _
    have htwrep : tw = List.replicate tw.length '#' := takeWhile_hash_eq_replicate t
    have hlow : ∀ c ∈ hv, isLowerHex c = true := by
      intro c hc
      have hmem : c ∈ t := (List.dropWhile_sublist _).subset hc
      rw [htdef] at hmem
      unfold pyLower at hmem
      obtain ⟨c0, hc0, rfl⟩ := List.mem_map.mp hmem
      have hhex : isHexAny (Char.toLower c0) = true := by
        rw [List.all_eq_true] at hall
        exact hall _ hc
      exact isLowerHex_toLower_of_isHexAny hhex
    refine ⟨tw.length, hv, ?_, hlen, ?_⟩
    · show ('#' :: t) = List.replicate (tw.length + 1) '#' ++ hv
      rw [List.replicate_succ, List.cons_append]
      congr 1
      rw [← htwrep]
      exact hsplit.symm
    · rw [List.all_eq_true]
      exact hlow
  · exact absurd h (by simp)

theorem HEX.mk_single_hash {s : String} {hx : HEXv} (h : HEX.mk s = some hx)
    (hnot : ∀ t, s.data ≠ '#' :: '#' :: t) :
    ∃ ds, hx.value.data = '#' :: ds ∧ ds.length = 6 ∧ ds.all isLowerHex = true := by
  obtain ⟨k, ds, hdata, hlen, hall⟩ := HEX.mk_valid h
  cases k with
  | zero =>
    refine ⟨ds, ?_, hlen, hall⟩
    rw [hdata]
    rfl
  | succ m =>
    exfalso
    have hstored : hx.value.data = '#' :: pyLower (stripOneHash s.data) := by
      unfold HEX.mk at h
      dsimp only at h
      split at h
      · injection h with h
        subst h
        rfl
      · exact absurd h (by simp)
    rw [hstored] at hdata
    rw [List.replicate_succ, List.cons_append] at hdata
    injection hdata with _ hdata2
    rw [List.replicate_succ, List.cons_append] at hdata2
    rcases hsd : stripOneHash s.data with _ | ⟨c0, t0⟩
    · rw [hsd] at hdata2
      exact absurd hdata2 (by simp [pyLower])
    · rw [hsd] at hdata2
      unfold pyLower at hdata2
      rw [List.map_cons] at hdata2
      injection hdata2 with hc0 hrest
      have hc0h : c0 = '#' := toLower_eq_hash hc0
      subst hc0h
      rcases hds : s.data with _ | ⟨c1, t1⟩
      · rw [hds] at hsd
        exact absurd hsd (by simp [stripOneHash])
      · rw [hds] at hsd
        rw [show stripOneHash (c1 :: t1) = if c1 = '#' then t1 else c1 :: t1 from rfl]
          at hsd
        by_cases hc1 : c1 = '#'
        · rw [if_pos hc1] at hsd
          subst hc1
          exact hnot t0 (by rw [hds, hsd])
        · rw [if_neg hc1] at hsd
          injection hsd with h7 h8
          exact hc1 h7

theorem HEX.mk_both_forms {ds : List Char} (hlen : ds.length = 6)
    (hall : ds.all isHexAny = true) :
    HEX.mk (String.mk ('#' :: ds)) = some ⟨String.mk ('#' :: pyLower ds)⟩ ∧
    HEX.mk (String.mk ds) = some ⟨String.mk ('#' :: pyLower ds)⟩ := by
  have hmap : ∀ c ∈ ds, isLowerHex (Char.toLower c) = true := by
    rw [List.all_eq_true] at hall
    intro c hc
    exact isLowerHex_toLower_of_isHexAny (isHexAny_toLower_iff.mpr (hall c hc))
  have hallLower : (pyLower ds).all isLowerHex = true := by
    unfold pyLower
    rw [List.all_eq_true]
    intro c hc
    obtain ⟨c0, hc0, rfl⟩ := List.mem_map.mp hc
    exact hmap c0 hc0
  have hlenLower : (pyLower ds).length = 6 := by
    unfold pyLower
    rw [List.length_map]
    exact hlen
  have hvb : HEX.validateB ('#' :: pyLower ds) = true := by
    unfold HEX.validateB
    dsimp only
    rw [List.dropWhile_cons_of_pos (by decide), dropWhile_hash_of_all_lowerHex hallLower]
    rw [Bool.and_eq_true, beq_iff_eq]
    refine ⟨hlenLower, ?_⟩
    rw [List.all_eq_true]
    intro c hc
    exact isHexAny_of_isLowerHex (List.all_eq_true.mp hallLower c hc)
  constructor
  · unfold HEX.mk
    dsimp only
    rw [show stripOneHash (String.mk ('#' :: ds)).data = ds from rfl, if_pos hvb]
  · unfold HEX.mk
    dsimp only
    have hsh : stripOneHash (String.mk ds).data = ds := by
      show stripOneHash ds = ds
      rcases ds with _ | ⟨c, t⟩
      · rfl
      · rw [show stripOneHash (c :: t) = if c = '#' then t else c :: t from rfl]
        rw [if_neg (isHexAny_ne_hash (by
          rw [List.all_eq_true] at hall
          exact hall c (List.mem_cons_self c t)))]
    rw [hsh, if_pos hvb]

theorem HEX.mk_wrong_length {ds : List Char} (hall : ds.all isLowerHex = true)
    (hlen : ds.length ≠ 6) : HEX.mk (String.mk ('#' :: ds)) = none := by
  unfold HEX.mk
  dsimp only
  rw [show stripOneHash (String.mk ('#' :: ds)).data = ds from rfl]
  rw [pyLower_of_all_lowerHex hall]
  have hvb : HEX.validateB ('#' :: ds) = false := by
    unfold HEX.validateB
    dsimp only
    rw [List.dropWhile_cons_of_pos (by decide), dropWhile_hash_of_all_lowerHex hall,
      show (ds.length == 6) = false from beq_eq_false_iff_ne.mpr hlen, Bool.false_and]
  rw [if_neg (by rw [hvb]; simp)]

/-- C8 counterexample: the input `"##ffffff"` is accepted by the HEX
constructor (its `lstrip("#")` strips every leading `#` during validation),
and the stored value `"##ffffff"` is not `#` followed by exactly six
hexadecimal digits. -/
theorem c8_counterexample :
    HEX.mk "##ffffff" = some ⟨"##ffffff"⟩ ∧
    ∀ ds : List Char, ds.length = 6 → '#' :: ds ≠ ("##ffffff" : String).data := by
  constructor
  · decide
  · intro ds h6 heq
    have hlen := congrArg List.length heq
    rw [List.length_cons, h6,
      show ("##ffffff" : String).data.length = 8 from by decide] at hlen
    norm_num at hlen

/-- C8 (amended): every stored HEX value is one or more `#` characters
followed by exactly six lowercase hexadecimal digits; when the input has at
most one leading `#` the stored value is exactly `#` plus six lowercase hex
digits; six hex digits are accepted with or without one leading `#` and are
lowercase-normalized; and a `#`-prefixed string whose digit part does not
have length six is rejected.  (Inputs with several leading `#`, such as
`"##ffffff"`, are accepted and stored with all their `#` characters, because
validation strips every leading `#`.) -/
theorem c8_hex_invariant_amended :
    (∀ (s : String) (hx : HEXv), HEX.mk s = some hx →
      ∃ k ds, hx.value.data = List.replicate (k + 1) '#' ++ ds ∧
        ds.length = 6 ∧ ds.all isLowerHex = true) ∧
    (∀ (s : String) (hx : HEXv), HEX.mk s = some hx →
      (∀ t, s.data ≠ '#' :: '#' :: t) →
      ∃ ds, hx.value.data = '#' :: ds ∧ ds.length = 6 ∧ ds.all isLowerHex = true) ∧
    (∀ ds : List Char, ds.length = 6 → ds.all isHexAny = true →
      HEX.mk (String.mk ('#' :: ds)) = some ⟨String.mk ('#' :: pyLower ds)⟩ ∧
      HEX.mk (String.mk ds) = some ⟨String.mk ('#' :: pyLower ds)⟩) ∧
    (∀ ds : List Char, ds.all isLowerHex = true → ds.length ≠ 6 →
      HEX.mk (String.mk ('#' :: ds)) = none) :=
  ⟨fun _ _ h => HEX.mk_valid h,
   fun _ _ h hnot => HEX.mk_single_hash h hnot,
   fun _ hlen hall => HEX.mk_both_forms hlen hall,
   fun _ hall hlen => HEX.mk_wrong_length hall hlen⟩

/-- C8 witness: the amended theorem applied at concrete inputs. -/
theorem c8_hex_invariant_amended_witness :
    HEX.mk "#AbCdEf" = some ⟨"#abcdef"⟩ ∧
    (∃ k ds, (HEXv.mk "#abcdef").value.data = List.replicate (k + 1) '#' ++ ds ∧
      ds.length = 6 ∧ ds.all isLowerHex = true) ∧
    (∃ ds, (HEXv.mk "#abcdef").value.data = '#' :: ds ∧ ds.length = 6 ∧
      ds.all isLowerHex = true) ∧
    HEX.mk (String.mk ('#' :: ['a', 'b', 'c', 'd', 'e', 'f'])) =
      some ⟨String.mk ('#' :: pyLower ['a', 'b', 'c', 'd', 'e', 'f'])⟩ ∧
    HEX.mk (String.mk ['a', 'b', 'c', 'd', 'e', 'f']) =
      some ⟨String.mk ('#' :: pyLower ['a', 'b', 'c', 'd', 'e', 'f'])⟩ ∧
    HEX.mk (String.mk ('#' :: ['a', 'b', 'c'])) = none := by
  have hmk : HEX.mk "#AbCdEf" = some ⟨"#abcdef"⟩ := by decide
  obtain ⟨hp1, hp2, hp3, hp4⟩ := c8_hex_invariant_amended
  have hnot : ∀ t, ("#AbCdEf" : String).data ≠ '#' :: '#' :: t := by
    intro t ht
    rw [show ("#AbCdEf" : String).data =
      '#' :: 'A' :: ['b', 'C', 'd', 'E', 'f'] from rfl] at ht
    injection ht with h7 h8
    injection h8 with h9 h10
    exact absurd h9 (by decide)
  exact ⟨hmk, hp1 _ _ hmk, hp2 _ _ hmk hnot, (hp3 _ (by decide) (by decide)).1,
    (hp3 _ (by decide) (by decide)).2, hp4 _ (by decide) (by decide)⟩

theorem lookup_append_ne {m : List (String × ℚ)} {e k : String} {v : ℚ} (h : k ≠ e) :
    (m ++ [(e, v)]).lookup k = m.lookup k := by
  induction m with
  | nil =>
    rw [List.nil_append, List.lookup, List.lookup,
      show (k == e) = false from beq_eq_false_iff_ne.mpr h]
    rfl
  | cons p t ih =>
    obtain ⟨pk, pv⟩ := p
    rw [List.cons_append, List.lookup, List.lookup]
    split
    · rfl
    · exact ih

theorem mkQ_ofInt (a b c : ℤ) : RGB.mkQ ((a : ℚ)) ((b : ℚ)) ((c : ℚ)) = RGB.mkZ a b c := by
  unfold RGB.mkQ
  rw [pyTrunc_intCast, pyTrunc_intCast, pyTrunc_intCast]

theorem parse_rgb_map_extra {m : List (String × ℚ)} {e : String} {v : ℚ}
    (h1 : e ≠ "red") (h2 : e ≠ "green") (h3 : e ≠ "blue")
    (h4 : e ≠ "r") (h5 : e ≠ "g") (h6 : e ≠ "b") :
    parse_rgb_map (m ++ [(e, v)]) = parse_rgb_map m := by
  unfold parse_rgb_map hasKeysQ getQ
  simp only [List.all_cons, List.all_nil]
  simp only [lookup_append_ne h1.symm, lookup_append_ne h2.symm, lookup_append_ne h3.symm,
    lookup_append_ne h4.symm, lookup_append_ne h5.symm, lookup_append_ne h6.symm]

theorem parse_hsv_map_extra {m : List (String × ℚ)} {e : String} {v : ℚ}
    (h1 : e ≠ "hue") (h2 : e ≠ "saturation") (h3 : e ≠ "value")
    (h4 : e ≠ "h") (h5 : e ≠ "s") (h6 : e ≠ "v") :
    parse_hsv_map (m ++ [(e, v)]) = parse_hsv_map m := by
  unfold parse_hsv_map hasKeysQ getQ
  simp only [List.all_cons, List.all_nil]
  simp only [lookup_append_ne h1.symm, lookup_append_ne h2.symm, lookup_append_ne h3.symm,
    lookup_append_ne h4.symm, lookup_append_ne h5.symm, lookup_append_ne h6.symm]

/-- C9 counterexample: a mapping holding the full long key set for RGB plus
an additional key `"extra"` is accepted by the RGB mapping parser rather
than being rejected for carrying additional properties. -/
theorem c9_counterexample :
    parse_rgb_map [("red", 1), ("green", 2), ("blue", 3), ("extra", 4)] =
      some ⟨1, 2, 3⟩ := by
  unfold parse_rgb_map
  rw [if_pos (by decide)]
  rw [show getQ [("red", (1 : ℚ)), ("green", 2), ("blue", 3), ("extra", 4)] "red" =
      ((1 : ℤ) : ℚ) from by decide,
    show getQ [("red", (1 : ℚ)), ("green", 2), ("blue", 3), ("extra", 4)] "green" =
      ((2 : ℤ) : ℚ) from by decide,
    show getQ [("red", (1 : ℚ)), ("green", 2), ("blue", 3), ("extra", 4)] "blue" =
      ((3 : ℤ) : ℚ) from by decide,
    mkQ_ofInt]
  decide

/-- C9 (amended): a variant's mapping parser accepts a mapping exactly when
it contains the full long-name key set or the full short-name key set,
never merging the two sets, and returns an error when neither full set is
present; the long set takes precedence when both are present.  Additional
keys beyond the required set are NOT rejected: any extra key is simply
ignored (the runtime check is a subset test; `additionalProperties: false`
exists only in the JSON schema, not in the parser).  Shown here for the RGB
and HSV mapping parsers. -/
theorem c9_mapping_keys_amended :
    (∀ m : List (String × ℚ), hasKeysQ m ["red", "green", "blue"] = false →
      hasKeysQ m ["r", "g", "b"] = false → parse_rgb_map m = none) ∧
    (∀ m : List (String × ℚ), hasKeysQ m ["hue", "saturation", "value"] = false →
      hasKeysQ m ["h", "s", "v"] = false → parse_hsv_map m = none) ∧
    parse_rgb_map [("red", 1), ("green", 2), ("b", 3)] = none ∧
    parse_rgb_map [("red", 1), ("green", 2), ("blue", 3), ("r", 9), ("g", 8), ("b", 7)] =
      some ⟨1, 2, 3⟩ ∧
    (∀ (m : List (String × ℚ)) (e : String) (v : ℚ), e ≠ "red" → e ≠ "green" →
      e ≠ "blue" → e ≠ "r" → e ≠ "g" → e ≠ "b" →
      parse_rgb_map (m ++ [(e, v)]) = parse_rgb_map m) ∧
    (∀ (m : List (String × ℚ)) (e : String) (v : ℚ), e ≠ "hue" → e ≠ "saturation" →
      e ≠ "value" → e ≠ "h" → e ≠ "s" → e ≠ "v" →
      parse_hsv_map (m ++ [(e, v)]) = parse_hsv_map m) := by
  refine ⟨?_, ?_, by decide, ?_, ?_, ?_⟩
  · intro m hl hs
    unfold parse_rgb_map
    rw [if_neg (by rw [hl]; simp), if_neg (by rw [hs]; simp)]
  · intro m hl hs
    unfold parse_hsv_map
    rw [if_neg (by rw [hl]; simp), if_neg (by rw [hs]; simp)]
  · unfold parse_rgb_map
    rw [if_pos (by decide)]
    rw [show getQ [("red", (1 : ℚ)), ("green", 2), ("blue", 3), ("r", 9), ("g", 8),
        ("b", 7)] "red" = ((1 : ℤ) : ℚ) from by decide,
      show getQ [("red", (1 : ℚ)), ("green", 2), ("blue", 3), ("r", 9), ("g", 8),
        ("b", 7)] "green" = ((2 : ℤ) : ℚ) from by decide,
      show getQ [("red", (1 : ℚ)), ("green", 2), ("blue", 3), ("r", 9), ("g", 8),
        ("b", 7)] "blue" = ((3 : ℤ) : ℚ) from by decide,
      mkQ_ofInt]
    decide
  · intro m e v h1 h2 h3 h4 h5 h6
    exact parse_rgb_map_extra h1 h2 h3 h4 h5 h6
  · intro m e v h1 h2 h3 h4 h5 h6
    exact parse_hsv_map_extra h1 h2 h3 h4 h5 h6

/-- C9 witness: the amended theorem applied at concrete mappings. -/
theorem c9_mapping_keys_amended_witness :
    parse_rgb_map [("x", 5)] = none ∧
    parse_hsv_map [("hue", 1)] = none ∧
    parse_rgb_map ([("red", 1), ("green", 2), ("blue", 3)] ++ [("extra", 4)]) =
      parse_rgb_map [("red", 1), ("green", 2), ("blue", 3)] ∧
    parse_hsv_map ([("h", 1), ("s", 2), ("v", 3)] ++ [("extra", 4)]) =
      parse_hsv_map [("h", 1), ("s", 2), ("v", 3)] := by
  obtain ⟨hp1, hp2, hp3, hp4, hp5, hp6⟩ := c9_mapping_keys_amended
  exact ⟨hp1 _ (by decide) (by decide), hp2 _ (by decide) (by decide),
    hp5 _ _ _ (by decide) (by decide) (by decide) (by decide) (by decide) (by decide),
    hp6 _ _ _ (by decide) (by decide) (by decide) (by decide) (by decide) (by decide)⟩

theorem expectLit_cons {c : Char} (cs s : List Char) :
    expectLit (c :: cs) (c :: s) = expectLit cs s := by
  unfold expectLit
  rw [if_pos rfl]
  cases cs <;> cases s <;> rfl

theorem expectLit_nil (s : List Char) : expectLit [] s = some s :=
  rfl

theorem skipWs_cons_no (c : Char) (s : List Char) (h : isSpaceCh c = false) :
    skipWs (c :: s) = c :: s :=
  skipWs_no_ws _ h

theorem headNotSat_space_natDec (n : ℕ) (rest : List Char) :
    headNotSat isSpaceCh (natDec n ++ rest) := by
  obtain ⟨c, t, hct⟩ : ∃ c t, natDec n = c :: t := by
    cases h : natDec n with
    | nil => exact absurd h (natDec_ne_nil n)
    | cons c t => exact ⟨c, t, rfl⟩
  have hcd : Char.isDigit c = true := by
    apply natDec_all_digits n
    rw [hct]
    exact List.mem_cons_self c t
  rw [hct, List.cons_append]
  exact (isDigit_not_special hcd).2.2.2

theorem parseIntTok_natDec_cons (n : ℕ) (c : Char) (t : List Char)
    (hc : Char.isDigit c = false) :
    parseIntTok (natDec n ++ (c :: t)) = some ((n : ℤ), c :: t) :=
  parseIntTok_natDec n (c :: t) hc

theorem posRepr0_head_digit (n k : ℕ) :
    ∃ c t, posRepr0 n k = c :: t ∧ Char.isDigit c = true := by
  obtain ⟨c, t, hct⟩ : ∃ c t, natDec (if k = 0 then n else n / 10 ^ k) = c :: t := by
    cases h : natDec (if k = 0 then n else n / 10 ^ k) with
    | nil => exact absurd h (natDec_ne_nil _)
    | cons c t => exact ⟨c, t, rfl⟩
  have hcd : Char.isDigit c = true := by
    apply natDec_all_digits (if k = 0 then n else n / 10 ^ k)
    rw [hct]
    exact List.mem_cons_self c t
  unfold posRepr0
  by_cases hk : k = 0
  · rw [if_pos hk] at hct ⊢
    rw [hct, List.cons_append]
    exact ⟨c, t ++ ['.', '0'], rfl, hcd⟩
  · rw [if_neg hk] at hct ⊢
    rw [hct, List.cons_append]
    exact ⟨c, t ++ '.' :: fracDigits k n, rfl, hcd⟩

theorem pyFloatRepr_pos {q : ℚ} (hq0 : 0 < q) (hqlo : 1 / 10000 ≤ q)
    (hqhi : q < 10 ^ 16) {k : ℕ} (hk : decScale q.den = some k) :
    pyFloatRepr q = posRepr0 (q.num.toNat * (10 ^ k / q.den)) k := by
  unfold pyFloatRepr pyFloatAbs
  rw [if_neg (by linarith : ¬q < 0), if_neg (ne_of_gt hq0), hk]
  dsimp only
  rw [if_neg (by linarith : ¬q < 1 / 10000), if_neg (by linarith : ¬(10 : ℚ) ^ 16 ≤ q)]

theorem pyFloatRepr_head_digit {q : ℚ} (hq : posFloat q) :
    ∃ c t, pyFloatRepr q = c :: t ∧ Char.isDigit c = true := by
  rcases hq with rfl | ⟨hq0, hqlo, hqhi, hks⟩
  · exact ⟨'0', ['.', '0'], rfl, by decide⟩
  · obtain ⟨k, hk⟩ := Option.isSome_iff_exists.mp hks
    rw [pyFloatRepr_pos hq0 hqlo hqhi hk]
    exact posRepr0_head_digit _ _

theorem headNotSat_space_float {q : ℚ} (hq : posFloat q) (rest : List Char) :
    headNotSat isSpaceCh (pyFloatRepr q ++ rest) := by
  obtain ⟨c, t, hct, hcd⟩ := pyFloatRepr_head_digit hq
  rw [hct, List.cons_append]
  exact (isDigit_not_special hcd).2.2.2

theorem parseFloatTok_repr_cons {q : ℚ} (hq : posFloat q) (c : Char) (t : List Char)
    (hc : Char.isDigit c = false) :
    parseFloatTok (pyFloatRepr q ++ (c :: t)) = some (q, c :: t) :=
  parseFloatTok_pyFloatRepr hq (c :: t) hc

theorem parse_rgb_str_gen (a b c : ℕ) :
    parse_rgb_str (String.mk (['r','g','b','('] ++ natDec a ++ [',',' '] ++ natDec b ++
      [',',' '] ++ natDec c ++ [')'])) = RGB.mkZ (a : ℤ) (b : ℤ) (c : ℤ) := by
  unfold parse_rgb_str
  simp only [List.append_assoc, List.cons_append, List.nil_append]
  rw [skipWs_cons_no 'r' _ (by decide)]
  simp only [expectLit_cons, expectLit_nil, Option.bind_eq_bind, Option.some_bind]
  rw [skipWs_no_ws _ (headNotSat_space_natDec a _)]
  rw [parseIntTok_natDec_cons a ',' _ (by decide)]
  simp only [Option.bind_eq_bind, Option.some_bind]
  rw [skipWs_cons_no ',' _ (by decide), expectCh_cons]
  simp only [Option.bind_eq_bind, Option.some_bind]
  rw [skipWs_space, skipWs_no_ws _ (headNotSat_space_natDec b _)]
  rw [parseIntTok_natDec_cons b ',' _ (by decide)]
  simp only [Option.bind_eq_bind, Option.some_bind]
  rw [skipWs_cons_no ',' _ (by decide), expectCh_cons]
  simp only [Option.bind_eq_bind, Option.some_bind]
  rw [skipWs_space, skipWs_no_ws _ (headNotSat_space_natDec c _)]
  rw [parseIntTok_natDec_cons c ')' _ (by decide)]
  simp only [Option.bind_eq_bind, Option.some_bind]
  rw [skipWs_cons_no ')' _ (by decide), expectCh_cons]
  simp only [Option.bind_eq_bind, Option.some_bind]
  rw [if_pos (show skipWs ([] : List Char) = [] from rfl)]

theorem parse_hsv_str_gen {h s v : ℚ} (hh : posFloat h) (hs : posFloat s)
    (hv : posFloat v) :
    parse_hsv_str (String.mk (['h','s','v','('] ++ pyFloatRepr h ++ [',',' '] ++
      pyFloatRepr s ++ [',',' '] ++ pyFloatRepr v ++ [')'])) = HSV.mk h s v := by
  unfold parse_hsv_str
  simp only [List.append_assoc, List.cons_append, List.nil_append]
  rw [skipWs_cons_no 'h' _ (by decide)]
  simp only [expectLit_cons, expectLit_nil, Option.bind_eq_bind, Option.some_bind]
  rw [skipWs_no_ws _ (headNotSat_space_float hh _)]
  rw [parseFloatTok_repr_cons hh ',' _ (by decide)]
  simp only [Option.bind_eq_bind, Option.some_bind]
  rw [skipWs_cons_no ',' _ (by decide), expectCh_cons]
  simp only [Option.bind_eq_bind, Option.some_bind]
  rw [skipWs_space, skipWs_no_ws _ (headNotSat_space_float hs _)]
  rw [parseFloatTok_repr_cons hs ',' _ (by decide)]
  simp only [Option.bind_eq_bind, Option.some_bind]
  rw [skipWs_cons_no ',' _ (by decide), expectCh_cons]
  simp only [Option.bind_eq_bind, Option.some_bind]
  rw [skipWs_space, skipWs_no_ws _ (headNotSat_space_float hv _)]
  rw [parseFloatTok_repr_cons hv ')' _ (by decide)]
  simp only [Option.bind_eq_bind, Option.some_bind]
  rw [skipWs_cons_no ')' _ (by decide), expectCh_cons]
  simp only [Option.bind_eq_bind, Option.some_bind]
  rw [if_pos (show skipWs ([] : List Char) = [] from rfl)]

theorem parse_hsl_str_gen {h s l : ℚ} (hh : posFloat h) (hs : posFloat s)
    (hl : posFloat l) :
    parse_hsl_str (String.mk (['h','s','l','('] ++ pyFloatRepr h ++ [',',' '] ++
      pyFloatRepr s ++ [',',' '] ++ pyFloatRepr l ++ [')'])) = HSL.mk h s l := by
  unfold parse_hsl_str
  simp only [List.append_assoc, List.cons_append, List.nil_append]
  rw [skipWs_cons_no 'h' _ (by decide)]
  simp only [expectLit_cons, expectLit_nil, Option.bind_eq_bind, Option.some_bind]
  rw [skipWs_no_ws _ (headNotSat_space_float hh _)]
  rw [parseFloatTok_repr_cons hh ',' _ (by decide)]
  simp only [Option.bind_eq_bind, Option.some_bind]
  rw [skipWs_cons_no ',' _ (by decide), expectCh_cons]
  simp only [Option.bind_eq_bind, Option.some_bind]
  rw [skipWs_space, skipWs_no_ws _ (headNotSat_space_float hs _)]
  rw [parseFloatTok_repr_cons hs ',' _ (by decide)]
  simp only [Option.bind_eq_bind, Option.some_bind]
  rw [skipWs_cons_no ',' _ (by decide), expectCh_cons]
  simp only [Option.bind_eq_bind, Option.some_bind]
  rw [skipWs_space, skipWs_no_ws _ (headNotSat_space_float hl _)]
  rw [parseFloatTok_repr_cons hl ')' _ (by decide)]
  simp only [Option.bind_eq_bind, Option.some_bind]
  rw [skipWs_cons_no ')' _ (by decide), expectCh_cons]
  simp only [Option.bind_eq_bind, Option.some_bind]
  rw [if_pos (show skipWs ([] : List Char) = [] from rfl)]

theorem parse_cmyk_str_gen {c m y k : ℚ} (hc : posFloat c) (hm : posFloat m)
    (hy : posFloat y) (hk : posFloat k) :
    parse_cmyk_str (String.mk (['c','m','y','k','('] ++ pyFloatRepr c ++ [',',' '] ++
      pyFloatRepr m ++ [',',' '] ++ pyFloatRepr y ++ [',',' '] ++ pyFloatRepr k ++
      [')'])) = CMYK.mk c m y k := by
  unfold parse_cmyk_str
  simp only [List.append_assoc, List.cons_append, List.nil_append]
  rw [skipWs_cons_no 'c' _ (by decide)]
  simp only [expectLit_cons, expectLit_nil, Option.bind_eq_bind, Option.some_bind]
  rw [skipWs_no_ws _ (headNotSat_space_float hc _)]
  rw [parseFloatTok_repr_cons hc ',' _ (by decide)]
  simp only [Option.bind_eq_bind, Option.some_bind]
  rw [skipWs_cons_no ',' _ (by decide), expectCh_cons]
  simp only [Option.bind_eq_bind, Option.some_bind]
  rw [skipWs_space, skipWs_no_ws _ (headNotSat_space_float hm _)]
  rw [parseFloatTok_repr_cons hm ',' _ (by decide)]
  simp only [Option.bind_eq_bind, Option.some_bind]
  rw [skipWs_cons_no ',' _ (by decide), expectCh_cons]
  simp only [Option.bind_eq_bind, Option.some_bind]
  rw [skipWs_space, skipWs_no_ws _ (headNotSat_space_float hy _)]
  rw [parseFloatTok_repr_cons hy ',' _ (by decide)]
  simp only [Option.bind_eq_bind, Option.some_bind]
  rw [skipWs_cons_no ',' _ (by decide), expectCh_cons]
  simp only [Option.bind_eq_bind, Option.some_bind]
  rw [skipWs_space, skipWs_no_ws _ (headNotSat_space_float hk _)]
  rw [parseFloatTok_repr_cons hk ')' _ (by decide)]
  simp only [Option.bind_eq_bind, Option.some_bind]
  rw [skipWs_cons_no ')' _ (by decide), expectCh_cons]
  simp only [Option.bind_eq_bind, Option.some_bind]
  rw [if_pos (show skipWs ([] : List Char) = [] from rfl)]

theorem parse_rgba_str_gen (a b c : ℕ) {q : ℚ} (hq : posFloat q) :
    parse_rgba_str (String.mk (['r','g','b','a','('] ++ natDec a ++ [',',' '] ++
      natDec b ++ [',',' '] ++ natDec c ++ [',',' '] ++ pyFloatRepr q ++ [')'])) =
      RGBA.mkZ (a : ℤ) (b : ℤ) (c : ℤ) q := by
  unfold parse_rgba_str
  simp only [List.append_assoc, List.cons_append, List.nil_append]
  rw [skipWs_cons_no 'r' _ (by decide)]
  simp only [expectLit_cons, expectLit_nil, Option.bind_eq_bind, Option.some_bind]
  rw [skipWs_no_ws _ (headNotSat_space_natDec a _)]
  rw [parseIntTok_natDec_cons a ',' _ (by decide)]
  simp only [Option.bind_eq_bind, Option.some_bind]
  rw [skipWs_cons_no ',' _ (by decide), expectCh_cons]
  simp only [Option.bind_eq_bind, Option.some_bind]
  rw [skipWs_space, skipWs_no_ws _ (headNotSat_space_natDec b _)]
  rw [parseIntTok_natDec_cons b ',' _ (by decide)]
  simp only [Option.bind_eq_bind, Option.some_bind]
  rw [skipWs_cons_no ',' _ (by decide), expectCh_cons]
  simp only [Option.bind_eq_bind, Option.some_bind]
  rw [skipWs_space, skipWs_no_ws _ (headNotSat_space_natDec c _)]
  rw [parseIntTok_natDec_cons c ',' _ (by decide)]
  simp only [Option.bind_eq_bind, Option.some_bind]
  rw [skipWs_cons_no ',' _ (by decide), expectCh_cons]
  simp only [Option.bind_eq_bind, Option.some_bind]
  rw [skipWs_space, skipWs_no_ws _ (headNotSat_space_float hq _)]
  rw [parseFloatTok_repr_cons hq ')' _ (by decide)]
  simp only [Option.bind_eq_bind, Option.some_bind]
  rw [skipWs_cons_no ')' _ (by decide), expectCh_cons]
  simp only [Option.bind_eq_bind, Option.some_bind]
  rw [if_pos (show skipWs ([] : List Char) = [] from rfl)]

theorem parse_rgb_str_repr {x : RGBv} (hv : x.Valid) :
    parse_rgb_str (String.mk x.reprStr) = some x := by
  obtain ⟨h1, h2, h3, h4, h5, h6⟩ := hv
  unfold RGBv.reprStr
  rw [show intRepr x.red = natDec x.red.toNat from by
      unfold intRepr; rw [if_neg (by omega)],
    show intRepr x.green = natDec x.green.toNat from by
      unfold intRepr; rw [if_neg (by omega)],
    show intRepr x.blue = natDec x.blue.toNat from by
      unfold intRepr; rw [if_neg (by omega)],
    parse_rgb_str_gen]
  rw [Int.toNat_of_nonneg h1, Int.toNat_of_nonneg h3, Int.toNat_of_nonneg h5]
  exact RGB.mkZ_of_valid ⟨h1, h2, h3, h4, h5, h6⟩

theorem parse_rgba_str_repr {x : RGBAv} (hv : x.Valid) (ha : posFloat x.alpha) :
    parse_rgba_str (String.mk x.reprStr) = some x := by
  obtain ⟨h1, h2, h3, h4, h5, h6, h7, h8⟩ := hv
  unfold RGBAv.reprStr
  rw [show intRepr x.red = natDec x.red.toNat from by
      unfold intRepr; rw [if_neg (by omega)],
    show intRepr x.green = natDec x.green.toNat from by
      unfold intRepr; rw [if_neg (by omega)],
    show intRepr x.blue = natDec x.blue.toNat from by
      unfold intRepr; rw [if_neg (by omega)],
    show pyFloatRepr x.alpha = pyFloatRepr x.alpha from rfl,
    parse_rgba_str_gen _ _ _ ha]
  rw [Int.toNat_of_nonneg h1, Int.toNat_of_nonneg h3, Int.toNat_of_nonneg h5]
  exact rgba_mkZ_of_valid ⟨h1, h2, h3, h4, h5, h6, h7, h8⟩

theorem parse_hsv_str_repr {x : HSVv} (hh : posFloat x.hue) (hs : posFloat x.saturation)
    (hvv : posFloat x.value) (hval : x.Valid) :
    parse_hsv_str (String.mk x.reprStr) = some x := by
  unfold HSVv.reprStr
  rw [parse_hsv_str_gen hh hs hvv]
  exact hsv_mk_of_valid hval

theorem parse_hsl_str_repr {x : HSLv} (hh : posFloat x.hue) (hs : posFloat x.saturation)
    (hl : posFloat x.lightness) (hval : x.Valid) :
    parse_hsl_str (String.mk x.reprStr) = some x := by
  unfold HSLv.reprStr
  rw [parse_hsl_str_gen hh hs hl]
  exact hsl_mk_of_valid hval

theorem parse_cmyk_str_repr {x : CMYKv} (hc : posFloat x.cyan) (hm : posFloat x.magenta)
    (hy : posFloat x.yellow) (hk : posFloat x.key) (hval : x.Valid) :
    parse_cmyk_str (String.mk x.reprStr) = some x := by
  unfold CMYKv.reprStr
  rw [parse_cmyk_str_gen hc hm hy hk]
  exact cmyk_mk_of_valid hval

theorem isLowerHex_not_space {c : Char} (h : isLowerHex c = true) :
    isSpaceCh c = false := by
  cases hsp : isSpaceCh c
  · rfl
  · exfalso
    unfold isSpaceCh at hsp
    simp only [Bool.or_eq_true, decide_eq_true_eq] at hsp
    rcases hsp with ((((rfl | rfl) | rfl) | rfl) | rfl) | rfl <;>
      simp [isLowerHex] at h

theorem isAsciiAlpha_not_space {c : Char} (h : isAsciiAlpha c = true) :
    isSpaceCh c = false := by
  cases hsp : isSpaceCh c
  · rfl
  · exfalso
    unfold isSpaceCh at hsp
    simp only [Bool.or_eq_true, decide_eq_true_eq] at hsp
    rcases hsp with ((((rfl | rfl) | rfl) | rfl) | rfl) | rfl <;>
      simp [isAsciiAlpha] at h

theorem string_mk_data (s : String) : String.mk s.data = s := by
  cases s
  rfl

theorem parse_hex_str_repr {hx : HEXv} {ds : List Char}
    (hdata : hx.value.data = '#' :: ds) (hlen : ds.length = 6)
    (hall : ds.all isLowerHex = true) :
    parse_hex_str (String.mk hx.reprStr) = some hx := by
  obtain ⟨v⟩ := hx
  obtain ⟨d⟩ := v
  have hd : d = '#' :: ds := hdata
  subst hd
  obtain ⟨c1, c2, c3, c4, c5, c6, rfl⟩ := list_len6 hlen
  have hall6 : [c1, c2, c3, c4, c5, c6].all isHexAny = true := by
    rw [List.all_eq_true] at hall ⊢
    intro c hc
    exact isHexAny_of_isLowerHex (hall c hc)
  unfold parse_hex_str HEXv.reprStr
  simp only [List.append_assoc, List.cons_append, List.nil_append]
  rw [skipWs_cons_no 'h' _ (by decide)]
  simp only [expectLit_cons, expectLit_nil, Option.bind_eq_bind, Option.some_bind]
  rw [skipWs_cons_no '#' _ (by decide)]
  rw [show stripOneHash ('#' :: c1 :: c2 :: c3 :: c4 :: c5 :: c6 :: [')']) =
    c1 :: c2 :: c3 :: c4 :: c5 :: c6 :: [')'] from rfl]
  dsimp only
  rw [if_pos hall6]
  rw [skipWs_cons_no ')' _ (by decide), expectCh_cons]
  simp only [Option.bind_eq_bind, Option.some_bind]
  rw [if_pos (show skipWs ([] : List Char) = [] from rfl)]
  exact HEX.mk_canonical hlen hall

theorem cleanLowerHex_of_all {cl : List Char} (hall : cl.all isLowerHex = true) :
    cleanLowerHex cl = cl := by
  unfold cleanLowerHex
  have hm : List.map Char.toLower cl = cl := pyLower_of_all_lowerHex hall
  rw [hm]
  rw [List.filter_eq_self]
  intro c hc
  exact List.all_eq_true.mp hall c hc

theorem parse_assa_str_repr {a : ASSAv} (hv : a.Valid) :
    parse_assa_str (String.mk a.reprStr) = some a := by
  obtain ⟨cl, hdata, hall, hlen⟩ := hv
  obtain ⟨v⟩ := a
  obtain ⟨d⟩ := v
  have hd : d = '&' :: 'H' :: (cl ++ ['&']) := hdata
  subst hd
  have hclean : ASSAv.clean_value ⟨String.mk ('&' :: 'H' :: (cl ++ ['&']))⟩ = cl :=
    ASSAv.clean_value_explicit hall
  have hclne : cl ≠ [] := by
    intro h
    rw [h] at hlen
    simp at hlen
  obtain ⟨c0, t0, hct⟩ : ∃ c0 t0, cl = c0 :: t0 := by
    cases hc : cl with
    | nil => exact absurd hc hclne
    | cons c0 t0 => exact ⟨c0, t0, rfl⟩
  have hc0hex : isLowerHex c0 = true := by
    rw [List.all_eq_true] at hall
    exact hall c0 (by rw [hct]; exact List.mem_cons_self c0 t0)
  unfold parse_assa_str ASSAv.reprStr
  rw [hclean]
  simp only [List.append_assoc, List.cons_append, List.nil_append]
  rw [skipWs_cons_no 'a' _ (by decide)]
  simp only [expectLit_cons, expectLit_nil, Option.bind_eq_bind, Option.some_bind]
  rw [show skipWs (cl ++ [')']) = cl ++ [')'] from skipWs_no_ws _ (by
    rw [hct, List.cons_append]
    exact isLowerHex_not_space hc0hex)]
  rw [takeWhile_append_all cl [')'] (fun c hc =>
      isHexAny_of_isLowerHex (List.all_eq_true.mp hall c hc))
      (show isHexAny ')' = false from by decide)]
  rw [dropWhile_append_all cl [')'] (fun c hc =>
      isHexAny_of_isLowerHex (List.all_eq_true.mp hall c hc))
      (show isHexAny ')' = false from by decide)]
  rw [if_pos hlen]
  rw [skipWs_cons_no ')' _ (by decide), expectCh_cons]
  simp only [Option.bind_eq_bind, Option.some_bind]
  rw [if_pos (show skipWs ([] : List Char) = [] from rfl)]
  exact ASSA.mk_of_clean hall hlen (by
    rw [show (String.mk cl).data = cl from rfl]
    exact cleanLowerHex_of_all hall)

theorem webcolor_mk_self {w : WEBv} (hv : w.Valid) : webcolor.mk w.name = some w := by
  have hv2 := hv
  unfold WEBv.Valid at hv2
  obtain ⟨v, hvv⟩ := Option.isSome_iff_exists.mp hv2
  have hmem := lookup_mem hvv
  have htab : cssColorToHex.all
      (fun p => p.1.data.map Char.toLower == p.1.data) = true := by decide
  have hlow : w.name.data.map Char.toLower = w.name.data :=
    beq_iff_eq.mp (List.all_eq_true.mp htab _ hmem)
  unfold webcolor.mk
  dsimp only
  have hnl : String.mk (pyLower w.name.data) = w.name := by
    unfold pyLower
    rw [hlow]
  rw [hnl, if_pos (show (cssColorToHex.lookup w.name).isSome = true from hv)]

theorem parse_webcolor_str_repr {w : WEBv} (hv : w.Valid) :
    parse_webcolor_str (String.mk w.reprStr) = some w := by
  have hv2 := hv
  unfold WEBv.Valid at hv2
  obtain ⟨v, hvv⟩ := Option.isSome_iff_exists.mp hv2
  have hmem := lookup_mem hvv
  have htab2 : cssColorToHex.all
      (fun p => p.1.data.all isAsciiAlpha && !p.1.data.isEmpty) = true := by decide
  have h2 := List.all_eq_true.mp htab2 _ hmem
  rw [Bool.and_eq_true] at h2
  have halpha : ∀ c ∈ w.name.data, isAsciiAlpha c = true := List.all_eq_true.mp h2.1
  have hne : w.name.data ≠ [] := by
    intro h
    rw [h] at h2
    exact absurd h2.2 (by decide)
  obtain ⟨c0, t0, hct⟩ : ∃ c0 t0, w.name.data = c0 :: t0 := by
    cases hc : w.name.data with
    | nil => exact absurd hc hne
    | cons c0 t0 => exact ⟨c0, t0, rfl⟩
  have hc0 : isAsciiAlpha c0 = true := halpha c0 (by rw [hct]; exact List.mem_cons_self c0 t0)
  unfold parse_webcolor_str WEBv.reprStr
  simp only [List.append_assoc, List.cons_append, List.nil_append]
  rw [skipWs_cons_no 'w' _ (by decide)]
  simp only [expectLit_cons, expectLit_nil, Option.bind_eq_bind, Option.some_bind]
  rw [skipWs_cons_no (Char.ofNat 39) _ (by decide)]
  dsimp only
  rw [if_pos (Or.inl rfl)]
  simp only [Option.bind_eq_bind, Option.some_bind]
  rw [show skipWs (w.name.data ++ Char.ofNat 39 :: [')']) =
    w.name.data ++ Char.ofNat 39 :: [')'] from skipWs_no_ws _ (by
      rw [hct, List.cons_append]
      exact isAsciiAlpha_not_space hc0)]
  rw [takeWhile_append_all w.name.data (Char.ofNat 39 :: [')']) halpha
      (show isAsciiAlpha (Char.ofNat 39) = false from by decide)]
  rw [dropWhile_append_all w.name.data (Char.ofNat 39 :: [')']) halpha
      (show isAsciiAlpha (Char.ofNat 39) = false from by decide)]
  rw [if_neg hne]
  rw [skipWs_cons_no (Char.ofNat 39) _ (by decide), expectCh_cons]
  simp only [Option.bind_eq_bind, Option.some_bind]
  rw [skipWs_cons_no ')' _ (by decide), expectCh_cons]
  simp only [Option.bind_eq_bind, Option.some_bind]
  rw [if_pos (show skipWs ([] : List Char) = [] from rfl)]
  rw [string_mk_data w.name]
  exact webcolor_mk_self hv

theorem rgba_mkQ_ofInt (a b c : ℤ) (al : ℚ) :
    RGBA.mkQ ((a : ℚ)) ((b : ℚ)) ((c : ℚ)) al = RGBA.mkZ a b c al := by
  unfold RGBA.mkQ
  rw [pyTrunc_intCast, pyTrunc_intCast, pyTrunc_intCast]

theorem parse_rgb_map_dict {x : RGBv} (hv : x.Valid) :
    parse_rgb_map x.dictM = some x := by
  unfold parse_rgb_map RGBv.dictM
  rw [if_pos (show hasKeysQ [("red", (x.red : ℚ)), ("green", (x.green : ℚ)),
    ("blue", (x.blue : ℚ))] ["red", "green", "blue"] = true from rfl)]
  rw [show getQ [("red", (x.red : ℚ)), ("green", (x.green : ℚ)),
      ("blue", (x.blue : ℚ))] "red" = ((x.red : ℚ)) from rfl,
    show getQ [("red", (x.red : ℚ)), ("green", (x.green : ℚ)),
      ("blue", (x.blue : ℚ))] "green" = ((x.green : ℚ)) from rfl,
    show getQ [("red", (x.red : ℚ)), ("green", (x.green : ℚ)),
      ("blue", (x.blue : ℚ))] "blue" = ((x.blue : ℚ)) from rfl,
    mkQ_ofInt]
  have := RGB.mkZ_of_valid (show (RGBv.mk x.red x.green x.blue).Valid from hv)
  exact this

theorem parse_rgba_map_dict {x : RGBAv} (hv : x.Valid) :
    parse_rgba_map x.dictM = some x := by
  unfold parse_rgba_map RGBAv.dictM
  rw [if_pos (show hasKeysQ [("red", (x.red : ℚ)), ("green", (x.green : ℚ)),
    ("blue", (x.blue : ℚ)), ("alpha", x.alpha)] ["red", "green", "blue", "alpha"] =
    true from rfl)]
  rw [show getQ [("red", (x.red : ℚ)), ("green", (x.green : ℚ)),
      ("blue", (x.blue : ℚ)), ("alpha", x.alpha)] "red" = ((x.red : ℚ)) from rfl,
    show getQ [("red", (x.red : ℚ)), ("green", (x.green : ℚ)),
      ("blue", (x.blue : ℚ)), ("alpha", x.alpha)] "green" = ((x.green : ℚ)) from rfl,
    show getQ [("red", (x.red : ℚ)), ("green", (x.green : ℚ)),
      ("blue", (x.blue : ℚ)), ("alpha", x.alpha)] "blue" = ((x.blue : ℚ)) from rfl,
    show getQ [("red", (x.red : ℚ)), ("green", (x.green : ℚ)),
      ("blue", (x.blue : ℚ)), ("alpha", x.alpha)] "alpha" = x.alpha from rfl,
    rgba_mkQ_ofInt]
  have := rgba_mkZ_of_valid
    (show (RGBAv.mk x.red x.green x.blue x.alpha).Valid from hv)
  exact this

theorem parse_hsv_map_dict {x : HSVv} (hv : x.Valid) :
    parse_hsv_map x.dictM = some x := by
  unfold parse_hsv_map HSVv.dictM
  rw [if_pos (show hasKeysQ [("hue", x.hue), ("saturation", x.saturation),
    ("value", x.value)] ["hue", "saturation", "value"] = true from rfl)]
  rw [show getQ [("hue", x.hue), ("saturation", x.saturation),
      ("value", x.value)] "hue" = x.hue from rfl,
    show getQ [("hue", x.hue), ("saturation", x.saturation),
      ("value", x.value)] "saturation" = x.saturation from rfl,
    show getQ [("hue", x.hue), ("saturation", x.saturation),
      ("value", x.value)] "value" = x.value from rfl]
  exact hsv_mk_of_valid hv

theorem parse_hsl_map_dict {x : HSLv} (hv : x.Valid) :
    parse_hsl_map x.dictM = some x := by
  unfold parse_hsl_map HSLv.dictM
  rw [if_pos (show hasKeysQ [("hue", x.hue), ("saturation", x.saturation),
    ("lightness", x.lightness)] ["hue", "saturation", "lightness"] = true from rfl)]
  rw [show getQ [("hue", x.hue), ("saturation", x.saturation),
      ("lightness", x.lightness)] "hue" = x.hue from rfl,
    show getQ [("hue", x.hue), ("saturation", x.saturation),
      ("lightness", x.lightness)] "saturation" = x.saturation from rfl,
    show getQ [("hue", x.hue), ("saturation", x.saturation),
      ("lightness", x.lightness)] "lightness" = x.lightness from rfl]
  exact hsl_mk_of_valid hv

theorem parse_cmyk_map_dict {x : CMYKv} (hv : x.Valid) :
    parse_cmyk_map x.dictM = some x := by
  unfold parse_cmyk_map CMYKv.dictM
  rw [if_pos (show hasKeysQ [("cyan", x.cyan), ("magenta", x.magenta),
    ("yellow", x.yellow), ("key", x.key)] ["cyan", "magenta", "yellow", "key"] =
    true from rfl)]
  rw [show getQ [("cyan", x.cyan), ("magenta", x.magenta),
      ("yellow", x.yellow), ("key", x.key)] "cyan" = x.cyan from rfl,
    show getQ [("cyan", x.cyan), ("magenta", x.magenta),
      ("yellow", x.yellow), ("key", x.key)] "magenta" = x.magenta from rfl,
    show getQ [("cyan", x.cyan), ("magenta", x.magenta),
      ("yellow", x.yellow), ("key", x.key)] "yellow" = x.yellow from rfl,
    show getQ [("cyan", x.cyan), ("magenta", x.magenta),
      ("yellow", x.yellow), ("key", x.key)] "key" = x.key from rfl]
  exact cmyk_mk_of_valid hv

theorem hex_mk_self {hx : HEXv} (hv : hx.Valid) : HEX.mk hx.value = some hx := by
  obtain ⟨k, ds, hdata, hlen, hall⟩ := hv
  obtain ⟨v⟩ := hx
  obtain ⟨d⟩ := v
  have hd : d = List.replicate (k + 1) '#' ++ ds := hdata
  subst hd
  unfold HEX.mk
  dsimp only
  have hstrip : stripOneHash (String.mk (List.replicate (k + 1) '#' ++ ds)).data =
      List.replicate k '#' ++ ds := by
    show stripOneHash (List.replicate (k + 1) '#' ++ ds) = List.replicate k '#' ++ ds
    rw [List.replicate_succ, List.cons_append]
    rw [show stripOneHash ('#' :: (List.replicate k '#' ++ ds)) =
      if ('#' : Char) = '#' then List.replicate k '#' ++ ds
      else '#' :: (List.replicate k '#' ++ ds) from rfl, if_pos rfl]
  rw [hstrip]
  have hm : List.map Char.toLower ds = ds := pyLower_of_all_lowerHex hall
  have hlower : pyLower (List.replicate k '#' ++ ds) = List.replicate k '#' ++ ds := by
    unfold pyLower
    rw [List.map_append, List.map_replicate,
      show Char.toLower '#' = '#' from by decide, hm]
  rw [hlower]
  have hvb : HEX.validateB ('#' :: (List.replicate k '#' ++ ds)) = true := by
    unfold HEX.validateB
    dsimp only
    rw [List.dropWhile_cons_of_pos (by decide), dropWhile_hash_replicate,
      dropWhile_hash_of_all_lowerHex hall]
    rw [Bool.and_eq_true, beq_iff_eq]
    refine ⟨hlen, ?_⟩
    rw [List.all_eq_true]
    intro c hc
    exact isHexAny_of_isLowerHex (List.all_eq_true.mp hall c hc)
  rw [if_pos hvb]
  rw [show List.replicate (k + 1) '#' ++ ds = '#' :: (List.replicate k '#' ++ ds) from
    by rw [List.replicate_succ, List.cons_append]]

theorem cleanLowerHex_wrapped {cl : List Char} (hall : cl.all isLowerHex = true) :
    cleanLowerHex ('&' :: 'H' :: (cl ++ ['&'])) = cl := by
  unfold cleanLowerHex
  rw [List.map_cons, List.map_cons, List.map_append]
  rw [show Char.toLower '&' = '&' from by decide,
    show Char.toLower 'H' = 'h' from by decide]
  have hm : List.map Char.toLower cl = cl := pyLower_of_all_lowerHex hall
  rw [hm, show List.map Char.toLower ['&'] = ['&'] from by decide]
  rw [List.filter_cons_of_neg (by decide), List.filter_cons_of_neg (by decide),
    List.filter_append]
  rw [List.filter_eq_self.mpr (fun c hc => List.all_eq_true.mp hall c hc),
    show List.filter isLowerHex ['&'] = [] from by decide, List.append_nil]

theorem assa_mk_self {a : ASSAv} (hv : a.Valid) : ASSA.mk a.value = some a := by
  obtain ⟨cl, hdata, hall, hlen⟩ := hv
  obtain ⟨v⟩ := a
  obtain ⟨d⟩ := v
  have hd : d = '&' :: 'H' :: (cl ++ ['&']) := hdata
  subst hd
  exact ASSA.mk_of_clean hall hlen (by
    show cleanLowerHex ('&' :: 'H' :: (cl ++ ['&'])) = cl
    exact cleanLowerHex_wrapped hall)

theorem parse_hex_map_dict {hx : HEXv} (hv : hx.Valid) :
    parse_hex_map hx.dictM = some hx := by
  unfold parse_hex_map HEXv.dictM
  rw [if_pos (show (List.lookup "value" [("value", hx.value)]).isSome = true from rfl)]
  rw [show getS [("value", hx.value)] "value" = hx.value from rfl]
  exact hex_mk_self hv

theorem parse_assa_map_dict {a : ASSAv} (hv : a.Valid) :
    parse_assa_map a.dictM = some a := by
  unfold parse_assa_map ASSAv.dictM
  rw [if_pos (show (List.lookup "value" [("value", a.value)]).isSome = true from rfl)]
  rw [show getS [("value", a.value)] "value" = a.value from rfl]
  exact assa_mk_self hv

theorem parse_webcolor_map_dict {w : WEBv} (hv : w.Valid) :
    parse_webcolor_map w.dictM = some w := by
  unfold parse_webcolor_map WEBv.dictM
  rw [if_pos (show (List.lookup "name" [("name", w.name)]).isSome = true from rfl)]
  rw [show getS [("name", w.name)] "name" = w.name from rfl]
  exact webcolor_mk_self hv

/-- C1: the unqualified round-trip claim fails on the string form.  The valid
value `HSV(1e-05, 0.0, 0.0)` is rendered by Python float repr in scientific
notation (`1e-05`), which the float pattern of `parse_hsv` cannot match, so
parsing the repr of this valid value fails. -/
theorem c1_counterexample :
    HSVv.Valid (HSVv.mk (1 / 100000) 0 0) ∧
    parse_hsv_str (String.mk (HSVv.reprStr (HSVv.mk (1 / 100000) 0 0))) = none := by
  have hnum : ((1 : ℚ) / 100000).num = 1 := by norm_num
  have hden : ((1 : ℚ) / 100000).den = 100000 := by norm_num
  have h1 : pyFloatRepr ((1 : ℚ) / 100000) = ['1', 'e', '-', '0', '5'] := by
    unfold pyFloatRepr pyFloatAbs
    rw [if_neg (by norm_num : ¬ ((1 : ℚ) / 100000) < 0),
      if_neg (by norm_num : ¬ ((1 : ℚ) / 100000) = 0), hden,
      show decScale 100000 = some 5 from by decide]
    dsimp only
    rw [hnum, if_pos (by norm_num : (1 : ℚ) / 100000 < 1 / 10000)]
    decide
  have hrepr : HSVv.reprStr (HSVv.mk (1 / 100000) 0 0) =
      ['h','s','v','(','1','e','-','0','5',',',' ','0','.','0',',',' ','0','.','0',')'] := by
    unfold HSVv.reprStr
    dsimp only
    rw [h1, show pyFloatRepr 0 = ['0', '.', '0'] from by decide]
    rfl
  constructor
  · unfold HSVv.Valid
    dsimp only
    norm_num
  · rw [hrepr]
    decide

/-- C1: the round-trip contract `parse(format(x)) = x` restricted to the cases
where it holds.  The mapping form round-trips for every valid value of every
variant.  The canonical string form round-trips for every valid RGB, for ASSA
and webcolor, for RGBA/HSV/HSL/CMYK whenever each float field is rendered in
positional decimal notation (zero, or in `[1e-4, 1e16)` with a decimal
denominator), and for HEX whenever the stored value has a single leading
`#`. -/
theorem c1_roundtrip_amended :
    (∀ x : RGBv, x.Valid →
      parse_rgb_str (String.mk x.reprStr) = some x ∧ parse_rgb_map x.dictM = some x) ∧
    (∀ x : RGBAv, x.Valid → parse_rgba_map x.dictM = some x ∧
      (posFloat x.alpha → parse_rgba_str (String.mk x.reprStr) = some x)) ∧
    (∀ x : HSVv, x.Valid → parse_hsv_map x.dictM = some x ∧
      (posFloat x.hue → posFloat x.saturation → posFloat x.value →
        parse_hsv_str (String.mk x.reprStr) = some x)) ∧
    (∀ x : HSLv, x.Valid → parse_hsl_map x.dictM = some x ∧
      (posFloat x.hue → posFloat x.saturation → posFloat x.lightness →
        parse_hsl_str (String.mk x.reprStr) = some x)) ∧
    (∀ x : CMYKv, x.Valid → parse_cmyk_map x.dictM = some x ∧
      (posFloat x.cyan → posFloat x.magenta → posFloat x.yellow → posFloat x.key →
        parse_cmyk_str (String.mk x.reprStr) = some x)) ∧
    (∀ hx : HEXv, hx.Valid → parse_hex_map hx.dictM = some hx) ∧
    (∀ (hx : HEXv) (ds : List Char), hx.value.data = '#' :: ds → ds.length = 6 →
      ds.all isLowerHex = true → parse_hex_str (String.mk hx.reprStr) = some hx) ∧
    (∀ a : ASSAv, a.Valid →
      parse_assa_str (String.mk a.reprStr) = some a ∧ parse_assa_map a.dictM = some a) ∧
    (∀ w : WEBv, w.Valid →
      parse_webcolor_str (String.mk w.reprStr) = some w ∧
        parse_webcolor_map w.dictM = some w) := by
  refine ⟨?_, ?_, ?_, ?_, ?_, ?_, ?_, ?_, ?_⟩
  · exact fun x hv => ⟨parse_rgb_str_repr hv, parse_rgb_map_dict hv⟩
  · exact fun x hv => ⟨parse_rgba_map_dict hv, fun ha => parse_rgba_str_repr hv ha⟩
  · exact fun x hv =>
      ⟨parse_hsv_map_dict hv, fun h1 h2 h3 => parse_hsv_str_repr h1 h2 h3 hv⟩
  · exact fun x hv =>
      ⟨parse_hsl_map_dict hv, fun h1 h2 h3 => parse_hsl_str_repr h1 h2 h3 hv⟩
  · exact fun x hv =>
      ⟨parse_cmyk_map_dict hv, fun h1 h2 h3 h4 => parse_cmyk_str_repr h1 h2 h3 h4 hv⟩
  · exact fun hx hv => parse_hex_map_dict hv
  · exact fun hx ds h1 h2 h3 => parse_hex_str_repr h1 h2 h3
  · exact fun a hv => ⟨parse_assa_str_repr hv, parse_assa_map_dict hv⟩
  · exact fun w hv => ⟨parse_webcolor_str_repr hv, parse_webcolor_map_dict hv⟩

theorem c1_roundtrip_amended_witness :
    parse_rgb_map (RGBv.mk 12 200 99).dictM = some (RGBv.mk 12 200 99) ∧
    parse_rgba_str (String.mk (RGBAv.mk 12 200 99 0).reprStr) =
      some (RGBAv.mk 12 200 99 0) ∧
    parse_hsv_str (String.mk (HSVv.mk 0 0 0).reprStr) = some (HSVv.mk 0 0 0) ∧
    parse_hsl_map (HSLv.mk 0 0 0).dictM = some (HSLv.mk 0 0 0) ∧
    parse_cmyk_str (String.mk (CMYKv.mk 0 0 0 0).reprStr) = some (CMYKv.mk 0 0 0 0) ∧
    parse_hex_map (HEXv.mk "#ff8040").dictM = some (HEXv.mk "#ff8040") ∧
    parse_hex_str (String.mk (HEXv.mk "#ff8040").reprStr) = some (HEXv.mk "#ff8040") ∧
    parse_assa_str (String.mk (ASSAv.mk "&H63c80c&").reprStr) =
      some (ASSAv.mk "&H63c80c&") ∧
    parse_webcolor_str (String.mk (WEBv.mk "red").reprStr) = some (WEBv.mk "red") := by
  refine ⟨?_, ?_, ?_, ?_, ?_, ?_, ?_, ?_, ?_⟩
  · exact (c1_roundtrip_amended.1 (RGBv.mk 12 200 99) (by decide)).2
  · exact (c1_roundtrip_amended.2.1 (RGBAv.mk 12 200 99 0) (by decide)).2 (Or.inl rfl)
  · exact (c1_roundtrip_amended.2.2.1 (HSVv.mk 0 0 0) (by decide)).2
      (Or.inl rfl) (Or.inl rfl) (Or.inl rfl)
  · exact (c1_roundtrip_amended.2.2.2.1 (HSLv.mk 0 0 0) (by decide)).1
  · exact (c1_roundtrip_amended.2.2.2.2.1 (CMYKv.mk 0 0 0 0) (by decide)).2
      (Or.inl rfl) (Or.inl rfl) (Or.inl rfl) (Or.inl rfl)
  · exact c1_roundtrip_amended.2.2.2.2.2.1 (HEXv.mk "#ff8040")
      ⟨0, ['f','f','8','0','4','0'], by decide, by decide, by decide⟩
  · exact c1_roundtrip_amended.2.2.2.2.2.2.1 (HEXv.mk "#ff8040")
      ['f','f','8','0','4','0'] (by decide) (by decide) (by decide)
  · exact (c1_roundtrip_amended.2.2.2.2.2.2.2.1 (ASSAv.mk "&H63c80c&")
      ⟨['6','3','c','8','0','c'], by decide, by decide, Or.inl (by decide)⟩).1
  · exact (c1_roundtrip_amended.2.2.2.2.2.2.2.2 (WEBv.mk "red")
      (by unfold WEBv.Valid; decide)).1
